import Mathlib

/-! # ktntwitchgo: option encoder and request pipeline

A shallow embedding of the query-string encoder (`parseOptions`,
`parseMixedParam`, `isNumber`, `getJSONFieldName`, `isZeroValue`) and of the
request pipeline (`get`, `update`, `refresh`, `validate`, `getAppAccessToken`,
`handleRateLimit`, `extractRateLimit`, `emit`) of `api.go`.

Go values inspected through `reflect` are represented by the inductive type
`GoValue`; the library routines the code calls (`reflect.Value.IsZero`, the
`%v` verb of `fmt`, `strconv.Atoi`, `strings.Split`, `strings.Join`) are
written out as Lean functions next to the code that uses them.
-/

namespace Ktntwitchgo

/-! ## Go values as seen through `reflect` -/

/-- Static description of one struct field (`reflect.StructField`): its name,
whether the name is exported (`IsExported`), the value of `Tag.Get("json")`
(the empty string when the field carries no json tag) and whether the field
is embedded (`Anonymous`). -/
structure StructField where
  name : String
  exported : Bool
  jsonTag : String
  anonymous : Bool
  deriving DecidableEq, Repr

/-- Values of the kinds the encoder can meet: booleans, integers, strings
(also of named types such as `VideoPeriod`), `CommercialLength` (an integer
kind with a `String` method), pointers, slices, maps, interfaces and structs.
A non-nil pointer carries its address, which is what `%v` prints for it; the
entries of a map are listed in the order in which `fmt` prints them. -/
inductive GoValue where
  | bool (b : Bool)
  | int (n : Int)
  | commercialLength (n : Int)
  | str (s : String)
  | nilPtr
  | ptr (addr : Nat) (elem : GoValue)
  | nilSlice
  | slice (elems : List GoValue)
  | nilMap
  | map (entries : List (GoValue × GoValue))
  | nilIface
  | iface (dyn : GoValue)
  | struct (fields : List (StructField × GoValue))

/-- The kinds of `reflect.Kind` that occur in `GoValue`. -/
inductive Kind where
  | bool | int | string | pointer | slice | map | interface | struct
  deriving DecidableEq, Repr

/-- Models `reflect.Value.Kind`. -/
def GoValue.kind : GoValue → Kind
  | .bool _ => .bool
  | .int _ => .int
  | .commercialLength _ => .int
  | .str _ => .string
  | .nilPtr => .pointer
  | .ptr _ _ => .pointer
  | .nilSlice => .slice
  | .slice _ => .slice
  | .nilMap => .map
  | .map _ => .map
  | .nilIface => .interface
  | .iface _ => .interface
  | .struct _ => .struct

/-- Models `reflect.Value.IsZero`: false, 0, the empty string, a nil pointer,
slice, map or interface, and a struct all of whose fields are zero. (The
library skips fields named `_`; such a field cannot be assigned and holds the
zero value, so it passes the test here as well.) -/
def GoValue.IsZero : GoValue → Bool
  | .bool b => !b
  | .int n => n == 0
  | .commercialLength n => n == 0
  | .str s => s == ""
  | .nilPtr => true
  | .ptr _ _ => false
  | .nilSlice => true
  | .slice _ => false
  | .nilMap => true
  | .map _ => false
  | .nilIface => true
  | .iface _ => false
  | .struct fields => allZero fields
where
  /-- Every field of the list is zero. -/
  allZero : List (StructField × GoValue) → Bool
    | [] => true
    | (_, v) :: rest => v.IsZero && allZero rest

/-- Models `reflect.Value.IsNil` on the kinds that have a nil value. -/
def GoValue.IsNil : GoValue → Bool
  | .nilPtr => true
  | .nilSlice => true
  | .nilMap => true
  | .nilIface => true
  | _ => false

/-- Models `reflect.Value.Len` on slices and maps. -/
def GoValue.Len : GoValue → Nat
  | .slice elems => elems.length
  | .map entries => entries.length
  | _ => 0

/-- The two read-only bits of a `reflect.Value` (`flagStickyRO`,
`flagEmbedRO`): set when the value was reached through an unexported field. -/
structure ROFlag where
  sticky : Bool
  embed : Bool
  deriving DecidableEq, Repr

/-- Models `reflect.Value.CanInterface`: no read-only bit is set. -/
def ROFlag.CanInterface (fl : ROFlag) : Bool := !(fl.sticky || fl.embed)

/-- Models `flag.ro()`: any read-only bit becomes the sticky one. -/
def ROFlag.ro (fl : ROFlag) : ROFlag := { sticky := fl.sticky || fl.embed, embed := false }

/-- Flag of `v.Field(i)`: the sticky bit is inherited, and an unexported
field sets the embed bit when it is embedded and the sticky bit otherwise. -/
def ROFlag.field (fl : ROFlag) (f : StructField) : ROFlag :=
  { sticky := fl.sticky || (!f.exported && !f.anonymous)
    embed := !f.exported && f.anonymous }

/-- Flag of a value obtained by `reflect.ValueOf`. -/
def ROFlag.none : ROFlag := { sticky := false, embed := false }

/-! ## `fmt` with the `%v` verb -/

/-- Method `CommercialLength.String` of `objects.go`. -/
def CommercialLength.String (cl : Int) : String :=
  if cl = 30 then "30"
  else if cl = 60 then "60"
  else if cl = 90 then "90"
  else if cl = 120 then "120"
  else if cl = 150 then "150"
  else if cl = 180 then "180"
  else "invalid"

/-- The `Stringer` case of `handleMethods` on a concrete value: a
`CommercialLength`, or a non-nil pointer to one, is printed by its `String`
method. -/
def stringerConcrete : GoValue → Option String
  | .commercialLength n => some (CommercialLength.String n)
  | .ptr _ (.commercialLength n) => some (CommercialLength.String n)
  | _ => none

/-- The result of `handleMethods` on `v.Interface()`: for a value of interface
kind the dynamic value is the one inspected. -/
def handleMethods : GoValue → Option String
  | .iface dyn => stringerConcrete dyn
  | v => stringerConcrete v

/-- Lower-case hexadecimal digits of a number, as `fmt0x64` prints them. -/
def hexDigits (n : Nat) : String := String.mk (Nat.toDigits 16 n)

/-- Models `fmtPointer` with the verb `%v`. -/
def fmtPointer (addr : Nat) : String :=
  if addr = 0 then "<nil>" else "0x" ++ hexDigits addr

/-- Models `(*pp).printValue` with the verb `%v`; `top` says that the depth
is 0. Below the top level a value that can be interfaced is first offered to
`handleMethods`. -/
def printValue (fl : ROFlag) (top : Bool) (v : GoValue) : String :=
  match (if !top && fl.CanInterface then handleMethods v else none) with
  | some s => s
  | none =>
    match v with
    | .bool b => if b then "true" else "false"
    | .int n => toString n
    | .commercialLength n => toString n
    | .str s => s
    | .nilPtr => "<nil>"
    | .ptr addr elem =>
      let pointee := printValue fl false elem
      if top && (elem.kind == .slice || elem.kind == .struct || elem.kind == .map) then
        "&" ++ pointee
      else fmtPointer addr
    | .nilSlice => "[]"
    | .slice elems => "[" ++ " ".intercalate (printElems fl.ro elems) ++ "]"
    | .nilMap => "map[]"
    | .map entries => "map[" ++ " ".intercalate (printEntries fl.ro entries) ++ "]"
    | .nilIface => "<nil>"
    | .iface dyn => printValue fl.ro false dyn
    | .struct fields => "\x7b" ++ " ".intercalate (printFields fl fields) ++ "\x7d"
where
  /-- The elements of a slice, each printed one level down. -/
  printElems (fl : ROFlag) : List GoValue → List String
    | [] => []
    | e :: rest => printValue fl false e :: printElems fl rest
  /-- The entries of a map, each printed as `key:value`. -/
  printEntries (fl : ROFlag) : List (GoValue × GoValue) → List String
    | [] => []
    | (k, x) :: rest =>
      (printValue fl false k ++ ":" ++ printValue fl false x) :: printEntries fl rest
  /-- The fields of a struct; `getField` unwraps a non-nil interface. -/
  printFields (fl : ROFlag) : List (StructField × GoValue) → List String
    | [] => []
    | (f, .iface dyn) :: rest => printValue (fl.field f).ro false dyn :: printFields fl rest
    | (f, x) :: rest => printValue (fl.field f) false x :: printFields fl rest

/-- Models `fmt.Sprintf("%v", v)` for a valid `reflect.Value` operand: at the
top level `printArg` offers the value to `handleMethods` when it can be
interfaced and prints it with `printValue` at depth 0 otherwise. -/
def sprintV (fl : ROFlag) (v : GoValue) : String :=
  match (if fl.CanInterface then handleMethods v else none) with
  | some s => s
  | none => printValue fl true v

/-! ## The option encoder -/

/-- Models `strings.Split(s, string(sep))` on the characters of a string. -/
def stringsSplit (sep : Char) : List Char → List (List Char)
  | [] => [[]]
  | c :: cs =>
    if c = sep then [] :: stringsSplit sep cs
    else
      match stringsSplit sep cs with
      | [] => [[c]]
      | piece :: pieces => (c :: piece) :: pieces

/-- Translation of `getJSONFieldName`: the empty string for an absent tag,
and otherwise element 0 of the tag split at commas. -/
def getJSONFieldName (field : StructField) : String :=
  let tag := field.jsonTag
  if tag = "" then ""
  else String.mk ((stringsSplit ',' tag.data).headD [])

/-- Translation of `isZeroValue`. -/
def isZeroValue (v : GoValue) : Bool :=
  match v.kind with
  | .slice => v.IsNil || v.Len == 0
  | .map => v.IsNil || v.Len == 0
  | .pointer => v.IsNil
  | .interface => v.IsNil
  | _ => v.IsZero

/-- Models `reflect.Value.Elem` on a pointer or interface: the value pointed
to, and `none` (the invalid `Value`) when it is nil. -/
def GoValue.Elem : GoValue → Option GoValue
  | .ptr _ elem => some elem
  | .iface dyn => some dyn
  | _ => none

/-- The elements `v.Index(0)`, ..., `v.Index(v.Len()-1)` of a slice. -/
def GoValue.elems : GoValue → List GoValue
  | .slice elems => elems
  | _ => []

/-- The fields `v.Field(0)`, ..., `v.Field(v.NumField()-1)` of a struct with
their descriptions. -/
def GoValue.fields : GoValue → List (StructField × GoValue)
  | .struct fields => fields
  | _ => []

/-- Models `fmt.Sprintf("%s=%v", key, v)`. -/
def sprintPair (key : String) (fl : ROFlag) (v : GoValue) : String :=
  key ++ "=" ++ sprintV fl v

/-- One iteration of a field loop of `parseOptions` after the embedded-struct
test (the statements of lines 501-520 and, identically, of lines 525-544):
dereference a pointer, skip an invalid or zero value, skip a key that is
empty or "-", and append one part per slice element or one part for the
value. `fl` is the flag of the field value, `parts` the slice built so far. -/
def appendField (fl : ROFlag) (parts : List String) (fieldType : StructField)
    (field : GoValue) : List String :=
  match (if field.kind = .pointer then field.Elem else some field) with
  | none => parts
  | some field =>
    if isZeroValue field then parts
    else
      let key := getJSONFieldName fieldType
      if key = "" || key = "-" then parts
      else if field.kind = .slice then
        field.elems.foldl (fun parts elem => parts ++ [sprintPair key fl.ro elem]) parts
      else parts ++ [sprintPair key fl field]

/-- Translation of `parseOptions`. The argument is the pointer `options`:
`none` for nil, `some v` for a pointer to `v`. The result is `none` when the
Go code panics, which `v.NumField()` does when `v` is not a struct. -/
def parseOptions (options : Option GoValue) : Option String :=
  match options with
  | none => some ""
  | some (.struct fields) =>
    let parts := fields.foldl (fun parts entry =>
      let fieldType := entry.1
      let field := entry.2
      let fl := ROFlag.none.field fieldType
      if fieldType.anonymous && field.kind = .struct then
        field.fields.foldl (fun parts embedded =>
          appendField (fl.field embedded.1) parts embedded.1 embedded.2) parts
      else appendField fl parts fieldType field) []
    some ("&".intercalate parts)
  | some _ => none

/-! ### What one record contributes, field by field -/

/-- The parts one field contributes: the loop iteration run on an empty
`parts`. -/
def fieldParts (fl : ROFlag) (fieldType : StructField) (field : GoValue) : List String :=
  appendField fl [] fieldType field

/-- The parts of the fields of an embedded struct, in the order of its
fields; `fl` is the flag of the embedded struct value. -/
def embeddedParts (fl : ROFlag) : List (StructField × GoValue) → List String
  | [] => []
  | embedded :: rest =>
    fieldParts (fl.field embedded.1) embedded.1 embedded.2 ++ embeddedParts fl rest

/-- The parts of one top-level field: those of its own fields when it is an
embedded struct, and its own parts otherwise. -/
def entryParts (entry : StructField × GoValue) : List String :=
  if entry.1.anonymous && entry.2.kind = .struct then
    embeddedParts (ROFlag.none.field entry.1) entry.2.fields
  else fieldParts (ROFlag.none.field entry.1) entry.1 entry.2

/-- The parts of a record: those of its top-level fields in declaration
order. -/
def recordParts : List (StructField × GoValue) → List String
  | [] => []
  | entry :: rest => entryParts entry ++ recordParts rest

/-- The value is a nil pointer, a nil or empty slice or map, or the zero value
of its type. -/
def zeroNilOrEmpty (v : GoValue) : Prop :=
  v = .nilPtr ∨ v = .nilSlice ∨ v = .slice [] ∨ v = .nilMap ∨ v = .map [] ∨ v.IsZero = true

/-! ### Sample records of `options.go` -/

/-- A field with an exported name and the given json tag. -/
def exportedField (name tag : String) : StructField :=
  { name := name, exported := true, jsonTag := tag, anonymous := false }

/-- The embedded `BaseOptions` of `options.go`. -/
def mkBaseOptions (first after before : GoValue) : StructField × GoValue :=
  ({ name := "BaseOptions", exported := true, jsonTag := "", anonymous := true },
   .struct [(exportedField "First" "first,omitempty", first),
            (exportedField "After" "after,omitempty", after),
            (exportedField "Before" "before,omitempty", before)])

/-- A `GetVideosOptions` value of `options.go`. -/
def mkGetVideosOptions (base : StructField × GoValue)
    (id userID gameID language period sort type : GoValue) : GoValue :=
  .struct [base,
           (exportedField "ID" "id,omitempty", id),
           (exportedField "UserID" "user_id,omitempty", userID),
           (exportedField "GameID" "game_id,omitempty", gameID),
           (exportedField "Language" "language,omitempty", language),
           (exportedField "Period" "period,omitempty", period),
           (exportedField "Sort" "sort,omitempty", sort),
           (exportedField "Type" "type,omitempty", type)]

/-- The fields for which `parseOptions` runs its loop body: the top-level
fields, with a directly embedded struct replaced by its own fields. -/
def leafFields : List (StructField × GoValue) → List (StructField × GoValue)
  | [] => []
  | entry :: rest =>
    (if entry.1.anonymous && entry.2.kind = .struct then entry.2.fields else [entry])
      ++ leafFields rest

/-! ## `strconv.Atoi`, `isNumber` and `parseMixedParam` -/

/-- The two errors of `strconv`: `ErrSyntax` and `ErrRange`. -/
inductive NumError where
  | errSyntax
  | errRange
  deriving DecidableEq, Repr

/-- The size of `int` in bits (`strconv.IntSize`) on 64-bit platforms. -/
def intSize : Nat := 64

/-- The byte is one of '0', ..., '9'. A character outside ASCII is encoded by
bytes above 127, none of which is a digit. -/
def isDecimalDigit (c : Char) : Bool := 48 ≤ c.toNat && c.toNat ≤ 57

/-- The value `c - '0'` of a decimal digit. -/
def digitValue (c : Char) : Nat := c.toNat - 48

/-- The digit loop of `strconv.ParseUint(s, 10, 0)` on unsigned 64-bit
numbers, returning the pair (value, error) as the Go function does: a byte
that is not a decimal digit gives 0 and a syntax error, and the largest
unsigned value and a range error are returned as soon as `n*10` or `n*10 + d`
overflows. -/
def parseUintLoop : List Char → Nat → Nat × Option NumError
  | [], n => (n, none)
  | c :: cs, n =>
    if !isDecimalDigit c then (0, some .errSyntax)
    else if n ≥ (2 ^ 64 - 1) / 10 + 1 then (2 ^ intSize - 1, some .errRange)
    else
      let n10 := n * 10 % 2 ^ 64
      let n1 := (n10 + digitValue c) % 2 ^ 64
      if n1 < n10 || n1 > 2 ^ intSize - 1 then (2 ^ intSize - 1, some .errRange)
      else parseUintLoop cs n1

/-- Models `strconv.ParseUint(s, 10, 0)`. -/
def ParseUint (s : List Char) : Nat × Option NumError :=
  if s = [] then (0, some .errSyntax) else parseUintLoop s 0

/-- Models `strconv.ParseInt(s, 10, 0)`: an optional sign, then `ParseUint`,
then the range check against `1 << (IntSize-1)`; on a range error the nearest
representable value is returned with the error. -/
def ParseInt (s : List Char) : Int × Option NumError :=
  if s = [] then (0, some .errSyntax)
  else
    let neg : Bool := s.head? = some '-'
    let rest := if s.head? = some '+' ∨ s.head? = some '-' then s.tail else s
    let parsed := ParseUint rest
    let un : Nat := parsed.1
    if parsed.2 ≠ none ∧ parsed.2 ≠ some .errRange then (0, parsed.2)
    else
      let cutoff : Nat := 2 ^ (intSize - 1)
      if !neg && un ≥ cutoff then (((cutoff - 1 : Nat) : Int), some .errRange)
      else if neg && un > cutoff then (-(cutoff : Int), some .errRange)
      else (if neg then -(un : Int) else (un : Int), none)

/-- The digit loop of the fast path of `strconv.Atoi`. -/
def atoiFastLoop : List Char → Int → Int × Option NumError
  | [], n => (n, none)
  | c :: cs, n =>
    if !isDecimalDigit c then (0, some .errSyntax)
    else atoiFastLoop cs (n * 10 + digitValue c)

/-- Models `strconv.Atoi`, returning the pair (value, error): the fast path
for strings of 1 to 18 bytes, and `ParseInt(s, 10, 0)` otherwise. -/
def Atoi (s : String) : Int × Option NumError :=
  let sLen := s.utf8ByteSize
  if intSize = 64 ∧ 0 < sLen ∧ sLen < 19 then
    let signed := s.data.head? = some '-' ∨ s.data.head? = some '+'
    let digits := if signed then s.data.tail else s.data
    if signed ∧ digits.length < 1 then (0, some .errSyntax)
    else
      let looped := atoiFastLoop digits 0
      if looped.2 ≠ none then (0, looped.2)
      else (if s.data.head? = some '-' then -looped.1 else looped.1, none)
  else ParseInt s.data

/-- Translation of `isNumber`: the error of `Atoi` is nil. -/
def isNumber (s : String) : Bool :=
  (Atoi s).2 = none

/-- The dynamic values the parameter `values any` of `parseMixedParam`
distinguishes; `other` stands for a value of any other type. -/
inductive MixedValue where
  | int (v : Int)
  | string (v : String)
  | strings (vs : List String)
  | ints (vs : List Int)
  | other

/-- The closure `addToQuery` of `parseMixedParam`, with the slice `query` it
appends to passed explicitly. -/
def addToQuery (stringKey numericKey : String) (query : List String) (value : MixedValue) :
    List String :=
  match value with
  | .int v => query ++ [numericKey ++ "=" ++ toString v]
  | .string v =>
    if !isNumber v then query ++ [stringKey ++ "=" ++ v]
    else query ++ [numericKey ++ "=" ++ v]
  | _ => query

/-- Translation of `parseMixedParam`. -/
def parseMixedParam (values : MixedValue) (stringKey numericKey : String) : String :=
  let query : List String :=
    match values with
    | .strings vs => vs.foldl (fun query val => addToQuery stringKey numericKey query (.string val)) []
    | .ints vs => vs.foldl (fun query val => addToQuery stringKey numericKey query (.int val)) []
    | .int v => addToQuery stringKey numericKey [] (.int v)
    | .string v => addToQuery stringKey numericKey [] (.string v)
    | .other => []
  "&".intercalate query

/-- The value of a run of decimal digits read left to right from `n`. -/
def decimalValue (digits : List Char) (n : Nat) : Nat :=
  digits.foldl (fun n c => n * 10 + digitValue c) n

/-- The characters after an optional leading sign. -/
def unsignedPart (s : String) : List Char :=
  if s.data.head? = some '+' ∨ s.data.head? = some '-' then s.data.tail else s.data

/-- The string is an optional sign followed by one or more decimal digits. -/
def isSignedDecimal (s : String) : Bool :=
  !(unsignedPart s).isEmpty && (unsignedPart s).all isDecimalDigit

/-- The integer a signed decimal string denotes. -/
def signedValue (s : String) : Int :=
  if s.data.head? = some '-' then -(decimalValue (unsignedPart s) 0 : Int)
  else (decimalValue (unsignedPart s) 0 : Int)

/-! ## The request pipeline

The client is a record of the fields of `Client` that the pipeline reads or
writes; the HTTP transport, the clock and the JSON decoders are an
environment `Env`. Every call of `httpClient.Do`, of `c.emit`, of an event
handler and of `time.Sleep` is appended to a trace, so that the order and the
number of these effects can be stated. Calls of `c.log` only write to the
process log and are left out. -/

/-- An `http.Header` restricted to one value per (canonical) key. -/
abbrev Header := List (String × String)

/-- Models `Header.Get`: the value of the key, or the empty string. -/
def Header.Get (h : Header) (key : String) : String :=
  match h.lookup key with
  | some value => value
  | none => ""

/-- Models `Header.Set`: the key gets the value, replacing an earlier one.
Keys are kept as the code writes them; header names are not case-sensitive. -/
def Header.Set (h : Header) (key value : String) : Header :=
  h.filter (fun entry => entry.1 != key) ++ [(key, value)]

/-- The body of an outgoing request: the JSON encoding of a
`map[string]string`, given by its members in the key order `json.Marshal`
writes, or the bytes `json.Marshal` produced for a caller-supplied value. -/
inductive RequestBody where
  | jsonMap (members : List (String × String))
  | marshalled (data : String)
  deriving DecidableEq, Repr

/-- An outgoing `http.Request`. -/
structure Request where
  method : String
  url : String
  header : Header
  body : Option RequestBody
  deriving DecidableEq, Repr

/-- An incoming `http.Response`; `body` is the result of reading `resp.Body`
to the end, which can fail. -/
structure Response where
  StatusCode : Int
  Header : Header
  body : Except String String

/-- Translation of `TwitchApiRateLimit` of `errors.go`. -/
structure TwitchApiRateLimit where
  Limit : Int
  Remaining : Int
  Reset : Int
  deriving DecidableEq, Repr

/-- Translation of `AuthEvent` of `events.go`. -/
structure AuthEvent where
  AccessToken : String
  RefreshToken : String
  TokenType : Option String
  ExpiresIn : Int
  Scope : List String
  deriving DecidableEq, Repr

/-- The data passed to event handlers. -/
inductive Payload where
  | rateLimit (r : TwitchApiRateLimit)
  | auth (e : AuthEvent)
  | other (text : String)
  deriving DecidableEq, Repr

/-- One observable effect of the pipeline. `emitted` records a call of
`c.emit`, `handled` the call of one registered handler (handlers are
identified by numbers), `slept` a call of `time.Sleep` with its duration in
nanoseconds. -/
inductive Effect where
  | request (r : Request)
  | emitted (event : String) (data : Payload)
  | handled (handler : Nat) (data : Payload)
  | slept (nanoseconds : Int)
  deriving DecidableEq, Repr

/-- The errors the pipeline returns: one made by `c.error` or `fmt.Errorf`
with its text, one returned by a library call, or a
`TwitchApiRateLimitError`. -/
inductive Err where
  | message (text : String)
  | library (text : String)
  | rateLimit (r : TwitchApiRateLimit)
  deriving DecidableEq, Repr

/-- A member of a JSON object decoded into `map[string]any`, as far as the
code looks at it: a string, or a value of another type. -/
inductive JsonMember where
  | string (s : String)
  | other
  deriving DecidableEq, Repr

/-- The environment of a run. `roundTrip` is `httpClient.Do`: the reply to a
request, given the effects so far. `now` is `time.Now().Unix()`.
`newRequestErr method url` is the error of `http.NewRequestWithContext`, if
any. `unmarshalMap` is `json.Unmarshal` into a `map[string]any`, `decodeMap`
and `decodeAuthEvent` are `json.NewDecoder(...).Decode` into a
`map[string]any` and into an `AuthEvent`, and `queryEscape` is
`url.QueryEscape`. -/
structure Env where
  roundTrip : List Effect → Request → Except String Response
  now : List Effect → Int
  newRequestErr : String → String → Option String
  unmarshalMap : String → Except String (List (String × JsonMember))
  decodeMap : String → Except String (List (String × JsonMember))
  decodeAuthEvent : String → Except String AuthEvent
  queryEscape : String → String

/-- The fields of `Client` used by the pipeline. `eventHandlers` is the map
from event names to the handlers registered for them. -/
structure Client where
  clientSecret : String
  clientID : String
  accessToken : Option String
  refreshToken : Option String
  scopes : List String
  throwRateLimitErrors : Bool
  baseURL : String
  ingestBaseURL : String
  refreshAttempts : Int
  eventHandlers : List (String × List Nat)
  deriving DecidableEq, Repr

/-- The client together with the trace of effects so far. -/
structure Sys where
  client : Client
  trace : List Effect
  deriving DecidableEq, Repr

/-- Appends an effect to the trace. -/
def Sys.log (s : Sys) (e : Effect) : Sys := { s with trace := s.trace ++ [e] }

/-- The assignment `c.accessToken = &token`. -/
def Sys.setAccessToken (s : Sys) (token : String) : Sys :=
  { s with client := { s.client with accessToken := some token } }

/-- The assignment `c.refreshToken = &token`. -/
def Sys.setRefreshToken (s : Sys) (token : String) : Sys :=
  { s with client := { s.client with refreshToken := some token } }

/-- The statement `c.refreshAttempts++`. -/
def Sys.countRefreshAttempt (s : Sys) : Sys :=
  { s with client := { s.client with refreshAttempts := s.client.refreshAttempts + 1 } }

/-- The result of `get` and `update`: the body read from the response, an
error, a run-time panic (a nil pointer dereference), or `unfinished` when the
recursion has not returned within the given number of calls. -/
inductive Outcome where
  | ok (body : String)
  | error (e : Err)
  | panic
  | unfinished
  deriving DecidableEq, Repr

/-- Translation of `emit`: the handlers registered for the event are called in
order with the data. -/
def emit (s : Sys) (event : String) (data : Payload) : Sys :=
  let s := s.log (.emitted event data)
  match s.client.eventHandlers.lookup event with
  | some handlers => handlers.foldl (fun s handler => s.log (.handled handler data)) s
  | none => s

/-- Translation of `extractRateLimit`: the errors of `Atoi` are dropped. -/
def extractRateLimit (headers : Header) : TwitchApiRateLimit :=
  { Limit := (Atoi (headers.Get "Ratelimit-Limit")).1
    Remaining := (Atoi (headers.Get "Ratelimit-Remaining")).1
    Reset := (Atoi (headers.Get "Ratelimit-Reset")).1 }

/-- Translation of `handleRateLimit`. -/
def handleRateLimit (s : Sys) (headers : Header) : Sys :=
  emit s "ratelimitpoll" (.rateLimit (extractRateLimit headers))

/-- Models `c.httpClient.Do(req)`: the request is recorded and the
environment replies. -/
def doRequest (env : Env) (s : Sys) (req : Request) : Except String Response × Sys :=
  (env.roundTrip s.trace req, s.log (.request req))

/-- The URL of the token endpoint of the identity service. -/
def tokenURL : String := "https://id.twitch.tv/oauth2/token"

/-- The URL of the validation endpoint of the identity service. -/
def validateURL : String := "https://id.twitch.tv/oauth2/validate"

/-- Translation of `ScopesToStrings`. -/
def ScopesToStrings (scopes : List String) : List String := scopes.map (fun scope => scope)

/-- The request `getAppAccessToken` sends. Its body is the `json.Marshal` of
a `map[string]string`, which does not fail. -/
def appTokenRequest (c : Client) : Request :=
  { method := "POST"
    url := tokenURL
    header := Header.Set [] "Content-Type" "application/json"
    body := some (.jsonMap
      ([("client_id", c.clientID), ("client_secret", c.clientSecret),
        ("grant_type", "client_credentials")] ++
        (if c.scopes.length > 0 then [("scope", " ".intercalate (ScopesToStrings c.scopes))]
         else []))) }

/-- Translation of `getAppAccessToken`; the result is the pair (token, error)
of the Go function, with `.ok none` for a nil token without error. -/
def getAppAccessToken (env : Env) (s : Sys) : Except Err (Option String) × Sys :=
  match env.newRequestErr "POST" tokenURL with
  | some e => (.error (.library e), s)
  | none =>
    match doRequest env s (appTokenRequest s.client) with
    | (.error e, s) => (.error (.library e), s)
    | (.ok resp, s) =>
      match resp.body with
      | .error e => (.error (.library e), s)
      | .ok body =>
        match env.unmarshalMap body with
        | .error _ =>
          (.error (.message ("error getting app access token. Expected JSON but got: " ++ body)), s)
        | .ok result =>
          match result.lookup "access_token" with
          | some (.string accessToken) => (.ok (some accessToken), s)
          | _ => (.error (.message "no access_token in response"), s)

/-- The request `validate` sends for an access token. -/
def validateRequest (accessToken : String) : Request :=
  { method := "GET"
    url := validateURL
    header := Header.Set [] "Authorization" ("OAuth " ++ accessToken)
    body := none }

/-- Translation of `validate`. -/
def validate (env : Env) (s : Sys) : Except Err Bool × Sys :=
  match s.client.accessToken with
  | none => (.ok false, s)
  | some accessToken =>
    match env.newRequestErr "GET" validateURL with
    | some e => (.error (.library e), s)
    | none =>
      match doRequest env s (validateRequest accessToken) with
      | (.error e, s) => (.error (.library e), s)
      | (.ok resp, s) =>
        match resp.body.bind env.decodeMap with
        | .error e => (.error (.library e), s)
        | .ok result =>
          match result.lookup "message" with
          | some (.string message) =>
            if message = "missing authorization token" then (.error (.message message), s)
            else (.ok (resp.StatusCode = 200), s)
          | _ => (.ok (resp.StatusCode = 200), s)

/-- The request `refresh` sends for a refresh token. Its body is the
`json.Marshal` of a `map[string]string`, which does not fail. -/
def refreshRequest (env : Env) (c : Client) (refreshToken : String) : Request :=
  { method := "POST"
    url := tokenURL
    header := Header.Set [] "Content-Type" "application/json"
    body := some (.jsonMap
      [("client_id", c.clientID), ("client_secret", c.clientSecret),
       ("grant_type", "refresh_token"), ("refresh_token", env.queryEscape refreshToken)]) }

/-- Translation of `refresh`; the result is the error, `none` for nil. -/
def refresh (env : Env) (s : Sys) : Option Err × Sys :=
  match validate env s with
  | (.error e, s) => (some e, s)
  | (.ok true, s) => (none, s)
  | (.ok false, s) =>
    match s.client.refreshToken with
    | none => (some (.message "refresh token is not set"), s)
    | some refreshToken =>
      match env.newRequestErr "POST" tokenURL with
      | some e => (some (.library e), s)
      | none =>
        match doRequest env s (refreshRequest env s.client refreshToken) with
        | (.error e, s) => (some (.library e), s)
        | (.ok resp, s) =>
          match resp.body.bind env.decodeAuthEvent with
          | .error e => (some (.library e), s)
          | .ok result =>
            let s := if result.AccessToken ≠ "" then s.setAccessToken result.AccessToken else s
            let s := if result.RefreshToken ≠ "" then s.setRefreshToken result.RefreshToken else s
            let s := emit s "refresh" (.auth result)
            let s := if result.AccessToken = "" then s.countRefreshAttempt else s
            (none, s)

/-- The value of an integer expression computed in `int64`, with
wrap-around. -/
def wrapInt64 (x : Int) : Int := (x + 2 ^ 63) % 2 ^ 64 - 2 ^ 63

/-- The constant `time.Second` in nanoseconds. -/
def timeSecond : Int := 1000000000

/-- The duration `time.Duration(rateLimit.Reset) * time.Second -
time.Duration(time.Now().Unix()) * time.Second` of the 429 branch. -/
def sleepTime (reset now : Int) : Int :=
  wrapInt64 (wrapInt64 (wrapInt64 reset * timeSecond) - wrapInt64 (wrapInt64 now * timeSecond))

/-- Models `return io.ReadAll(resp.Body)`: the body, or the error of reading
it. -/
def readBody (resp : Response) : Outcome :=
  match resp.body with
  | .ok body => .ok body
  | .error e => .error (.library e)

/-- The resource request `get` sends. -/
def getRequest (c : Client) (fullURL accessToken : String) : Request :=
  { method := "GET"
    url := fullURL
    header := Header.Set (Header.Set [] "Client-ID" c.clientID) "Authorization"
      ("Bearer " ++ accessToken)
    body := none }

/-- The base URL the `switch apiType` of `get` selects. -/
def selectBaseURL (c : Client) (apiType : String) : String :=
  if apiType = "helix" then c.baseURL
  else if apiType = "ingest" then c.ingestBaseURL
  else c.baseURL

/-- The first statement of `get`: when the client holds no access token, one
is fetched with `getAppAccessToken` and stored. The result is the error that
ends the call, if any. -/
def ensureAccessToken (env : Env) (s : Sys) : Option Err × Sys :=
  match s.client.accessToken with
  | some _ => (none, s)
  | none =>
    match getAppAccessToken env s with
    | (.error e, s) => (some e, s)
    | (.ok none, s) =>
      (some (.message
        "app access token could not be fetched. Please check your client_id and client_secret"),
        s)
    | (.ok (some token), s) => (none, s.setAccessToken token)

/-- The statements of `get` after a response was received (lines 288-313)
and, word for word, of `update` (lines 351-375): the rate-limit poll, the
refresh and retry on 401, the "ratelimit" event and then the error or the
sleep and retry on 429, and the body otherwise. `self` is the call of the
function to itself with the same arguments. -/
def handleResponse (env : Env) (self : Sys → Outcome × Sys) (s : Sys) (resp : Response) :
    Outcome × Sys :=
  let s := handleRateLimit s resp.Header
  if resp.StatusCode = 401 then
    match refresh env s with
    | (some e, s) => (.error e, s)
    | (none, s) => self s
  else if resp.StatusCode = 429 then
    let rateLimit := extractRateLimit resp.Header
    let s := emit s "ratelimit" (.rateLimit rateLimit)
    if s.client.throwRateLimitErrors then (.error (.rateLimit rateLimit), s)
    else
      let pause := sleepTime rateLimit.Reset (env.now s.trace)
      let s := if pause > 0 then s.log (.slept pause) else s
      self s
  else (readBody resp, s)

/-- The body of `get`, with the call of `get` to itself passed as `self`. -/
def getBody (env : Env) (self : Sys → Outcome × Sys) (s : Sys) (endpoint apiType : String) :
    Outcome × Sys :=
  match ensureAccessToken env s with
  | (some e, s) => (.error e, s)
  | (none, s) =>
    let fullURL := selectBaseURL s.client apiType ++ endpoint
    match env.newRequestErr "GET" fullURL with
    | some e => (.error (.library e), s)
    | none =>
      match s.client.accessToken with
      | none => (.panic, s)
      | some accessToken =>
        match doRequest env s (getRequest s.client fullURL accessToken) with
        | (.error e, s) => (.error (.library e), s)
        | (.ok resp, s) => handleResponse env self s resp

/-- Translation of `get`. The Go function calls itself after a 401 with a
successful refresh and after a 429, without bound; the first argument is the
number of nested calls the run may make, and the result is `unfinished` when
one more would be needed. -/
def get (env : Env) : Nat → Sys → String → String → Outcome × Sys
  | 0, s, endpoint, apiType =>
    getBody env (fun s => (.unfinished, s)) s endpoint apiType
  | fuel + 1, s, endpoint, apiType =>
    getBody env (fun s => get env fuel s endpoint apiType) s endpoint apiType

/-- The resource request `update` sends; `body` is the marshalled `data`,
absent when `data` is nil. -/
def updateRequest (c : Client) (method fullURL accessToken : String)
    (body : Option String) : Request :=
  { method := method.toUpper
    url := fullURL
    header := Header.Set (Header.Set
      (match body with
        | some _ => Header.Set [] "Content-Type" "application/json"
        | none => []) "Authorization" ("Bearer " ++ accessToken)) "Client-ID" c.clientID
    body := body.map RequestBody.marshalled }

/-- The body of `update`, with the call of `update` to itself passed as
`self`. The argument `data` is `none` for nil and otherwise the result of
`json.Marshal` on the value. -/
def updateBody (env : Env) (self : Sys → Outcome × Sys) (s : Sys) (endpoint : String)
    (data : Option (Except String String)) (method : String) : Outcome × Sys :=
  if !(endpoint.data.head? = some '/') then
    (.error (.message "endpoint must start with a '/' (forward slash)"), s)
  else
    match data with
    | some (.error e) => (.error (.library e), s)
    | _ =>
      let body : Option String := match data with
        | some (.ok jsonData) => some jsonData
        | _ => none
      let fullURL := s.client.baseURL ++ endpoint
      match env.newRequestErr method.toUpper fullURL with
      | some e => (.error (.library e), s)
      | none =>
        match s.client.accessToken with
        | none => (.panic, s)
        | some accessToken =>
          match doRequest env s (updateRequest s.client method fullURL accessToken body) with
          | (.error e, s) => (.error (.library e), s)
          | (.ok resp, s) => handleResponse env self s resp

/-- Translation of `update`; the first argument is the number of nested calls
the run may make, as for `get`. -/
def update (env : Env) : Nat → Sys → String → Option (Except String String) → String
    → Outcome × Sys
  | 0, s, endpoint, data, method =>
    updateBody env (fun s => (.unfinished, s)) s endpoint data method
  | fuel + 1, s, endpoint, data, method =>
    updateBody env (fun s => update env fuel s endpoint data method) s endpoint data method

/-- Translations of `post`, `put`, `patch` and `delete`. -/
def post (env : Env) (fuel : Nat) (s : Sys) (endpoint : String)
    (data : Option (Except String String)) : Outcome × Sys :=
  update env fuel s endpoint data "post"

/-- Translation of `put`. -/
def put (env : Env) (fuel : Nat) (s : Sys) (endpoint : String)
    (data : Option (Except String String)) : Outcome × Sys :=
  update env fuel s endpoint data "put"

/-- Translation of `patch`. -/
def patch (env : Env) (fuel : Nat) (s : Sys) (endpoint : String)
    (data : Option (Except String String)) : Outcome × Sys :=
  update env fuel s endpoint data "patch"

/-- Translation of `delete`. -/
def delete (env : Env) (fuel : Nat) (s : Sys) (endpoint : String)
    (data : Option (Except String String)) : Outcome × Sys :=
  update env fuel s endpoint data "delete"

/-- The effects of one call of `emit`: the call itself, then one call of each
handler registered for the event, in registration order. -/
def emitEffects (c : Client) (event : String) (data : Payload) : List Effect :=
  .emitted event data ::
    (match c.eventHandlers.lookup event with
      | some handlers => handlers.map (fun handler => Effect.handled handler data)
      | none => [])

/-! ### A sample environment

An identity service and a resource service with fixed answers, used to run
the pipeline on concrete inputs. The bodies are short names standing for
JSON documents; the decoders give their contents. -/

/-- A response with the given status and body and no rate-limit headers. -/
def plainResponse (status : Int) (body : String) : Response :=
  { StatusCode := status, Header := [], body := .ok body }

/-- The grant type of a token request. -/
def grantType (req : Request) : Option String :=
  match req.body with
  | some (.jsonMap members) => members.lookup "grant_type"
  | _ => none

/-- The refresh token of a token request. -/
def grantRefreshToken (req : Request) : Option String :=
  match req.body with
  | some (.jsonMap members) => members.lookup "refresh_token"
  | _ => none

/-- The client secret of a token request. -/
def grantClientSecret (req : Request) : Option String :=
  match req.body with
  | some (.jsonMap members) => members.lookup "client_secret"
  | _ => none

/-- The replies of the sample services. The token endpoint grants
"app-token" to client credentials with the secret "secret" and "fresh-token"
to the refresh token "good-refresh", and rejects every other secret with
status 403 and every other refresh token with status 400. The
validation endpoint accepts "app-token" and "fresh-token" only. The resource
service answers 401 to the bearer token "expired", 429 with rate-limit
headers to "throttled", and 200 with the body "data" otherwise. -/
def sampleReply (req : Request) : Response :=
  if req.url = tokenURL then
    if grantType req = some "client_credentials" then
      if grantClientSecret req = some "secret" then plainResponse 200 "app"
      else plainResponse 403 "rejected"
    else if grantRefreshToken req = some "good-refresh" then plainResponse 200 "fresh"
    else plainResponse 400 "rejected"
  else if req.url = validateURL then
    if Header.Get req.header "Authorization" = "OAuth app-token"
        ∨ Header.Get req.header "Authorization" = "OAuth fresh-token" then
      plainResponse 200 "valid"
    else plainResponse 401 "invalid"
  else if Header.Get req.header "Authorization" = "Bearer expired" then
    plainResponse 401 "unauthorized"
  else if Header.Get req.header "Authorization" = "Bearer throttled" then
    { StatusCode := 429
      Header := [("Ratelimit-Limit", "800"), ("Ratelimit-Remaining", "0"),
        ("Ratelimit-Reset", "1234567890")]
      body := .ok "slow down" }
  else plainResponse 200 "data"

/-- The JSON objects behind the sample bodies. -/
def sampleObject (body : String) : Except String (List (String × JsonMember)) :=
  if body = "app" then .ok [("access_token", .string "app-token"), ("expires_in", .other)]
  else if body = "valid" then .ok [("client_id", .string "id"), ("expires_in", .other)]
  else if body = "invalid" then
    .ok [("status", .other), ("message", .string "invalid access token")]
  else if body = "rejected" then
    .ok [("status", .other), ("message", .string "Invalid refresh token")]
  else .error "invalid character"

/-- The zero value of `AuthEvent`. -/
def zeroAuthEvent : AuthEvent :=
  { AccessToken := "", RefreshToken := "", TokenType := none, ExpiresIn := 0, Scope := [] }

/-- The `AuthEvent` decoded from the sample bodies: the rejection carries no
member of `AuthEvent`, so every field keeps its zero value. -/
def sampleAuthEvent (body : String) : Except String AuthEvent :=
  if body = "fresh" then
    .ok { AccessToken := "fresh-token", RefreshToken := "next-refresh",
          TokenType := some "bearer", ExpiresIn := 14400, Scope := [] }
  else if body = "rejected" then .ok zeroAuthEvent
  else .error "invalid character"

/-- The sample environment: `http.NewRequestWithContext` rejects a URL with
an ASCII control character, as `url.Parse` does. -/
def sampleEnv : Env :=
  { roundTrip := fun _ req => .ok (sampleReply req)
    now := fun _ => 1234567000
    newRequestErr := fun _ url =>
      if url.data.any (fun c => c.toNat < 32 || c.toNat = 127) then
        some "net/url: invalid control character in URL"
      else none
    unmarshalMap := sampleObject
    decodeMap := sampleObject
    decodeAuthEvent := sampleAuthEvent
    queryEscape := fun token => token }

/-- A client as `CreateTwitchApi` builds it, with one handler (number 1)
registered for "refresh" and one (number 2) for "ratelimit". -/
def sampleClient (accessToken refreshToken : Option String) (throwRateLimitErrors : Bool) :
    Client :=
  { clientSecret := "secret"
    clientID := "id"
    accessToken := accessToken
    refreshToken := refreshToken
    scopes := []
    throwRateLimitErrors := throwRateLimitErrors
    baseURL := "https://api.twitch.tv/helix"
    ingestBaseURL := "https://ingest.twitch.tv"
    refreshAttempts := 0
    eventHandlers := [("refresh", [1]), ("ratelimit", [2])] }

/-- The state of a fresh run of the sample client. -/
def sampleSys (accessToken refreshToken : Option String) (throwRateLimitErrors : Bool) : Sys :=
  { client := sampleClient accessToken refreshToken throwRateLimitErrors, trace := [] }

/-- The effect is a client-credentials exchange: a POST to the token
endpoint whose JSON body has the grant type "client_credentials". -/
def isAppTokenExchange (e : Effect) : Bool :=
  match e with
  | .request req =>
    req.method = "POST" && req.url = tokenURL && grantType req = some "client_credentials"
  | _ => false

/-- The trace of `s2` extends the trace of `s1` by effects none of which is a
client-credentials exchange. -/
def noExchangeBetween (s1 s2 : Sys) : Prop :=
  ∃ added, s2.trace = s1.trace ++ added ∧ ∀ e ∈ added, isAppTokenExchange e = false

/-- The client-credentials exchange of `getAppAccessToken` in state `s`
yields `token`: the request can be built, the token endpoint answers, the
body can be read and is a JSON object, and its member "access_token" is the
string `token`. -/
def exchangeYields (env : Env) (s : Sys) (token : String) : Prop :=
  env.newRequestErr "POST" tokenURL = none ∧
  ∃ resp body result,
    env.roundTrip s.trace (appTokenRequest s.client) = .ok resp ∧
    resp.body = .ok body ∧
    env.unmarshalMap body = .ok result ∧
    result.lookup "access_token" = some (.string token)

/-- The sample client with the access token "expired" and the refresh token
"bad-refresh", after the given number of failed refresh attempts. -/
def stuckClient (attempts : Int) : Client :=
  { clientSecret := "secret"
    clientID := "id"
    accessToken := some "expired"
    refreshToken := some "bad-refresh"
    scopes := []
    throwRateLimitErrors := false
    baseURL := "https://api.twitch.tv/helix"
    ingestBaseURL := "https://ingest.twitch.tv"
    refreshAttempts := attempts
    eventHandlers := [("refresh", [1]), ("ratelimit", [2])] }

/-- A fresh run of the sample client with a client secret the sample
identity service does not know, and no tokens. -/
def wrongSecretSys : Sys :=
  { client :=
      { clientSecret := "wrong"
        clientID := "id"
        accessToken := none
        refreshToken := none
        scopes := []
        throwRateLimitErrors := false
        baseURL := "https://api.twitch.tv/helix"
        ingestBaseURL := "https://ingest.twitch.tv"
        refreshAttempts := 0
        eventHandlers := [] }
    trace := [] }

/-- The effect is an emission of the "ratelimitpoll" event. -/
def isPoll (e : Effect) : Bool :=
  match e with
  | .emitted event _ => event = "ratelimitpoll"
  | _ => false

/-- A service that answers every request with status 429 and a reset time
9223372037 seconds (about 292 years) after the clock of the sample
environment. -/
def farResetEnv : Env :=
  { sampleEnv with
    roundTrip := fun _ _ =>
      .ok { StatusCode := 429
            Header := [("Ratelimit-Reset", "10457939037")]
            body := .ok "slow down" } }

/-- An identity service that answers every request with status 401 and a body
whose message is "missing authorization token". -/
def missingAuthEnv : Env :=
  { sampleEnv with
    roundTrip := fun _ _ => .ok (plainResponse 401 "missing")
    decodeMap := fun _ =>
      .ok [("status", .other), ("message", .string "missing authorization token")] }

/-! ## Scope-gated endpoint methods -/

/-- The scope constants of `scopes.go`; a `Scope` is a string. -/
def ScopeAnalyticsReadExtensions : String := "analytics:read:extensions"

/-- Scope constant. -/
def ScopeAnalyticsReadGames : String := "analytics:read:games"

/-- Scope constant. -/
def ScopeBitsRead : String := "bits:read"

/-- Scope constant. -/
def ScopeChannelEditCommercial : String := "channel:edit:commercial"

/-- Scope constant. -/
def ScopeChannelReadHypeTrain : String := "channel:read:hype_train"

/-- Scope constant. -/
def ScopeChannelReadSubscriptions : String := "channel:read:subscriptions"

/-- Scope constant. -/
def ScopeChannelReadStreamKey : String := "channel:read:stream_key"

/-- Scope constant. -/
def ScopeChannelBot : String := "channel:bot"

/-- Scope constant. -/
def ScopeClipsEdit : String := "clips:edit"

/-- Scope constant. -/
def ScopeUserEdit : String := "user:edit"

/-- Scope constant. -/
def ScopeUserEditBroadcast : String := "user:edit:broadcast"

/-- Scope constant. -/
def ScopeUserEditFollows : String := "user:edit:follows"

/-- Scope constant. -/
def ScopeUserReadBroadcast : String := "user:read:broadcast"

/-- Scope constant. -/
def ScopeUserReadEmail : String := "user:read:email"

/-- Scope constant. -/
def ScopeUserReadChat : String := "user:read:chat"

/-- Scope constant. -/
def ScopeUserWriteChat : String := "user:write:chat"

/-- Scope constant. -/
def ScopeUserBot : String := "user:bot"

/-- Scope constant. -/
def ScopeModerationRead : String := "moderation:read"

/-- Translation of `hasScope`: `slices.Contains(c.scopes, scope)`. -/
def hasScope (c : Client) (scope : String) : Bool := c.scopes.contains scope

/-- The result of an endpoint method: the decoded value, an error, a run-time
panic, or `unfinished` as for `get`. -/
inductive Reply (α : Type) where
  | ok (value : α)
  | error (e : Err)
  | panic
  | unfinished

/-- The statements after `get`, `put` or `post` in the decoding helpers: the
error is passed on and the body goes through `json.Unmarshal`. -/
def decodeBody {α : Type} (decode : String → Except String α) (r : Outcome × Sys) :
    Reply α × Sys :=
  match r with
  | (.ok data, s) =>
    match decode data with
    | .error e => (.error (.library e), s)
    | .ok value => (.ok value, s)
  | (.error e, s) => (.error e, s)
  | (.panic, s) => (.panic, s)
  | (.unfinished, s) => (.unfinished, s)

/-- Translation of `simpleGetDecode`. -/
def simpleGetDecode {α : Type} (env : Env) (decode : String → Except String α) (fuel : Nat)
    (s : Sys) (endpoint version : String) : Reply α × Sys :=
  decodeBody decode (get env fuel s endpoint version)

/-- Translation of `simplePutDecode`. -/
def simplePutDecode {α : Type} (env : Env) (decode : String → Except String α) (fuel : Nat)
    (s : Sys) (endpoint : String) : Reply α × Sys :=
  decodeBody decode (put env fuel s endpoint none)

/-- Translation of `simplePostDecode`. -/
def simplePostDecode {α : Type} (env : Env) (decode : String → Except String α) (fuel : Nat)
    (s : Sys) (endpoint : String) : Reply α × Sys :=
  decodeBody decode (post env fuel s endpoint none)

/-- The query of a method with a pointer parameter: `query := ""` and, when
`options != nil`, `query = "?" + parseOptions(options)`; `none` when
`parseOptions` panics. -/
def optionalQuery (options : Option GoValue) : Option String :=
  match options with
  | none => some ""
  | some v => (parseOptions (some v)).map (fun encoded => "?" ++ encoded)

/-- The query `"?" + parseOptions(&options)` of a method with a value
parameter; `none` when `parseOptions` panics. -/
def requiredQuery (options : GoValue) : Option String :=
  (parseOptions (some options)).map (fun encoded => "?" ++ encoded)

/-- Translation of `GetBitsLeaderboard`. -/
def GetBitsLeaderboard {α : Type} (env : Env) (decode : String → Except String α)
    (fuel : Nat) (s : Sys) (options : Option GoValue) : Reply α × Sys :=
  if !hasScope s.client ScopeBitsRead then (.error (.message "missing scope: bits:read"), s)
  else
    match optionalQuery options with
    | none => (.panic, s)
    | some query => simpleGetDecode env decode fuel s ("/bits/leaderboard" ++ query) "helix"

/-- Translation of `GetSubs`. -/
def GetSubs {α : Type} (env : Env) (decode : String → Except String α) (fuel : Nat) (s : Sys)
    (options : GoValue) : Reply α × Sys :=
  if !hasScope s.client ScopeChannelReadSubscriptions then
    (.error (.message "missing scope: channel:read:subscriptions"), s)
  else
    match requiredQuery options with
    | none => (.panic, s)
    | some query => simpleGetDecode env decode fuel s ("/subscriptions" ++ query) "helix"

/-- Translation of `GetBannedUsers`. -/
def GetBannedUsers {α : Type} (env : Env) (decode : String → Except String α) (fuel : Nat)
    (s : Sys) (options : GoValue) : Reply α × Sys :=
  if !hasScope s.client ScopeModerationRead then
    (.error (.message "missing scope: moderation:read"), s)
  else
    match requiredQuery options with
    | none => (.panic, s)
    | some query => simpleGetDecode env decode fuel s ("/moderation/banned" ++ query) "helix"

/-- Translation of `GetStreamMarkers`. Its parameter has the type `any`, so
`&options` points to an interface value: nil for `none`, and holding `v` for
`some v`. -/
def GetStreamMarkers {α : Type} (env : Env) (decode : String → Except String α) (fuel : Nat)
    (s : Sys) (options : Option GoValue) : Reply α × Sys :=
  if !hasScope s.client ScopeUserReadBroadcast then
    (.error (.message "missing scope: user:read:broadcast"), s)
  else
    let boxed : GoValue := match options with
      | none => .nilIface
      | some v => .iface v
    match requiredQuery boxed with
    | none => (.panic, s)
    | some query => simpleGetDecode env decode fuel s ("/streams/markers" ++ query) "helix"

/-- Translation of `GetUserExtensions`. -/
def GetUserExtensions {α : Type} (env : Env) (decode : String → Except String α) (fuel : Nat)
    (s : Sys) : Reply α × Sys :=
  if !hasScope s.client ScopeUserReadBroadcast then
    (.error (.message "missing scope: user:read:broadcast"), s)
  else simpleGetDecode env decode fuel s "/users/extensions/list" "helix"

/-- Translation of `GetUserActiveExtensions`. -/
def GetUserActiveExtensions {α : Type} (env : Env) (decode : String → Except String α)
    (fuel : Nat) (s : Sys) (options : Option GoValue) : Reply α × Sys :=
  if !hasScope s.client ScopeUserReadBroadcast && !hasScope s.client ScopeUserEditBroadcast then
    (.error (.message "missing scope: user:read:broadcast or user:edit:broadcast"), s)
  else
    match optionalQuery options with
    | none => (.panic, s)
    | some query => simpleGetDecode env decode fuel s ("/users/extensions" ++ query) "helix"

/-- Translation of `ModifyChannelInformation`, which returns the error of
`patch` only. -/
def ModifyChannelInformation (env : Env) (fuel : Nat) (s : Sys) (options : GoValue) :
    Reply Unit × Sys :=
  if !hasScope s.client ScopeUserEditBroadcast then
    (.error (.message "missing scope: user:edit:broadcast"), s)
  else
    match requiredQuery options with
    | none => (.panic, s)
    | some query =>
      decodeBody (fun _ => .ok ()) (patch env fuel s ("/channels" ++ query) none)

/-- The test `options.Description != nil` of `UpdateUser` on a non-nil
`*UpdateUserOptions`. -/
def descriptionIsSet (options : GoValue) : Bool :=
  match options.fields.find? (fun entry => entry.1.name = "Description") with
  | some (_, .nilPtr) => false
  | some _ => true
  | none => false

/-- Translation of `UpdateUser`. -/
def UpdateUser {α : Type} (env : Env) (decode : String → Except String α) (fuel : Nat)
    (s : Sys) (options : Option GoValue) : Reply α × Sys :=
  if !hasScope s.client ScopeUserEdit then (.error (.message "missing scope: user:edit"), s)
  else
    let query : Option String := match options with
      | none => some ""
      | some v => if descriptionIsSet v then requiredQuery v else some ""
    match query with
    | none => (.panic, s)
    | some query => simplePutDecode env decode fuel s ("/users" ++ query)

/-- Translation of `CreateClip`. -/
def CreateClip {α : Type} (env : Env) (decode : String → Except String α) (fuel : Nat)
    (s : Sys) (options : GoValue) : Reply α × Sys :=
  if !hasScope s.client ScopeClipsEdit then (.error (.message "missing scope: clips:edit"), s)
  else
    match requiredQuery options with
    | none => (.panic, s)
    | some query => simplePostDecode env decode fuel s ("/clips" ++ query)

/-- Translation of `GetModerators`. -/
def GetModerators {α : Type} (env : Env) (decode : String → Except String α) (fuel : Nat)
    (s : Sys) (options : GoValue) : Reply α × Sys :=
  if !hasScope s.client ScopeModerationRead then
    (.error (.message "missing scope: moderation:read"), s)
  else
    match requiredQuery options with
    | none => (.panic, s)
    | some query =>
      simpleGetDecode env decode fuel s ("/moderation/moderators" ++ query) "helix"

/-- Translation of `StartCommercial`. -/
def StartCommercial {α : Type} (env : Env) (decode : String → Except String α) (fuel : Nat)
    (s : Sys) (options : GoValue) : Reply α × Sys :=
  if !hasScope s.client ScopeChannelEditCommercial then
    (.error (.message "missing scope: channel:edit:commercial"), s)
  else
    match requiredQuery options with
    | none => (.panic, s)
    | some query => simplePostDecode env decode fuel s ("/channels/commercial" ++ query)

/-- Translation of `GetStreamKey`; `decode` gives the keys of the entries of
`result.Data`, and the result is the first. -/
def GetStreamKey (env : Env) (decode : String → Except String (List String)) (fuel : Nat)
    (s : Sys) (options : GoValue) : Reply String × Sys :=
  if !hasScope s.client ScopeChannelReadStreamKey then
    (.error (.message "missing scope: channel:read:stream_key"), s)
  else
    match requiredQuery options with
    | none => (.panic, s)
    | some query =>
      match decodeBody decode (get env fuel s ("/streams/key" ++ query) "helix") with
      | (.ok [], s) => (.error (.message "no stream key found"), s)
      | (.ok (key :: _), s) => (.ok key, s)
      | (.error e, s) => (.error e, s)
      | (.panic, s) => (.panic, s)
      | (.unfinished, s) => (.unfinished, s)

/-- Translation of `SendChatMessage`; `marshal` is `json.Marshal` on the
options, which `post` sends as the body. -/
def SendChatMessage {α : Type} (env : Env) (decode : String → Except String α)
    (marshal : GoValue → Except String String) (fuel : Nat) (s : Sys) (options : GoValue) :
    Reply α × Sys :=
  if !hasScope s.client ScopeUserBot then (.error (.message "missing scope: user:bot"), s)
  else
    match requiredQuery options with
    | none => (.panic, s)
    | some query =>
      decodeBody decode (post env fuel s ("/chat/messages" ++ query) (some (marshal options)))

/-! ## Event handlers -/

/-- Translation of `AddEventHandler`: the statement
`c.eventHandlers[event] = append(c.eventHandlers[event], handler)` on the map
`CreateTwitchApi` makes; the entry of the event is replaced by the extended
list, and a missing entry counts as the empty list. -/
def AddEventHandler (c : Client) (event : String) (handler : Nat) : Client :=
  { c with
    eventHandlers := c.eventHandlers.filter (fun entry => entry.1 != event)
      ++ [(event, (c.eventHandlers.lookup event).getD [] ++ [handler])] }

/-- A sequence of `AddEventHandler` calls, given by their arguments in the
order of the calls. -/
def addEventHandlers (c : Client) (calls : List (String × Nat)) : Client :=
  calls.foldl (fun c call => AddEventHandler c call.1 call.2) c

/-- The handlers `c.eventHandlers[event]`: the empty list when the map has no
entry for the event. -/
def handlersOf (c : Client) (event : String) : List Nat :=
  (c.eventHandlers.lookup event).getD []

/-- Translation of `RemoveEventHandler`: `delete(c.eventHandlers, event)`
removes the entry of the event from the map. -/
def RemoveEventHandler (c : Client) (event : String) : Client :=
  { c with eventHandlers := c.eventHandlers.filter (fun entry => entry.1 != event) }

/-! ## Scopes -/

/-- Translation of `Scope.IsValid`: the `switch` over the eighteen scope
constants. -/
def Scope.IsValid (s : String) : Bool :=
  s = ScopeAnalyticsReadExtensions || s = ScopeAnalyticsReadGames || s = ScopeBitsRead ||
  s = ScopeChannelEditCommercial || s = ScopeChannelReadHypeTrain ||
  s = ScopeChannelReadSubscriptions || s = ScopeChannelReadStreamKey || s = ScopeChannelBot ||
  s = ScopeClipsEdit || s = ScopeUserEdit || s = ScopeUserEditBroadcast ||
  s = ScopeUserEditFollows || s = ScopeUserReadBroadcast || s = ScopeUserReadEmail ||
  s = ScopeUserReadChat || s = ScopeUserWriteChat || s = ScopeUserBot ||
  s = ScopeModerationRead

/-- Translation of `AllScopes`. -/
def AllScopes : List String :=
  [ScopeAnalyticsReadExtensions, ScopeAnalyticsReadGames, ScopeBitsRead,
   ScopeChannelEditCommercial, ScopeChannelReadHypeTrain, ScopeChannelReadSubscriptions,
   ScopeChannelReadStreamKey, ScopeChannelBot, ScopeClipsEdit, ScopeUserEdit,
   ScopeUserEditBroadcast, ScopeUserEditFollows, ScopeUserReadBroadcast, ScopeUserReadEmail,
   ScopeUserReadChat, ScopeUserWriteChat, ScopeUserBot, ScopeModerationRead]

/-- Translation of `FilterValidScopes`: the loop appends each scope that is
valid to `result`. -/
def FilterValidScopes (scopes : List String) : List String :=
  scopes.foldl (fun result scope => if Scope.IsValid scope then result ++ [scope] else result)
    []

/-- Translation of `FilterInvalidScopes`: the loop appends each scope that is
not valid to `result`. -/
def FilterInvalidScopes (scopes : List String) : List String :=
  scopes.foldl
    (fun result scope => if !Scope.IsValid scope then result ++ [scope] else result) []

/-! ## Commercial lengths -/

/-- Translation of `CommercialLength.IsValid`; a `CommercialLength` is an
`int`. -/
def CommercialLength.IsValid (cl : Int) : Bool :=
  cl = 30 || cl = 60 || cl = 90 || cl = 120 || cl = 150 || cl = 180

/-- Translation of `CommercialLength.Validate`. -/
def CommercialLength.Validate (cl : Int) : Int :=
  if cl ≤ 30 then 30
  else if cl ≤ 60 then 60
  else if cl ≤ 90 then 90
  else if cl ≤ 120 then 120
  else if cl ≤ 150 then 150
  else 180

/-! ## Further sample records of `options.go` -/

/-- The embedded `BaseClipsOptions` of `options.go`, which embeds
`BaseOptions` itself. -/
def mkBaseClipsOptions (base : StructField × GoValue) (endedAt startedAt : GoValue) :
    StructField × GoValue :=
  ({ name := "BaseClipsOptions", exported := true, jsonTag := "", anonymous := true },
   .struct [base,
            (exportedField "EndedAt" "ended_at,omitempty", endedAt),
            (exportedField "StartedAt" "started_at,omitempty", startedAt)])

/-- A `ClipsBroadcasterIdOptions` value of `options.go`. -/
def mkClipsBroadcasterIdOptions (baseClips : StructField × GoValue) (broadcasterID : GoValue) :
    GoValue :=
  .struct [baseClips, (exportedField "BroadcasterID" "broadcaster_id", broadcasterID)]

/-- The embedded `SearchOptions` of `options.go`. -/
def mkSearchOptions (query first after : GoValue) : StructField × GoValue :=
  ({ name := "SearchOptions", exported := true, jsonTag := "", anonymous := true },
   .struct [(exportedField "Query" "query", query),
            (exportedField "First" "first,omitempty", first),
            (exportedField "After" "after,omitempty", after)])

/-- A `SearchChannelsOptions` value of `options.go`. -/
def mkSearchChannelsOptions (search : StructField × GoValue) (liveOnly : GoValue) : GoValue :=
  .struct [search, (exportedField "LiveOnly" "live_only,omitempty", liveOnly)]

/-! ## Further endpoint methods -/

/-- Translation of `GetClips`, which tests no scope. Its parameter has the
type `any`, so `&options` points to an interface value: nil for `none`, and
holding `v` for `some v`. -/
def GetClips {α : Type} (env : Env) (decode : String → Except String α) (fuel : Nat)
    (s : Sys) (options : Option GoValue) : Reply α × Sys :=
  let boxed : GoValue := match options with
    | none => .nilIface
    | some v => .iface v
  match requiredQuery boxed with
  | none => (.panic, s)
  | some query => simpleGetDecode env decode fuel s ("/clips" ++ query) "helix"

/-! ## The exported `ParseOptions` of `util.go` -/

/-- The bytes of the UTF-8 encoding of a character. -/
def utf8Bytes (c : Char) : List Nat :=
  let v := c.toNat
  if v < 128 then [v]
  else if v < 2048 then [192 + v / 64, 128 + v % 64]
  else if v < 65536 then [224 + v / 4096, 128 + v / 64 % 64, 128 + v % 64]
  else [240 + v / 262144, 128 + v / 4096 % 64, 128 + v / 64 % 64, 128 + v % 64]

/-- Models `shouldEscape(c, encodeQueryComponent)` of `net/url`: letters,
digits, '-', '_', '.' and '~' are kept and every other byte is escaped. -/
def shouldEscape (b : Nat) : Bool :=
  !((97 ≤ b && b ≤ 122) || (65 ≤ b && b ≤ 90) || (48 ≤ b && b ≤ 57) ||
    b = 45 || b = 95 || b = 46 || b = 126)

/-- The digit `"0123456789ABCDEF"[n]`. -/
def upperHexDigit (n : Nat) : Char :=
  if n < 10 then Char.ofNat (48 + n) else Char.ofNat (55 + n)

/-- The escape of one byte in `url.QueryEscape`. -/
def escapeByte (b : Nat) : List Char :=
  if b = 32 then ['+']
  else if shouldEscape b then ['%', upperHexDigit (b / 16), upperHexDigit (b % 16)]
  else [Char.ofNat b]

/-- The escapes of the bytes of a list of characters, in order. -/
def escapeChars : List Char → List Char
  | [] => []
  | c :: cs => (utf8Bytes c).foldr (fun b rest => escapeByte b ++ rest) (escapeChars cs)

/-- Models `url.QueryEscape`. -/
def QueryEscape (s : String) : String := String.mk (escapeChars s.data)

/-- A `url.Values`: the keys with their values, each key once. -/
abbrev Values := List (String × List String)

/-- Models `Values.Set`: the key gets the one value. -/
def Values.Set (v : Values) (key value : String) : Values :=
  v.filter (fun entry => entry.1 != key) ++ [(key, [value])]

/-- Models `Values.Add`: the value is appended to those of the key. -/
def Values.Add (v : Values) (key value : String) : Values :=
  v.filter (fun entry => entry.1 != key) ++ [(key, (v.lookup key).getD [] ++ [value])]

/-- Inserts a key into a sorted list of keys. -/
def insertKey (key : String) : List String → List String
  | [] => [key]
  | k :: rest => if key < k then key :: k :: rest else k :: insertKey key rest

/-- Models `slices.Sort(keys)`. -/
def sortKeys (keys : List String) : List String := keys.foldr insertKey []

/-- The `key=value` pairs `Values.Encode` writes, both sides escaped, by
sorted key and for each key in the order of its values. -/
def encodedPairs (v : Values) : List String → List String
  | [] => []
  | key :: rest =>
    ((v.lookup key).getD []).map (fun value => QueryEscape key ++ "=" ++ QueryEscape value)
      ++ encodedPairs v rest

/-- Models `Values.Encode`. -/
def Values.Encode (v : Values) : String :=
  "&".intercalate (encodedPairs v (sortKeys (v.map (fun entry => entry.1))))

/-- Models `strings.TrimSuffix(s, "&")`. -/
def trimSuffixAmp (s : String) : String :=
  if s.data.getLast? = some '&' then String.mk s.data.dropLast else s

/-- Models `fmt.Sprintf("%v", v.Interface())` for a value that can be
interfaced: `Interface` returns the dynamic value of a value of interface
kind. -/
def sprintInterface (v : GoValue) : String :=
  match v with
  | .iface dyn => sprintV ROFlag.none dyn
  | v => sprintV ROFlag.none v

/-- Translation of the exported `ParseOptions`. The argument is the operand
`options`; `reflect.ValueOf` sees the dynamic value of an interface operand
and gives the invalid `Value`, whose kind is no struct, for a nil one. -/
def ParseOptions (options : GoValue) : String :=
  let v : GoValue := match options with
    | .iface dyn => dyn
    | v => v
  if v.kind = .pointer && v.IsNil then ""
  else
    let v : GoValue := if v.kind = .pointer then (v.Elem).getD .nilIface else v
    match v with
    | .struct fields =>
      let params : Values := fields.foldl (fun params entry =>
        let fieldType := entry.1
        let field := entry.2
        let fl := ROFlag.none.field fieldType
        if !fl.CanInterface then params
        else if (field.kind = .pointer && field.IsNil)
            || (field.kind = .interface && field.IsNil) then params
        else
          let key := fieldType.name
          if field.kind = .slice && !field.IsNil then
            field.elems.foldl (fun params element =>
              if fl.ro.CanInterface then params.Add key (sprintInterface element)
              else params) params
          else params.Set key (sprintInterface field)) []
      trimSuffixAmp (Values.Encode params)
    | _ => ""

/-! ## Stream thumbnails -/

/-- Models `strconv.Itoa`: the decimal notation of an `int`. -/
def Itoa (i : Int) : String := toString i

/-- The loop of `strings.ReplaceAll(s, old, new)` for a non-empty `old`: the
occurrences of `old` are found from left to right, each search starting
behind the occurrence found before; `skip` counts the characters of a found
occurrence that are still to be passed. -/
def replaceLoop (old new : List Char) : Nat → List Char → List Char
  | _, [] => []
  | skip + 1, _ :: cs => replaceLoop old new skip cs
  | 0, c :: cs =>
    if old.isPrefixOf (c :: cs) then new ++ replaceLoop old new (old.length - 1) cs
    else c :: replaceLoop old new 0 cs

/-- Models `strings.ReplaceAll`; with an empty `old` the library inserts
`new` before every character and at the end. The library compares bytes,
which for an `old` of ASCII characters finds the same occurrences as the
comparison of characters. -/
def ReplaceAll (s old new : String) : String :=
  if old = "" then
    String.mk (new.data ++ s.data.foldr (fun c rest => c :: (new.data ++ rest)) [])
  else String.mk (replaceLoop old.data new.data 0 s.data)

/-- Translation of `ThumbnailUrlOptions`. -/
structure ThumbnailUrlOptions where
  Width : Int
  Height : Int

/-- The field of `Stream` that `GetThumbnailUrl` reads. -/
structure Stream where
  ThumbnailURL : String

/-- Translation of `Stream.GetThumbnailUrl`; `none` is the nil pointer. -/
def Stream.GetThumbnailUrl (s : Stream) (options : Option ThumbnailUrlOptions) : String :=
  let width : Int := 1920
  let height : Int := 1080
  let width : Int := match options with
    | some o => if o.Width > 0 then o.Width else width
    | none => width
  let height : Int := match options with
    | some o => if o.Height > 0 then o.Height else height
    | none => height
  let url := s.ThumbnailURL
  let url := ReplaceAll url "\x7bwidth\x7d" (Itoa width)
  let url := ReplaceAll url "\x7bheight\x7d" (Itoa height)
  url

/-- The two placeholders of a thumbnail template. -/
inductive Placeholder where
  | width
  | height
  deriving DecidableEq, Repr

/-- The text of a placeholder in a template. -/
def Placeholder.text : Placeholder → List Char
  | .width => "\x7bwidth\x7d".data
  | .height => "\x7bheight\x7d".data

/-- A text cut at placeholders, with each placeholder written out by `f`:
`first` is the text before the first placeholder, and `rest` lists the
placeholders, each with the text that follows it. -/
def fillTemplate (f : Placeholder → List Char) (first : List Char) :
    List (Placeholder × List Char) → List Char
  | [] => first
  | (p, text) :: rest => first ++ (f p ++ fillTemplate f text rest)

/-- The text holds no occurrence of a placeholder. -/
def placeholderFree (text : List Char) : Prop :=
  ¬ Placeholder.text .width <:+: text ∧ ¬ Placeholder.text .height <:+: text

/-- Whether a text holds a placeholder can be computed. -/
instance instDecidablePlaceholderFree (text : List Char) :
    Decidable (placeholderFree text) := by
  unfold placeholderFree
  exact inferInstance

/-- The texts of a cut template hold no occurrence of a placeholder, so that
the placeholders of the template are those of the cut. -/
def cutAtPlaceholders (first : List Char) (rest : List (Placeholder × List Char)) : Prop :=
  placeholderFree first ∧ ∀ piece ∈ rest, placeholderFree piece.2

/-- The stream of `TestStreamGetThumbnailUrl`. -/
def sampleStream : Stream :=
  { ThumbnailURL :=
    "https://static-cdn.jtvnw.net/previews-ttv/live_user_test-\x7bwidth\x7dx\x7bheight\x7d.jpg" }

/-! # Theorems -/

/-! ## Lemmas on the encoder -/

theorem foldl_append_singleton {α β : Type} (g : α → β) (xs : List α) (acc : List β) :
    xs.foldl (fun parts x => parts ++ [g x]) acc = acc ++ xs.map g := by
  induction xs generalizing acc with
  | nil => simp
  | cons x xs ih => simp [ih]

theorem appendField_eq (fl : ROFlag) (parts : List String) (fieldType : StructField)
    (field : GoValue) :
    appendField fl parts fieldType field = parts ++ fieldParts fl fieldType field := by
  unfold fieldParts appendField
  cases (if field.kind = .pointer then field.Elem else some field) with
  | none => simp
  | some x =>
    by_cases hz : isZeroValue x = true
    · simp [hz]
    · by_cases hk : (getJSONFieldName fieldType = "" ∨ getJSONFieldName fieldType = "-")
      · simp [hz, hk]
      · by_cases hs : x.kind = .slice
        · simp [hz, hk, hs, foldl_append_singleton]
        · simp [hz, hk, hs]

theorem embedded_foldl_eq (fl : ROFlag) (efields : List (StructField × GoValue))
    (parts : List String) :
    efields.foldl (fun parts embedded =>
      appendField (fl.field embedded.1) parts embedded.1 embedded.2) parts
      = parts ++ embeddedParts fl efields := by
  induction efields generalizing parts with
  | nil => simp [embeddedParts]
  | cons e rest ih =>
    simp only [List.foldl_cons, embeddedParts]
    rw [ih, appendField_eq]
    simp

theorem record_foldl_eq (fields : List (StructField × GoValue)) (parts : List String) :
    fields.foldl (fun parts entry =>
      let fieldType := entry.1
      let field := entry.2
      let fl := ROFlag.none.field fieldType
      if fieldType.anonymous && field.kind = .struct then
        field.fields.foldl (fun parts embedded =>
          appendField (fl.field embedded.1) parts embedded.1 embedded.2) parts
      else appendField fl parts fieldType field) parts
      = parts ++ recordParts fields := by
  induction fields generalizing parts with
  | nil => simp [recordParts]
  | cons e rest ih =>
    simp only [List.foldl_cons, recordParts]
    rw [ih]
    unfold entryParts
    split
    · rw [embedded_foldl_eq]; simp
    · rw [appendField_eq]; simp

/-- The output of `parseOptions` on a record is the `&`-join of its parts. -/
theorem parseOptions_struct (fields : List (StructField × GoValue)) :
    parseOptions (some (.struct fields)) = some ("&".intercalate (recordParts fields)) := by
  simp only [parseOptions]
  rw [record_foldl_eq]
  simp

theorem recordParts_append (pre post : List (StructField × GoValue)) :
    recordParts (pre ++ post) = recordParts pre ++ recordParts post := by
  induction pre with
  | nil => simp [recordParts]
  | cons e rest ih => simp [recordParts, ih]

theorem embeddedParts_append (fl : ROFlag) (pre post : List (StructField × GoValue)) :
    embeddedParts fl (pre ++ post) = embeddedParts fl pre ++ embeddedParts fl post := by
  induction pre with
  | nil => simp [embeddedParts]
  | cons e rest ih => simp [embeddedParts, ih]

theorem fieldParts_of_IsZero (fl : ROFlag) (fieldType : StructField) (v : GoValue)
    (h : v.IsZero = true) : fieldParts fl fieldType v = [] := by
  cases v <;>
    simp_all [fieldParts, appendField, GoValue.kind, GoValue.Elem, isZeroValue,
      GoValue.IsNil, GoValue.IsZero]

theorem fieldParts_of_zeroNilOrEmpty (fl : ROFlag) (fieldType : StructField) (v : GoValue)
    (h : zeroNilOrEmpty v) : fieldParts fl fieldType v = [] := by
  rcases h with h | h | h | h | h | h
  · subst h; rfl
  · subst h; rfl
  · subst h; rfl
  · subst h; rfl
  · subst h; rfl
  · exact fieldParts_of_IsZero fl fieldType v h

theorem embeddedParts_of_allZero (fl : ROFlag) (efields : List (StructField × GoValue))
    (h : GoValue.IsZero.allZero efields = true) : embeddedParts fl efields = [] := by
  induction efields with
  | nil => rfl
  | cons e rest ih =>
    obtain ⟨f, v⟩ := e
    simp only [GoValue.IsZero.allZero, Bool.and_eq_true] at h
    simp [embeddedParts, fieldParts_of_IsZero _ _ _ h.1, ih h.2]

theorem entryParts_of_zeroNilOrEmpty (fieldType : StructField) (v : GoValue)
    (h : zeroNilOrEmpty v) : entryParts (fieldType, v) = [] := by
  unfold entryParts
  split
  · rename_i hs
    simp only [Bool.and_eq_true, decide_eq_true_eq] at hs
    cases v <;> simp [GoValue.kind] at hs
    rename_i efields
    rcases h with h | h | h | h | h | h
    · cases h
    · cases h
    · cases h
    · cases h
    · cases h
    · simp only [GoValue.IsZero] at h
      exact embeddedParts_of_allZero _ _ h
  · exact fieldParts_of_zeroNilOrEmpty _ _ _ h

theorem entryParts_embedded (name : String) (exported : Bool) (tag : String)
    (efields : List (StructField × GoValue)) :
    entryParts ({ name := name, exported := exported, jsonTag := tag, anonymous := true },
      .struct efields)
      = embeddedParts (ROFlag.none.field
          { name := name, exported := exported, jsonTag := tag, anonymous := true }) efields := by
  simp [entryParts, GoValue.kind, GoValue.fields]

theorem stringsSplit_head (sep : Char) (cs : List Char) :
    (stringsSplit sep cs).headD [] = cs.takeWhile (fun c => c != sep) := by
  induction cs with
  | nil => rfl
  | cons c rest ih =>
    by_cases hc : c = sep
    · simp [stringsSplit, hc]
    · have hne : (c != sep) = true := by simp [hc]
      simp only [stringsSplit, hc, if_false, List.takeWhile_cons, hne, if_true]
      cases hsplit : stringsSplit sep rest with
      | nil =>
        rw [hsplit] at ih
        simp only [List.headD] at ih
        simp [← ih]
      | cons piece pieces =>
        rw [hsplit] at ih
        simp only [List.headD] at ih
        simp [← ih]

theorem fieldParts_key (fl : ROFlag) (fieldType : StructField) (field : GoValue)
    (part : String) (h : part ∈ fieldParts fl fieldType field) :
    (∃ rendering, part = getJSONFieldName fieldType ++ "=" ++ rendering) ∧
      getJSONFieldName fieldType ≠ "" ∧ getJSONFieldName fieldType ≠ "-" := by
  unfold fieldParts appendField at h
  cases hd : (if field.kind = .pointer then field.Elem else some field) with
  | none => simp [hd] at h
  | some x =>
    rw [hd] at h
    by_cases hz : isZeroValue x = true
    · simp [hz] at h
    · by_cases hk : (getJSONFieldName fieldType = "" ∨ getJSONFieldName fieldType = "-")
      · simp [hz, hk] at h
      · have hk2 := not_or.mp hk
        refine ⟨?_, hk2.1, hk2.2⟩
        by_cases hs : x.kind = .slice
        · simp [hz, hk, hs, foldl_append_singleton] at h
          obtain ⟨e, _, he⟩ := h
          exact ⟨sprintV fl.ro e, by rw [← he]; rfl⟩
        · simp [hz, hk, hs] at h
          exact ⟨sprintV fl x, by rw [h]; rfl⟩

/-! ## The option encoder: claims C1 to C4 -/

/-- Claim C1. A field whose value is a nil pointer, a nil or empty slice or
map, or the zero value of its type contributes no `key=value` part: the loop
iteration for it leaves `parts` unchanged, and the output of `parseOptions` on
a record holding such a field, at the top level or inside a directly embedded
struct, is the output on the record without that field. -/
theorem parseOptions_omits_zero_fields (fieldType : StructField) (v : GoValue)
    (h : zeroNilOrEmpty v) (pre post : List (StructField × GoValue)) :
    (∀ fl parts, appendField fl parts fieldType v = parts) ∧
    parseOptions (some (.struct (pre ++ (fieldType, v) :: post)))
      = parseOptions (some (.struct (pre ++ post))) ∧
    (∀ name exported tag epre epost,
      parseOptions (some (.struct (pre ++
          ({ name := name, exported := exported, jsonTag := tag, anonymous := true },
            .struct (epre ++ (fieldType, v) :: epost)) :: post)))
        = parseOptions (some (.struct (pre ++
          ({ name := name, exported := exported, jsonTag := tag, anonymous := true },
            .struct (epre ++ epost)) :: post)))) := by
  refine ⟨?_, ?_, ?_⟩
  · intro fl parts
    rw [appendField_eq, fieldParts_of_zeroNilOrEmpty fl fieldType v h]
    simp
  · rw [parseOptions_struct, parseOptions_struct, recordParts_append, recordParts_append]
    simp [recordParts, entryParts_of_zeroNilOrEmpty fieldType v h]
  · intro name exported tag epre epost
    rw [parseOptions_struct, parseOptions_struct, recordParts_append, recordParts_append]
    simp only [recordParts, entryParts_embedded, embeddedParts_append, embeddedParts]
    rw [fieldParts_of_zeroNilOrEmpty _ fieldType v h]
    simp

/-- Witness for C1: `GetVideosOptions` with `First` pointing nowhere and
`UserID` "12345" encodes like the record without the `First` field. -/
theorem parseOptions_omits_zero_fields_witness :
    zeroNilOrEmpty .nilPtr ∧
    parseOptions (some (.struct ([] ++ (exportedField "First" "first,omitempty", .nilPtr) ::
        [(exportedField "UserID" "user_id,omitempty", .ptr 1 (.str "12345"))])))
      = parseOptions (some (.struct ([] ++
        [(exportedField "UserID" "user_id,omitempty", .ptr 1 (.str "12345"))]))) :=
  ⟨Or.inl rfl,
   (parseOptions_omits_zero_fields (exportedField "First" "first,omitempty") .nilPtr
      (Or.inl rfl) [] [(exportedField "UserID" "user_id,omitempty", .ptr 1 (.str "12345"))]).2.1⟩

/-- Claim C2. The output of `parseOptions` on a record is the `&`-join of the
parts of its fields in declaration order: splitting the record at any field,
the parts of the fields before it come first, then its own, then those of the
fields after it; the parts of a directly embedded struct are those of its own
fields, in their order, at the position of the embedding. `GetVideosOptions`
with `UserID` "12345" and the embedded `First` 1 encodes to
"first=1&user_id=12345". -/
theorem parseOptions_declaration_order :
    (∀ fields, parseOptions (some (.struct fields))
      = some ("&".intercalate (recordParts fields))) ∧
    (∀ pre entry post, parseOptions (some (.struct (pre ++ entry :: post)))
      = some ("&".intercalate (recordParts pre ++ entryParts entry ++ recordParts post))) ∧
    (∀ name exported tag epre embedded epost,
      entryParts ({ name := name, exported := exported, jsonTag := tag, anonymous := true },
          .struct (epre ++ embedded :: epost))
        = embeddedParts (ROFlag.none.field
            { name := name, exported := exported, jsonTag := tag, anonymous := true }) epre
          ++ fieldParts ((ROFlag.none.field
            { name := name, exported := exported, jsonTag := tag, anonymous := true }).field
              embedded.1) embedded.1 embedded.2
          ++ embeddedParts (ROFlag.none.field
            { name := name, exported := exported, jsonTag := tag, anonymous := true }) epost) ∧
    parseOptions (some (mkGetVideosOptions (mkBaseOptions (.ptr 1 (.int 1)) .nilPtr .nilPtr)
        .nilSlice (.ptr 2 (.str "12345")) .nilPtr .nilPtr .nilPtr .nilPtr .nilPtr))
      = some "first=1&user_id=12345" := by
  refine ⟨parseOptions_struct, ?_, ?_, by decide⟩
  · intro pre entry post
    rw [parseOptions_struct, recordParts_append]
    simp [recordParts]
  · intro name exported tag epre embedded epost
    rw [entryParts_embedded, embeddedParts_append]
    simp [embeddedParts]

/-- Claim C3. A slice-valued field with N >= 1 elements and a usable key
contributes exactly N parts, one per element in slice order, all with the
key of the field, and they stand together in the output between the parts of
the fields before and after it; the same holds for a slice field of a
directly embedded struct. -/
theorem parseOptions_slice_field (fieldType : StructField) (elems : List GoValue)
    (hN : 1 ≤ elems.length)
    (hkey : getJSONFieldName fieldType ≠ "" ∧ getJSONFieldName fieldType ≠ "-")
    (pre post : List (StructField × GoValue)) :
    (∀ fl, fieldParts fl fieldType (.slice elems)
      = elems.map (fun elem => getJSONFieldName fieldType ++ "=" ++ sprintV fl.ro elem)) ∧
    (∀ fl, (fieldParts fl fieldType (.slice elems)).length = elems.length) ∧
    parseOptions (some (.struct (pre ++ (fieldType, .slice elems) :: post)))
      = some ("&".intercalate (recordParts pre
          ++ elems.map (fun elem => getJSONFieldName fieldType ++ "="
              ++ sprintV (ROFlag.none.field fieldType).ro elem)
          ++ recordParts post)) ∧
    (∀ name exported tag epre epost,
      parseOptions (some (.struct (pre ++
          ({ name := name, exported := exported, jsonTag := tag, anonymous := true },
            .struct (epre ++ (fieldType, .slice elems) :: epost)) :: post)))
        = some ("&".intercalate (recordParts pre
          ++ (embeddedParts (ROFlag.none.field
                { name := name, exported := exported, jsonTag := tag, anonymous := true }) epre
            ++ elems.map (fun elem => getJSONFieldName fieldType ++ "="
                ++ sprintV ((ROFlag.none.field
                  { name := name, exported := exported, jsonTag := tag,
                    anonymous := true }).field fieldType).ro elem)
            ++ embeddedParts (ROFlag.none.field
                { name := name, exported := exported, jsonTag := tag, anonymous := true }) epost)
          ++ recordParts post))) := by
  have hparts : ∀ fl, fieldParts fl fieldType (.slice elems)
      = elems.map (fun elem => getJSONFieldName fieldType ++ "=" ++ sprintV fl.ro elem) := by
    intro fl
    have hne : elems ≠ [] := by
      intro he
      rw [he] at hN
      simp at hN
    have hlen : ¬ elems.length = 0 := by omega
    simp [fieldParts, appendField, GoValue.kind, isZeroValue, GoValue.IsNil, GoValue.Len,
      hlen, hkey.1, hkey.2, GoValue.elems, foldl_append_singleton, sprintPair]
  refine ⟨hparts, ?_, ?_, ?_⟩
  · intro fl
    rw [hparts]
    simp
  · rw [parseOptions_struct, recordParts_append]
    simp only [recordParts, entryParts, GoValue.kind]
    simp [hparts]
  · intro name exported tag epre epost
    rw [parseOptions_struct, recordParts_append]
    simp only [recordParts, entryParts_embedded, embeddedParts_append, embeddedParts]
    simp [hparts]

/-- Witness for C3: `GetVideosOptions` with `ID` ["123", "456"] encodes to
"id=123&id=456". -/
theorem parseOptions_slice_field_witness :
    1 ≤ [GoValue.str "123", GoValue.str "456"].length ∧
    (getJSONFieldName (exportedField "ID" "id,omitempty") ≠ "" ∧
      getJSONFieldName (exportedField "ID" "id,omitempty") ≠ "-") ∧
    parseOptions (some (.struct ([mkBaseOptions .nilPtr .nilPtr .nilPtr] ++
        (exportedField "ID" "id,omitempty", .slice [.str "123", .str "456"]) ::
          [(exportedField "UserID" "user_id,omitempty", .nilPtr)])))
      = some "id=123&id=456" :=
  ⟨by decide, by decide,
   (parseOptions_slice_field (exportedField "ID" "id,omitempty") [.str "123", .str "456"]
      (by decide) (by decide) [mkBaseOptions .nilPtr .nilPtr .nilPtr]
      [(exportedField "UserID" "user_id,omitempty", .nilPtr)]).2.2.1.trans (by decide)⟩

theorem embeddedParts_key (fl : ROFlag) (efields : List (StructField × GoValue))
    (part : String) (h : part ∈ embeddedParts fl efields) :
    ∃ leaf ∈ efields, (∃ rendering, part = getJSONFieldName leaf.1 ++ "=" ++ rendering) ∧
      getJSONFieldName leaf.1 ≠ "" ∧ getJSONFieldName leaf.1 ≠ "-" := by
  induction efields with
  | nil => simp [embeddedParts] at h
  | cons e rest ih =>
    simp only [embeddedParts, List.mem_append] at h
    rcases h with h | h
    · exact ⟨e, by simp, fieldParts_key _ _ _ _ h⟩
    · obtain ⟨leaf, hmem, hleaf⟩ := ih h
      exact ⟨leaf, by simp [hmem], hleaf⟩

theorem recordParts_key (fields : List (StructField × GoValue)) (part : String)
    (h : part ∈ recordParts fields) :
    ∃ leaf ∈ leafFields fields, (∃ rendering, part = getJSONFieldName leaf.1 ++ "=" ++ rendering) ∧
      getJSONFieldName leaf.1 ≠ "" ∧ getJSONFieldName leaf.1 ≠ "-" := by
  induction fields with
  | nil => simp [recordParts] at h
  | cons e rest ih =>
    simp only [recordParts, List.mem_append] at h
    rcases h with h | h
    · unfold entryParts at h
      by_cases hs : (e.1.anonymous && decide (e.2.kind = .struct)) = true
      · rw [if_pos hs] at h
        obtain ⟨leaf, hmem, hleaf⟩ := embeddedParts_key _ _ _ h
        exact ⟨leaf, by simp [leafFields, hs, hmem], hleaf⟩
      · rw [if_neg hs] at h
        exact ⟨e, by simp [leafFields, hs], fieldParts_key _ _ _ _ h⟩
    · obtain ⟨leaf, hmem, hleaf⟩ := ih h
      exact ⟨leaf, by simp [leafFields, hmem], hleaf⟩

/-- Claim C4. The name `getJSONFieldName` returns is the text of the json tag
before its first comma. Every part of the output of `parseOptions` on a record
is `key=rendering` where `key` is that name for one of the fields the loop
body runs on (a top-level field or a field of a directly embedded struct), and
that name is neither empty nor "-"; a field without json tag, or whose tag
name is "-", leaves `parts` unchanged. -/
theorem parseOptions_keys_are_tag_names (fields : List (StructField × GoValue))
    (part : String) (h : part ∈ recordParts fields) :
    parseOptions (some (.struct fields)) = some ("&".intercalate (recordParts fields)) ∧
    (∃ leaf ∈ leafFields fields,
      (∃ rendering, part = getJSONFieldName leaf.1 ++ "=" ++ rendering) ∧
      getJSONFieldName leaf.1 ≠ "" ∧ getJSONFieldName leaf.1 ≠ "-" ∧ leaf.1.jsonTag ≠ "") ∧
    (∀ fieldType : StructField, getJSONFieldName fieldType
      = String.mk (fieldType.jsonTag.data.takeWhile (fun c => c != ','))) ∧
    (∀ (fieldType : StructField) fl parts field,
      fieldType.jsonTag = "" ∨ getJSONFieldName fieldType = "-" →
        appendField fl parts fieldType field = parts) := by
  refine ⟨parseOptions_struct fields, ?_, ?_, ?_⟩
  · obtain ⟨leaf, hmem, hr, hne, hdash⟩ := recordParts_key fields part h
    refine ⟨leaf, hmem, hr, hne, hdash, ?_⟩
    intro htag
    exact hne (by simp [getJSONFieldName, htag])
  · intro fieldType
    unfold getJSONFieldName
    by_cases htag : fieldType.jsonTag = ""
    · simp [htag]
    · simp only [htag, if_false]
      rw [stringsSplit_head]
  · intro fieldType fl parts field hbad
    have hkey : getJSONFieldName fieldType = "" ∨ getJSONFieldName fieldType = "-" := by
      rcases hbad with htag | hdash
      · exact Or.inl (by simp [getJSONFieldName, htag])
      · exact Or.inr hdash
    unfold appendField
    cases (if field.kind = .pointer then field.Elem else some field) with
    | none => rfl
    | some x =>
      by_cases hz : isZeroValue x = true
      · simp [hz]
      · simp [hz, hkey]

/-- Witness for C4: the part "user_id=12345" of a record with the field
`UserID` tagged "user_id,omitempty", and a field tagged "-" that emits
nothing. -/
theorem parseOptions_keys_are_tag_names_witness :
    "user_id=12345" ∈ recordParts
      [(exportedField "UserID" "user_id,omitempty", .ptr 1 (.str "12345"))] ∧
    (∃ leaf ∈ leafFields [(exportedField "UserID" "user_id,omitempty", .ptr 1 (.str "12345"))],
      (∃ rendering, "user_id=12345" = getJSONFieldName leaf.1 ++ "=" ++ rendering) ∧
      getJSONFieldName leaf.1 ≠ "" ∧ getJSONFieldName leaf.1 ≠ "-" ∧ leaf.1.jsonTag ≠ "") ∧
    appendField ROFlag.none [] (exportedField "IgnoredTag" "-") (.str "x") = [] :=
  ⟨by decide,
   (parseOptions_keys_are_tag_names
      [(exportedField "UserID" "user_id,omitempty", .ptr 1 (.str "12345"))] "user_id=12345"
      (by decide)).2.1,
   (parseOptions_keys_are_tag_names
      [(exportedField "UserID" "user_id,omitempty", .ptr 1 (.str "12345"))] "user_id=12345"
      (by decide)).2.2.2 (exportedField "IgnoredTag" "-") ROFlag.none [] (.str "x")
      (Or.inr (by decide))⟩

/-! ## Lemmas on `strconv.Atoi` -/

theorem decimalValue_ge (digits : List Char) (n : Nat) : n ≤ decimalValue digits n := by
  induction digits generalizing n with
  | nil => simp [decimalValue]
  | cons c cs ih =>
    have h := ih (n * 10 + digitValue c)
    simp only [decimalValue, List.foldl_cons] at h ⊢
    omega

theorem decimalValue_lt (digits : List Char) (n : Nat)
    (hd : digits.all isDecimalDigit = true) :
    decimalValue digits n < (n + 1) * 10 ^ digits.length := by
  induction digits generalizing n with
  | nil => simp [decimalValue]
  | cons c cs ih =>
    simp only [List.all_cons, Bool.and_eq_true] at hd
    have h := ih (n * 10 + digitValue c) hd.2
    have hc : digitValue c ≤ 9 := by
      have := hd.1
      simp only [isDecimalDigit, Bool.and_eq_true, decide_eq_true_eq] at this
      unfold digitValue
      omega
    simp only [decimalValue, List.foldl_cons, List.length_cons] at h ⊢
    calc List.foldl (fun n c => n * 10 + digitValue c) (n * 10 + digitValue c) cs
        < (n * 10 + digitValue c + 1) * 10 ^ cs.length := h
      _ ≤ ((n + 1) * 10) * 10 ^ cs.length := Nat.mul_le_mul_right _ (by omega)
      _ = (n + 1) * 10 ^ (cs.length + 1) := by ring

theorem parseUintLoop_spec (cs : List Char) (n : Nat) (hn : n < 2 ^ 64) :
    ((parseUintLoop cs n).2 = none ↔
      (cs.all isDecimalDigit = true ∧ decimalValue cs n < 2 ^ 64)) ∧
    ((parseUintLoop cs n).2 = none → (parseUintLoop cs n).1 = decimalValue cs n) := by
  induction cs generalizing n with
  | nil =>
    simp only [parseUintLoop, decimalValue, List.foldl_nil, List.all_nil, true_and, implies_true,
      and_true]
    exact ⟨fun _ => hn, fun _ => trivial⟩
  | cons c cs ih =>
    simp only [parseUintLoop, List.all_cons, Bool.and_eq_true]
    by_cases hc : isDecimalDigit c = true
    · have hd : digitValue c ≤ 9 := by
        have := hc
        simp only [isDecimalDigit, Bool.and_eq_true, decide_eq_true_eq] at this
        unfold digitValue
        omega
      have hval : decimalValue (c :: cs) n = decimalValue cs (n * 10 + digitValue c) := rfl
      have hge := decimalValue_ge cs (n * 10 + digitValue c)
      simp only [hc, Bool.not_true, Bool.false_eq_true, if_false, true_and, hval]
      by_cases hcut : n ≥ (2 ^ 64 - 1) / 10 + 1
      · simp only [hcut, if_true]
        refine ⟨⟨fun h => (by cases h), fun h => ?_⟩, fun h => (by cases h)⟩
        exfalso
        norm_num at hcut
        omega
      · simp only [hcut, if_false]
        have hn10 : n * 10 < 2 ^ 64 := by norm_num at hcut ⊢; omega
        have hmod : n * 10 % 2 ^ 64 = n * 10 := Nat.mod_eq_of_lt hn10
        simp only [hmod, intSize]
        by_cases hov : n * 10 + digitValue c < 2 ^ 64
        · have hmod1 : (n * 10 + digitValue c) % 2 ^ 64 = n * 10 + digitValue c :=
            Nat.mod_eq_of_lt hov
          have hno : ¬ ((decide (n * 10 + digitValue c < n * 10) ||
              decide (n * 10 + digitValue c > 2 ^ 64 - 1)) = true) := by
            simp only [Bool.or_eq_true, decide_eq_true_eq]
            omega
          rw [hmod1, if_neg hno]
          exact ih (n * 10 + digitValue c) hov
        · have hwrap : (n * 10 + digitValue c) % 2 ^ 64 = n * 10 + digitValue c - 2 ^ 64 := by
            rw [Nat.mod_eq_sub_mod (by omega)]
            exact Nat.mod_eq_of_lt (by omega)
          have hyes : (decide ((n * 10 + digitValue c) % 2 ^ 64 < n * 10) ||
              decide ((n * 10 + digitValue c) % 2 ^ 64 > 2 ^ 64 - 1)) = true := by
            simp only [Bool.or_eq_true, decide_eq_true_eq]
            left
            rw [hwrap]
            omega
          rw [if_pos hyes]
          refine ⟨⟨fun h => (by cases h), fun h => ?_⟩, fun h => (by cases h)⟩
          exfalso
          omega
    · simp only [hc, Bool.not_false, if_true]
      refine ⟨⟨fun h => (by cases h), fun h => ?_⟩, fun h => (by cases h)⟩
      exact absurd h.1 (by simp)

theorem atoiFastLoop_ok (cs : List Char) (n : Nat) :
    (atoiFastLoop cs (n : Int)).2 = none ↔ cs.all isDecimalDigit = true := by
  induction cs generalizing n with
  | nil => simp [atoiFastLoop]
  | cons c cs ih =>
    simp only [atoiFastLoop, List.all_cons, Bool.and_eq_true]
    by_cases hc : isDecimalDigit c = true
    · simp only [hc, Bool.not_true, Bool.false_eq_true, if_false, true_and]
      have := ih (n * 10 + digitValue c)
      push_cast at this
      exact this
    · simp only [hc, Bool.not_false, if_true]
      constructor
      · intro h; cases h
      · rintro ⟨h, _⟩; cases h

theorem atoiFastLoop_value (cs : List Char) (n : Nat)
    (h : cs.all isDecimalDigit = true) :
    (atoiFastLoop cs (n : Int)).1 = (decimalValue cs n : Int) := by
  induction cs generalizing n with
  | nil => simp [atoiFastLoop, decimalValue]
  | cons c cs ih =>
    simp only [List.all_cons, Bool.and_eq_true] at h
    simp only [atoiFastLoop, h.1, Bool.not_true, Bool.false_eq_true, if_false]
    have := ih (n * 10 + digitValue c) h.2
    push_cast at this
    exact this

theorem utf8ByteSize_go_ge (cs : List Char) : cs.length ≤ String.utf8ByteSize.go cs := by
  induction cs with
  | nil => simp [String.utf8ByteSize.go]
  | cons c cs ih =>
    have := Char.utf8Size_pos c
    simp only [String.utf8ByteSize.go, List.length_cons]
    omega

theorem utf8ByteSize_ge (s : String) : s.data.length ≤ s.utf8ByteSize := by
  obtain ⟨cs⟩ := s
  exact utf8ByteSize_go_ge cs

theorem ParseUint_ok (cs : List Char) :
    ((ParseUint cs).2 = none ↔
      (cs ≠ [] ∧ cs.all isDecimalDigit = true ∧ decimalValue cs 0 < 2 ^ 64)) ∧
    ((ParseUint cs).2 = none → (ParseUint cs).1 = decimalValue cs 0) := by
  unfold ParseUint
  by_cases hcs : cs = []
  · simp [hcs]
  · simp only [hcs, if_false, ne_eq, not_false_eq_true, true_and]
    exact parseUintLoop_spec cs 0 (by norm_num)

theorem parseUintLoop_error (cs : List Char) (n : Nat) (h : (parseUintLoop cs n).2 ≠ none) :
    (parseUintLoop cs n).2 = some .errSyntax ∨
      ((parseUintLoop cs n).2 = some .errRange ∧ (parseUintLoop cs n).1 = 2 ^ 64 - 1) := by
  induction cs generalizing n with
  | nil => simp [parseUintLoop] at h
  | cons c cs ih =>
    simp only [parseUintLoop] at h ⊢
    split
    · exact Or.inl rfl
    · split
      · exact Or.inr ⟨rfl, rfl⟩
      · split
        · exact Or.inr ⟨rfl, rfl⟩
        · rename_i h1 h2 h3
          simp only [h1, h2, h3, if_false] at h
          exact ih _ h

theorem ParseUint_error (cs : List Char) (h : (ParseUint cs).2 ≠ none) :
    (ParseUint cs).2 = some .errSyntax ∨
      ((ParseUint cs).2 = some .errRange ∧ (ParseUint cs).1 = 2 ^ 64 - 1) := by
  unfold ParseUint at h ⊢
  by_cases hcs : cs = []
  · simp [hcs]
  · simp only [hcs, if_false] at h ⊢
    exact parseUintLoop_error cs 0 h

theorem ParseInt_isOk (cs : List Char) :
    (ParseInt cs).2 = none ↔
      (isSignedDecimal ⟨cs⟩ = true ∧ -(2 ^ 63 : Int) ≤ signedValue ⟨cs⟩
        ∧ signedValue ⟨cs⟩ ≤ 2 ^ 63 - 1) := by
  by_cases hcs : cs = []
  · subst hcs
    simp [ParseInt, isSignedDecimal, unsignedPart]
  · have hrange : (isSignedDecimal ⟨cs⟩ = true ∧ -(2 ^ 63 : Int) ≤ signedValue ⟨cs⟩
        ∧ signedValue ⟨cs⟩ ≤ 2 ^ 63 - 1) →
        (ParseUint (unsignedPart ⟨cs⟩)).2 = none := by
      rintro ⟨hsd, hlo, hhi⟩
      refine (ParseUint_ok _).1.mpr ?_
      simp only [isSignedDecimal, Bool.and_eq_true, Bool.not_eq_true', List.isEmpty_eq_false] at hsd
      refine ⟨hsd.1, hsd.2, ?_⟩
      simp only [signedValue] at hlo hhi
      by_cases hneg : cs.head? = some '-'
      · simp only [hneg, if_true] at hlo hhi
        norm_num at hlo hhi ⊢
        omega
      · simp only [hneg, if_false] at hlo hhi
        norm_num at hlo hhi ⊢
        omega
    unfold ParseInt
    simp only [hcs, if_false]
    rw [show (if cs.head? = some '+' ∨ cs.head? = some '-' then cs.tail else cs)
      = unsignedPart ⟨cs⟩ from rfl]
    by_cases hU : (ParseUint (unsignedPart ⟨cs⟩)).2 = none
    · obtain ⟨hne, hall, hlt⟩ := (ParseUint_ok _).1.mp hU
      have hval := (ParseUint_ok _).2 hU
      have hsd : isSignedDecimal ⟨cs⟩ = true := by
        simp [isSignedDecimal, hne, hall]
      simp only [hU, ne_eq, not_true_eq_false, false_and, if_false, hsd, true_and, intSize,
        signedValue, hval]
      by_cases hneg : cs.head? = some '-'
      · simp only [hneg, decide_True, Bool.not_true, Bool.false_and, Bool.true_and,
          Bool.false_eq_true, if_false, if_true, decide_eq_true_eq]
        by_cases hbig : decimalValue (unsignedPart ⟨cs⟩) 0 > 2 ^ (64 - 1)
        · simp only [hbig, if_true]
          refine ⟨fun h => (by cases h), fun h => ?_⟩
          exfalso
          have h1 := h.1
          norm_num at hbig h1
          omega
        · simp only [hbig, if_false, true_iff]
          norm_num at hbig ⊢
          constructor <;> omega
      · simp only [hneg, decide_False, Bool.not_false, Bool.false_and, Bool.true_and,
          Bool.false_eq_true, if_false, decide_eq_true_eq]
        by_cases hbig : decimalValue (unsignedPart ⟨cs⟩) 0 ≥ 2 ^ (64 - 1)
        · simp only [hbig, if_true]
          refine ⟨fun h => (by cases h), fun h => ?_⟩
          exfalso
          have h2 := h.2
          norm_num at hbig h2
          omega
        · simp only [hbig, if_false, true_iff]
          norm_num at hbig ⊢
          constructor <;> omega
    · have hno : ¬ (isSignedDecimal ⟨cs⟩ = true ∧ -(2 ^ 63 : Int) ≤ signedValue ⟨cs⟩
          ∧ signedValue ⟨cs⟩ ≤ 2 ^ 63 - 1) := fun h => hU (hrange h)
      simp only [hno, iff_false]
      rcases ParseUint_error _ hU with hsyn | ⟨hrng, hmax⟩
      · simp [hsyn]
      · simp only [hrng, hmax, intSize]
        by_cases hneg : cs.head? = some '-' <;> simp [hneg]

theorem unsignedPart_length_le (cs : List Char) : (unsignedPart ⟨cs⟩).length ≤ cs.length := by
  unfold unsignedPart
  split
  · simp
  · exact Nat.le_refl _

theorem Atoi_isOk (s : String) :
    (Atoi s).2 = none ↔
      (isSignedDecimal s = true ∧ -(2 ^ 63 : Int) ≤ signedValue s
        ∧ signedValue s ≤ 2 ^ 63 - 1) := by
  by_cases hfast : 0 < s.utf8ByteSize ∧ s.utf8ByteSize < 19
  · have hlen := utf8ByteSize_ge s
    obtain ⟨cs⟩ := s
    have hcs : cs ≠ [] := by
      intro h
      subst h
      simp [String.utf8ByteSize, String.utf8ByteSize.go] at hfast
    have hdl := unsignedPart_length_le cs
    unfold Atoi
    simp only [intSize, hfast, and_self, if_true, true_and]
    rw [show (if cs.head? = some '-' ∨ cs.head? = some '+' then cs.tail else cs)
      = unsignedPart ⟨cs⟩ from by
        unfold unsignedPart
        by_cases h1 : cs.head? = some '-' <;> by_cases h2 : cs.head? = some '+' <;>
          simp [h1, h2]]
    by_cases hbad : (cs.head? = some '-' ∨ cs.head? = some '+') ∧
        (unsignedPart ⟨cs⟩).length < 1
    · simp only [hbad, and_self, if_true]
      have hempty : unsignedPart ⟨cs⟩ = [] := List.length_eq_zero.mp (by omega)
      simp [isSignedDecimal, hempty]
    · rw [if_neg hbad]
      have hne : unsignedPart ⟨cs⟩ ≠ [] := by
        intro hempty
        by_cases hs : cs.head? = some '-' ∨ cs.head? = some '+'
        · exact hbad ⟨hs, by simp [hempty]⟩
        · have : unsignedPart ⟨cs⟩ = cs := by
            unfold unsignedPart
            have hs2 : ¬ (cs.head? = some '+' ∨ cs.head? = some '-') := by tauto
            simp [hs2]
          exact hcs (this ▸ hempty)
      have hloop := atoiFastLoop_ok (unsignedPart ⟨cs⟩) 0
      simp only [Nat.cast_zero] at hloop
      by_cases hall : (unsignedPart ⟨cs⟩).all isDecimalDigit = true
      · have hok := hloop.mpr hall
        have hvalue := atoiFastLoop_value (unsignedPart ⟨cs⟩) 0 hall
        simp only [Nat.cast_zero] at hvalue
        simp only [hok, ne_eq, not_true_eq_false, if_false, true_iff]
        have hsd : isSignedDecimal ⟨cs⟩ = true := by
          simp only [isSignedDecimal, Bool.and_eq_true, Bool.not_eq_true',
            List.isEmpty_eq_false]
          exact ⟨hne, hall⟩
        have hv := decimalValue_lt (unsignedPart ⟨cs⟩) 0 hall
        have hpow : 10 ^ (unsignedPart ⟨cs⟩).length ≤ 10 ^ 18 :=
          Nat.pow_le_pow_right (by norm_num) (by simp only at hlen; omega)
        have hv2 : decimalValue (unsignedPart ⟨cs⟩) 0 < 10 ^ 18 := by omega
        simp only [hsd, true_and, signedValue]
        by_cases hneg : cs.head? = some '-'
        · simp only [hneg, if_true]
          norm_num at hv2 ⊢
          constructor <;> omega
        · simp only [hneg, if_false]
          norm_num at hv2 ⊢
          constructor <;> omega
      · have hnot : (atoiFastLoop (unsignedPart ⟨cs⟩) 0).2 ≠ none := fun h => hall (hloop.mp h)
        simp only [hnot, ne_eq, not_false_eq_true, if_true, isSignedDecimal, hall,
          Bool.and_false, Bool.false_eq_true, false_and, iff_false]
  · unfold Atoi
    simp only [intSize, hfast, and_false, if_false, true_and]
    exact ParseInt_isOk s.data

/-! ## Mixed identifiers: claims C5 and C6 -/

/-- Claim C5. For a list of strings `parseMixedParam` returns the `&`-join, in
list order, of one pair per element: `numericKey=v` when `isNumber v` holds
and `stringKey=v` otherwise. A single string is encoded like the one-element
list, and an int or a list of ints uses the numeric key for every value. The
six cases of `TestMixedParam` evaluate as the test expects. -/
theorem parseMixedParam_pairs :
    (∀ vs stringKey numericKey, parseMixedParam (.strings vs) stringKey numericKey
      = "&".intercalate (vs.map (fun v =>
          if isNumber v = true then numericKey ++ "=" ++ v else stringKey ++ "=" ++ v))) ∧
    (∀ v stringKey numericKey, parseMixedParam (.string v) stringKey numericKey
      = parseMixedParam (.strings [v]) stringKey numericKey) ∧
    (∀ (n : Int) stringKey numericKey, parseMixedParam (.int n) stringKey numericKey
      = numericKey ++ "=" ++ toString n) ∧
    (∀ (ns : List Int) stringKey numericKey, parseMixedParam (.ints ns) stringKey numericKey
      = "&".intercalate (ns.map (fun n => numericKey ++ "=" ++ toString n))) ∧
    parseMixedParam (.string "twitch") "game_name" "game_id" = "game_name=twitch" ∧
    parseMixedParam (.int 12345) "game_name" "game_id" = "game_id=12345" ∧
    parseMixedParam (.strings ["twitch", "glitch"]) "game_name" "game_id"
      = "game_name=twitch&game_name=glitch" ∧
    parseMixedParam (.ints [123, 456]) "game_name" "game_id" = "game_id=123&game_id=456" ∧
    parseMixedParam (.strings ["123", "456"]) "game_name" "game_id"
      = "game_id=123&game_id=456" ∧
    parseMixedParam (.strings ["123", "twitch"]) "game_name" "game_id"
      = "game_id=123&game_name=twitch" := by
  refine ⟨?_, ?_, ?_, ?_, by decide, by decide, by decide, by decide, by decide, by decide⟩
  · intro vs stringKey numericKey
    have hstep : ∀ (query : List String) (v : String),
        addToQuery stringKey numericKey query (.string v)
          = query ++ [if isNumber v = true then numericKey ++ "=" ++ v
              else stringKey ++ "=" ++ v] := by
      intro query v
      by_cases hv : isNumber v = true <;> simp [addToQuery, hv]
    simp only [parseMixedParam, hstep]
    rw [foldl_append_singleton]
    simp
  · intro v stringKey numericKey
    simp [parseMixedParam]
  · intro n stringKey numericKey
    simp [parseMixedParam, addToQuery, String.intercalate, String.intercalate.go]
  · intro ns stringKey numericKey
    simp only [parseMixedParam, addToQuery]
    rw [foldl_append_singleton]
    simp

/-- Counterexample to C6 as stated: "9223372036854775808" is a run of decimal
digits, yet `isNumber` rejects it, because `strconv.Atoi` reports a range
error for a value that does not fit into `int`. -/
theorem isNumber_rejects_long_decimal :
    isSignedDecimal "9223372036854775808" = true ∧
    isNumber "9223372036854775808" = false ∧
    parseMixedParam (.string "9223372036854775808") "login" "id"
      = "login=9223372036854775808" := by
  decide

/-- Claim C6, amended. `isNumber s` is true exactly when `s` is an optional
sign followed by one or more decimal digits whose value lies in the range of
`int`, from -2^63 to 2^63 - 1. Exactly those strings are routed to the numeric
key by `parseMixedParam`, and "", " ", "O" and "twitch" are not among them. -/
theorem isNumber_iff_decimal_in_int_range :
    (∀ s, isNumber s = true ↔
      (isSignedDecimal s = true ∧ -(2 ^ 63 : Int) ≤ signedValue s
        ∧ signedValue s ≤ 2 ^ 63 - 1)) ∧
    (∀ s stringKey numericKey, parseMixedParam (.string s) stringKey numericKey
      = if isSignedDecimal s = true ∧ -(2 ^ 63 : Int) ≤ signedValue s
          ∧ signedValue s ≤ 2 ^ 63 - 1
        then numericKey ++ "=" ++ s else stringKey ++ "=" ++ s) ∧
    isNumber "" = false ∧ isNumber " " = false ∧ isNumber "O" = false ∧
    isNumber "twitch" = false ∧ isNumber "1425438400038830143" = true ∧
    isNumber "-9223372036854775808" = true := by
  have hiff : ∀ s, isNumber s = true ↔
      (isSignedDecimal s = true ∧ -(2 ^ 63 : Int) ≤ signedValue s
        ∧ signedValue s ≤ 2 ^ 63 - 1) := fun s => by
    unfold isNumber
    rw [decide_eq_true_eq]
    exact Atoi_isOk s
  refine ⟨hiff, ?_, by decide, by decide, by decide, by decide, by decide, by decide⟩
  intro s stringKey numericKey
  by_cases hs : isNumber s = true
  · rw [if_pos ((hiff s).mp hs)]
    simp [parseMixedParam, addToQuery, hs, String.intercalate, String.intercalate.go]
  · rw [if_neg (fun h => hs ((hiff s).mpr h))]
    simp [parseMixedParam, addToQuery, hs, String.intercalate, String.intercalate.go]

/-! ## Lemmas on the request pipeline -/

theorem log_foldl (data : Payload) (handlers : List Nat) (s : Sys) :
    handlers.foldl (fun s handler => s.log (.handled handler data)) s
      = { client := s.client
          trace := s.trace ++ handlers.map (fun handler => Effect.handled handler data) } := by
  induction handlers generalizing s with
  | nil => simp
  | cons h rest ih =>
    simp only [List.foldl_cons, ih]
    simp [Sys.log]

theorem emit_eq (s : Sys) (event : String) (data : Payload) :
    emit s event data
      = { client := s.client, trace := s.trace ++ emitEffects s.client event data } := by
  unfold emit emitEffects
  have hclient : (s.log (.emitted event data)).client = s.client := rfl
  simp only [hclient]
  cases s.client.eventHandlers.lookup event with
  | none => simp [Sys.log]
  | some handlers =>
    simp only [log_foldl]
    simp [Sys.log]

theorem handleRateLimit_eq (s : Sys) (headers : Header) :
    handleRateLimit s headers
      = { client := s.client
          trace := s.trace ++ emitEffects s.client "ratelimitpoll"
            (.rateLimit (extractRateLimit headers)) } := by
  unfold handleRateLimit
  exact emit_eq s _ _

theorem noExchangeBetween_refl (s : Sys) : noExchangeBetween s s :=
  ⟨[], by simp, by simp⟩

theorem noExchangeBetween_trans {s1 s2 s3 : Sys} (h12 : noExchangeBetween s1 s2)
    (h23 : noExchangeBetween s2 s3) : noExchangeBetween s1 s3 := by
  obtain ⟨a, ha, hqa⟩ := h12
  obtain ⟨b, hb, hqb⟩ := h23
  refine ⟨a ++ b, by rw [hb, ha, List.append_assoc], ?_⟩
  intro e he
  rcases List.mem_append.mp he with h | h
  · exact hqa e h
  · exact hqb e h

theorem noExchangeBetween_log (s : Sys) (e : Effect) (h : isAppTokenExchange e = false) :
    noExchangeBetween s (s.log e) :=
  ⟨[e], rfl, by simpa using h⟩

theorem emitEffects_noExchange (c : Client) (event : String) (data : Payload) :
    ∀ e ∈ emitEffects c event data, isAppTokenExchange e = false := by
  intro e he
  unfold emitEffects at he
  cases hl : c.eventHandlers.lookup event with
  | none =>
    rw [hl] at he
    simp at he
    subst he
    rfl
  | some handlers =>
    rw [hl] at he
    simp only [List.mem_cons, List.mem_map] at he
    rcases he with he | ⟨h, _, he⟩
    · subst he; rfl
    · subst he; rfl

theorem noExchangeBetween_emit (s : Sys) (event : String) (data : Payload) :
    noExchangeBetween s (emit s event data) := by
  rw [emit_eq]
  exact ⟨_, rfl, emitEffects_noExchange _ _ _⟩

theorem emit_client (s : Sys) (event : String) (data : Payload) :
    (emit s event data).client = s.client := by
  rw [emit_eq]

theorem validate_state (env : Env) (s : Sys) :
    (validate env s).2 = s ∨
      ∃ accessToken, s.client.accessToken = some accessToken ∧
        (validate env s).2 = s.log (.request (validateRequest accessToken)) := by
  unfold validate
  cases htok : s.client.accessToken with
  | none => exact Or.inl rfl
  | some accessToken =>
    simp only
    cases env.newRequestErr "GET" validateURL with
    | some e => exact Or.inl rfl
    | none =>
      right
      refine ⟨accessToken, rfl, ?_⟩
      simp only [doRequest]
      cases env.roundTrip s.trace (validateRequest accessToken) with
      | error e => rfl
      | ok resp =>
        simp only
        cases resp.body.bind env.decodeMap with
        | error e => rfl
        | ok result =>
          simp only
          split
          · split <;> rfl
          · rfl

theorem validate_noExchange (env : Env) (s : Sys) :
    noExchangeBetween s (validate env s).2 ∧ (validate env s).2.client = s.client := by
  rcases validate_state env s with h | ⟨accessToken, _, h⟩
  · rw [h]
    exact ⟨noExchangeBetween_refl s, rfl⟩
  · rw [h]
    exact ⟨noExchangeBetween_log s _ rfl, rfl⟩

theorem refreshRequest_noExchange (env : Env) (c : Client) (refreshToken : String) :
    isAppTokenExchange (.request (refreshRequest env c refreshToken)) = false := by
  simp [isAppTokenExchange, refreshRequest, grantType, List.lookup]

theorem refresh_noExchange (env : Env) (s : Sys) :
    noExchangeBetween s (refresh env s).2 ∧
      (s.client.accessToken.isSome = true →
        (refresh env s).2.client.accessToken.isSome = true) := by
  have hv := validate_noExchange env s
  unfold refresh
  rcases hval : validate env s with ⟨r, sv⟩
  rw [hval] at hv
  simp only at hv
  obtain ⟨hq, hc⟩ := hv
  have hkeep : s.client.accessToken.isSome = true → sv.client.accessToken.isSome = true := by
    intro h
    rw [hc]
    exact h
  cases r with
  | error e => exact ⟨hq, hkeep⟩
  | ok valid =>
    cases valid with
    | true => exact ⟨hq, hkeep⟩
    | false =>
      simp only
      cases hrt : sv.client.refreshToken with
      | none => exact ⟨hq, hkeep⟩
      | some refreshToken =>
        simp only
        cases env.newRequestErr "POST" tokenURL with
        | some e => exact ⟨hq, hkeep⟩
        | none =>
          simp only [doRequest]
          have hq2 : noExchangeBetween s (sv.log (.request (refreshRequest env sv.client refreshToken))) :=
            noExchangeBetween_trans hq
              (noExchangeBetween_log sv _ (refreshRequest_noExchange env sv.client refreshToken))
          cases env.roundTrip sv.trace (refreshRequest env sv.client refreshToken) with
          | error e => exact ⟨hq2, hkeep⟩
          | ok resp =>
            simp only
            cases resp.body.bind env.decodeAuthEvent with
            | error e => exact ⟨hq2, hkeep⟩
            | ok result =>
              simp only
              by_cases hA : result.AccessToken = "" <;> by_cases hR : result.RefreshToken = "" <;>
                simp only [hA, hR, ne_eq, not_true_eq_false, not_false_eq_true, if_true, if_false,
                  emit_eq] <;>
                refine ⟨noExchangeBetween_trans hq2 ⟨_, rfl, emitEffects_noExchange _ _ _⟩, ?_⟩ <;>
                intro h <;>
                have hsv := hkeep h <;>
                simp_all [Sys.log, Sys.setAccessToken, Sys.setRefreshToken,
                  Sys.countRefreshAttempt]

theorem handleResponse_noExchange (env : Env) (self : Sys → Outcome × Sys)
    (hself : ∀ s, s.client.accessToken.isSome = true → noExchangeBetween s (self s).2)
    (s : Sys) (resp : Response) (hs : s.client.accessToken.isSome = true) :
    noExchangeBetween s (handleResponse env self s resp).2 := by
  unfold handleResponse
  have hpoll : noExchangeBetween s (handleRateLimit s resp.Header) :=
    noExchangeBetween_emit s _ _
  have hpollc : (handleRateLimit s resp.Header).client = s.client := emit_client s _ _
  simp only
  by_cases h401 : resp.StatusCode = 401
  · simp only [h401, if_true]
    have hr := refresh_noExchange env (handleRateLimit s resp.Header)
    rcases href : refresh env (handleRateLimit s resp.Header) with ⟨r, s3⟩
    rw [href] at hr
    simp only at hr
    have hs3 : s3.client.accessToken.isSome = true := hr.2 (by rw [hpollc]; exact hs)
    cases r with
    | some e => exact noExchangeBetween_trans hpoll hr.1
    | none =>
      exact noExchangeBetween_trans hpoll (noExchangeBetween_trans hr.1 (hself s3 hs3))
  · simp only [h401, if_false]
    by_cases h429 : resp.StatusCode = 429
    · simp only [h429, if_true]
      have hemit := noExchangeBetween_emit (handleRateLimit s resp.Header) "ratelimit"
        (.rateLimit (extractRateLimit resp.Header))
      have hemitc := emit_client (handleRateLimit s resp.Header) "ratelimit"
        (.rateLimit (extractRateLimit resp.Header))
      have h2 := noExchangeBetween_trans hpoll hemit
      split
      · exact h2
      · split
        · refine noExchangeBetween_trans (noExchangeBetween_trans h2
            (noExchangeBetween_log _ (.slept _) rfl)) (hself _ ?_)
          simp only [Sys.log, hemitc, hpollc]
          exact hs
        · refine noExchangeBetween_trans h2 (hself _ ?_)
          rw [hemitc, hpollc]
          exact hs
    · simp only [h429, if_false]
      exact hpoll

theorem ensureAccessToken_some (env : Env) (s : Sys)
    (hs : s.client.accessToken.isSome = true) : ensureAccessToken env s = (none, s) := by
  unfold ensureAccessToken
  cases h : s.client.accessToken with
  | none => rw [h] at hs; cases hs
  | some t => rfl

theorem getRequest_noExchange (c : Client) (url accessToken : String) :
    isAppTokenExchange (.request (getRequest c url accessToken)) = false := by
  simp [isAppTokenExchange, getRequest]

theorem getBody_noExchange (env : Env) (self : Sys → Outcome × Sys)
    (hself : ∀ s, s.client.accessToken.isSome = true → noExchangeBetween s (self s).2)
    (s : Sys) (endpoint apiType : String) (hs : s.client.accessToken.isSome = true) :
    noExchangeBetween s (getBody env self s endpoint apiType).2 := by
  unfold getBody
  rw [ensureAccessToken_some env s hs]
  simp only
  cases env.newRequestErr "GET" (selectBaseURL s.client apiType ++ endpoint) with
  | some e => exact noExchangeBetween_refl s
  | none =>
    simp only
    cases htok : s.client.accessToken with
    | none => exact noExchangeBetween_refl s
    | some accessToken =>
      simp only [doRequest]
      have hlog := noExchangeBetween_log s _
        (getRequest_noExchange s.client (selectBaseURL s.client apiType ++ endpoint) accessToken)
      cases env.roundTrip s.trace
          (getRequest s.client (selectBaseURL s.client apiType ++ endpoint) accessToken) with
      | error e => exact hlog
      | ok resp =>
        exact noExchangeBetween_trans hlog
          (handleResponse_noExchange env self hself _ resp (by simp only [Sys.log]; exact hs))

theorem get_noExchange (env : Env) (fuel : Nat) (s : Sys) (endpoint apiType : String)
    (hs : s.client.accessToken.isSome = true) :
    noExchangeBetween s (get env fuel s endpoint apiType).2 := by
  induction fuel generalizing s with
  | zero =>
    unfold get
    exact getBody_noExchange env _ (fun s' _ => noExchangeBetween_refl s') s endpoint apiType hs
  | succ fuel ih =>
    unfold get
    exact getBody_noExchange env _ (fun s' hs' => ih s' hs') s endpoint apiType hs

theorem getAppAccessToken_yields (env : Env) (s : Sys) (token : String)
    (h : exchangeYields env s token) :
    getAppAccessToken env s
      = (.ok (some token), s.log (.request (appTokenRequest s.client))) := by
  obtain ⟨hreq, resp, body, result, hresp, hbody, hjson, htoken⟩ := h
  simp [getAppAccessToken, hreq, doRequest, hresp, hbody, hjson, htoken]

theorem getAppAccessToken_fails (env : Env) (s : Sys)
    (h : ¬ ∃ token, exchangeYields env s token) :
    ∃ e, getAppAccessToken env s = (.error e, s) ∨
      getAppAccessToken env s = (.error e, s.log (.request (appTokenRequest s.client))) := by
  unfold getAppAccessToken
  cases hreq : env.newRequestErr "POST" tokenURL with
  | some e => exact ⟨_, Or.inl rfl⟩
  | none =>
    simp only [doRequest]
    cases hresp : env.roundTrip s.trace (appTokenRequest s.client) with
    | error e => exact ⟨_, Or.inr rfl⟩
    | ok resp =>
      simp only
      cases hbody : resp.body with
      | error e => exact ⟨_, Or.inr rfl⟩
      | ok body =>
        simp only
        cases hjson : env.unmarshalMap body with
        | error e => exact ⟨_, Or.inr rfl⟩
        | ok result =>
          simp only
          cases htoken : result.lookup "access_token" with
          | none => exact ⟨_, Or.inr rfl⟩
          | some member =>
            cases member with
            | other => exact ⟨_, Or.inr rfl⟩
            | string token =>
              exact absurd ⟨token, hreq, resp, body, result, hresp, hbody, hjson, htoken⟩ h

theorem getBody_without_token (env : Env) (self : Sys → Outcome × Sys)
    (hself : ∀ s, s.client.accessToken.isSome = true → noExchangeBetween s (self s).2)
    (s : Sys) (endpoint apiType : String) (hnone : s.client.accessToken = none) :
    ((¬ ∃ token, exchangeYields env s token) →
      ∃ e, getBody env self s endpoint apiType = (.error e, s) ∨
        getBody env self s endpoint apiType
          = (.error e, s.log (.request (appTokenRequest s.client)))) ∧
    (∀ token, exchangeYields env s token →
      (∀ e, env.newRequestErr "GET" (selectBaseURL s.client apiType ++ endpoint) = some e →
        getBody env self s endpoint apiType
          = (.error (.library e),
             (s.log (.request (appTokenRequest s.client))).setAccessToken token)) ∧
      (env.newRequestErr "GET" (selectBaseURL s.client apiType ++ endpoint) = none →
        ∃ rest, (getBody env self s endpoint apiType).2.trace
            = s.trace ++ [.request (appTokenRequest s.client),
                .request (getRequest s.client
                  (selectBaseURL s.client apiType ++ endpoint) token)] ++ rest ∧
          ∀ e ∈ rest, isAppTokenExchange e = false)) := by
  constructor
  · intro hfail
    obtain ⟨e, he⟩ := getAppAccessToken_fails env s hfail
    refine ⟨e, ?_⟩
    rcases he with he | he
    · left
      simp [getBody, ensureAccessToken, hnone, he]
    · right
      simp [getBody, ensureAccessToken, hnone, he]
  · intro token hyield
    have hens : ensureAccessToken env s
        = (none, (s.log (.request (appTokenRequest s.client))).setAccessToken token) := by
      simp [ensureAccessToken, hnone, getAppAccessToken_yields env s token hyield]
    constructor
    · intro e he
      unfold getBody
      rw [hens]
      simp only [Sys.setAccessToken, Sys.log, selectBaseURL]
      simp only [selectBaseURL] at he
      rw [he]
    · intro hok
      unfold getBody
      rw [hens]
      simp only [Sys.setAccessToken, Sys.log, selectBaseURL, doRequest, getRequest]
      simp only [selectBaseURL] at hok
      rw [hok]
      simp only
      cases env.roundTrip (s.trace ++ [Effect.request (appTokenRequest s.client)])
          { method := "GET"
            url := (if apiType = "helix" then s.client.baseURL
              else if apiType = "ingest" then s.client.ingestBaseURL
              else s.client.baseURL) ++ endpoint
            header := Header.Set (Header.Set [] "Client-ID" s.client.clientID) "Authorization"
              ("Bearer " ++ token)
            body := none } with
      | error e => exact ⟨[], by simp, by simp⟩
      | ok resp =>
        simp only
        obtain ⟨added, hadded, hquiet⟩ := handleResponse_noExchange env self hself
          { client := { s.client with accessToken := some token }
            trace := s.trace ++ [Effect.request (appTokenRequest s.client)] ++
              [Effect.request
                { method := "GET"
                  url := (if apiType = "helix" then s.client.baseURL
                    else if apiType = "ingest" then s.client.ingestBaseURL
                    else s.client.baseURL) ++ endpoint
                  header := Header.Set (Header.Set [] "Client-ID" s.client.clientID)
                    "Authorization" ("Bearer " ++ token)
                  body := none }] } resp rfl
        refine ⟨added, ?_, hquiet⟩
        rw [hadded]
        simp

theorem get_eq_getBody (env : Env) (fuel : Nat) (s : Sys) (endpoint apiType : String) :
    ∃ self : Sys → Outcome × Sys,
      (∀ s, s.client.accessToken.isSome = true → noExchangeBetween s (self s).2) ∧
      get env fuel s endpoint apiType = getBody env self s endpoint apiType := by
  cases fuel with
  | zero => exact ⟨_, fun s' _ => noExchangeBetween_refl s', rfl⟩
  | succ fuel => exact ⟨_, fun s' hs' => get_noExchange env fuel s' endpoint apiType hs', rfl⟩

theorem handleResponse_final (env : Env) (self : Sys → Outcome × Sys) (s : Sys)
    (resp : Response) (h401 : resp.StatusCode ≠ 401) (h429 : resp.StatusCode ≠ 429) :
    handleResponse env self s resp = (readBody resp, handleRateLimit s resp.Header) := by
  simp [handleResponse, h401, h429]

theorem getBody_final (env : Env) (self : Sys → Outcome × Sys) (s : Sys)
    (endpoint apiType accessToken : String) (resp : Response)
    (htok : s.client.accessToken = some accessToken)
    (hurl : env.newRequestErr "GET" (selectBaseURL s.client apiType ++ endpoint) = none)
    (hresp : env.roundTrip s.trace
      (getRequest s.client (selectBaseURL s.client apiType ++ endpoint) accessToken) = .ok resp)
    (h401 : resp.StatusCode ≠ 401) (h429 : resp.StatusCode ≠ 429) :
    getBody env self s endpoint apiType
      = (readBody resp,
         handleRateLimit (s.log (.request (getRequest s.client
           (selectBaseURL s.client apiType ++ endpoint) accessToken))) resp.Header) := by
  unfold getBody
  rw [ensureAccessToken_some env s (by rw [htok]; rfl)]
  simp only [hurl, htok, doRequest, hresp]
  exact handleResponse_final env self _ resp h401 h429

theorem get_final (env : Env) (fuel : Nat) (s : Sys)
    (endpoint apiType accessToken : String) (resp : Response)
    (htok : s.client.accessToken = some accessToken)
    (hurl : env.newRequestErr "GET" (selectBaseURL s.client apiType ++ endpoint) = none)
    (hresp : env.roundTrip s.trace
      (getRequest s.client (selectBaseURL s.client apiType ++ endpoint) accessToken) = .ok resp)
    (h401 : resp.StatusCode ≠ 401) (h429 : resp.StatusCode ≠ 429) :
    get env fuel s endpoint apiType
      = (readBody resp,
         handleRateLimit (s.log (.request (getRequest s.client
           (selectBaseURL s.client apiType ++ endpoint) accessToken))) resp.Header) := by
  cases fuel <;>
    exact getBody_final env _ s endpoint apiType accessToken resp htok hurl hresp h401 h429

theorem validate_reports_invalid (env : Env) (s : Sys) (accessToken : String)
    (vresp : Response) (vmap : List (String × JsonMember))
    (htok : s.client.accessToken = some accessToken)
    (hvurl : env.newRequestErr "GET" validateURL = none)
    (hv : env.roundTrip s.trace (validateRequest accessToken) = .ok vresp)
    (hvdec : vresp.body.bind env.decodeMap = .ok vmap)
    (hvmsg : vmap.lookup "message" ≠ some (.string "missing authorization token"))
    (hvstatus : vresp.StatusCode ≠ 200) :
    validate env s = (.ok false, s.log (.request (validateRequest accessToken))) := by
  unfold validate
  simp only [htok, hvurl, doRequest, hv, hvdec]
  cases hm : vmap.lookup "message" with
  | none => simp [hvstatus]
  | some member =>
    cases member with
    | other => simp [hvstatus]
    | string message =>
      have hne : message ≠ "missing authorization token" := by
        intro h
        rw [hm, h] at hvmsg
        exact hvmsg rfl
      simp [hne, hvstatus]

theorem refresh_exchanges (env : Env) (s : Sys) (accessToken refreshToken : String)
    (vresp xresp : Response) (vmap : List (String × JsonMember)) (ev : AuthEvent)
    (htok : s.client.accessToken = some accessToken)
    (hrt : s.client.refreshToken = some refreshToken)
    (hvurl : env.newRequestErr "GET" validateURL = none)
    (hv : env.roundTrip s.trace (validateRequest accessToken) = .ok vresp)
    (hvdec : vresp.body.bind env.decodeMap = .ok vmap)
    (hvmsg : vmap.lookup "message" ≠ some (.string "missing authorization token"))
    (hvstatus : vresp.StatusCode ≠ 200)
    (hxurl : env.newRequestErr "POST" tokenURL = none)
    (hx : env.roundTrip (s.trace ++ [.request (validateRequest accessToken)])
      (refreshRequest env s.client refreshToken) = .ok xresp)
    (hxdec : xresp.body.bind env.decodeAuthEvent = .ok ev) :
    refresh env s
      = (none,
         { client :=
             { s.client with
               accessToken := if ev.AccessToken ≠ "" then some ev.AccessToken
                 else s.client.accessToken
               refreshToken := if ev.RefreshToken ≠ "" then some ev.RefreshToken
                 else s.client.refreshToken
               refreshAttempts := if ev.AccessToken = "" then s.client.refreshAttempts + 1
                 else s.client.refreshAttempts }
           trace := s.trace ++ [.request (validateRequest accessToken),
               .request (refreshRequest env s.client refreshToken)]
             ++ emitEffects s.client "refresh" (.auth ev) }) := by
  unfold refresh
  rw [validate_reports_invalid env s accessToken vresp vmap htok hvurl hv hvdec hvmsg hvstatus]
  simp only [Sys.log, hrt, hxurl, doRequest, hx, hxdec]
  by_cases hA : ev.AccessToken = "" <;> by_cases hR : ev.RefreshToken = "" <;>
    simp [hA, hR, emit_eq, Sys.setAccessToken, Sys.setRefreshToken, Sys.countRefreshAttempt,
      emitEffects, htok, hrt]

/-! ## The request pipeline: claims C7 to C10 -/

/-- Counterexample to C7 as stated. The sample client holds no access token,
the client-credentials exchange yields "app-token", and yet `get` on the
endpoint "/users\n" ends with the error of `http.NewRequestWithContext`
without a resource request: the trace holds the exchange only. -/
theorem get_skips_request_when_url_invalid :
    (sampleSys none none false).client.accessToken = none ∧
    exchangeYields sampleEnv (sampleSys none none false) "app-token" ∧
    get sampleEnv 1 (sampleSys none none false) "/users\n" "helix"
      = (.error (.library "net/url: invalid control character in URL"),
         { client := sampleClient (some "app-token") none false
           trace := [.request (appTokenRequest (sampleClient none none false))] }) := by
  refine ⟨rfl, ⟨rfl, _, _, _, rfl, rfl, rfl, rfl⟩, by decide⟩

/-- Claim C7, amended. Let the client hold no access token. If the
client-credentials exchange yields no token (the request cannot be built or
sent, the body cannot be read or is not a JSON object, or it has no string
member "access_token"), `get` returns an error and the trace gains at most
the exchange request, so no resource request. If the exchange yields a token
and the resource request cannot be built, `get` returns that error after the
exchange alone. If the exchange yields a token and the resource request can
be built, the trace of the whole call, for every bound on nested calls,
starts with the exchange followed by the resource request carrying the
`Client-ID` header and `Authorization: Bearer` with that token, and none of
the later effects is a client-credentials exchange. -/
theorem get_without_access_token (env : Env) (s : Sys) (endpoint apiType : String)
    (fuel : Nat) (hnone : s.client.accessToken = none) :
    ((¬ ∃ token, exchangeYields env s token) →
      ∃ e, get env fuel s endpoint apiType = (.error e, s) ∨
        get env fuel s endpoint apiType
          = (.error e, s.log (.request (appTokenRequest s.client)))) ∧
    (∀ token, exchangeYields env s token →
      (∀ e, env.newRequestErr "GET" (selectBaseURL s.client apiType ++ endpoint) = some e →
        get env fuel s endpoint apiType
          = (.error (.library e),
             (s.log (.request (appTokenRequest s.client))).setAccessToken token)) ∧
      (env.newRequestErr "GET" (selectBaseURL s.client apiType ++ endpoint) = none →
        ∃ rest, (get env fuel s endpoint apiType).2.trace
            = s.trace ++ [.request (appTokenRequest s.client),
                .request (getRequest s.client
                  (selectBaseURL s.client apiType ++ endpoint) token)] ++ rest ∧
          (getRequest s.client (selectBaseURL s.client apiType ++ endpoint) token).header
            = [("Client-ID", s.client.clientID), ("Authorization", "Bearer " ++ token)] ∧
          ∀ e ∈ rest, isAppTokenExchange e = false)) := by
  obtain ⟨self, hself, hget⟩ := get_eq_getBody env fuel s endpoint apiType
  rw [hget]
  have h := getBody_without_token env self hself s endpoint apiType hnone
  refine ⟨h.1, fun token hyield => ⟨(h.2 token hyield).1, fun hok => ?_⟩⟩
  obtain ⟨rest, htrace, hquiet⟩ := (h.2 token hyield).2 hok
  exact ⟨rest, htrace, by simp [getRequest, Header.Set], hquiet⟩

/-- Witness for C7: the sample client without token on "/users" sends the
exchange and then the resource request with the token the exchange yielded;
with a wrong client secret the exchange yields nothing and `get` fails after
the exchange request. -/
theorem get_without_access_token_witness :
    (sampleSys none none false).client.accessToken = none ∧
    (∃ e, get sampleEnv 1 wrongSecretSys "/users" "helix" = (.error e, wrongSecretSys) ∨
      get sampleEnv 1 wrongSecretSys "/users" "helix"
        = (.error e, wrongSecretSys.log (.request (appTokenRequest wrongSecretSys.client)))) ∧
    (∃ rest, (get sampleEnv 1 (sampleSys none none false) "/users" "helix").2.trace
        = (sampleSys none none false).trace
          ++ [.request (appTokenRequest (sampleSys none none false).client),
            .request (getRequest (sampleSys none none false).client
              (selectBaseURL (sampleSys none none false).client "helix" ++ "/users")
              "app-token")] ++ rest ∧
        (getRequest (sampleSys none none false).client
            (selectBaseURL (sampleSys none none false).client "helix" ++ "/users")
            "app-token").header
          = [("Client-ID", (sampleSys none none false).client.clientID),
            ("Authorization", "Bearer " ++ "app-token")] ∧
        ∀ e ∈ rest, isAppTokenExchange e = false) :=
  ⟨rfl,
   (get_without_access_token sampleEnv wrongSecretSys "/users" "helix" 1 rfl).1
      (by
        rintro ⟨token, _, resp, body, result, hresp, hbody, hjson, htoken⟩
        have hr : resp = plainResponse 403 "rejected" := (Except.ok.inj hresp).symm
        subst hr
        have hb : body = "rejected" := (Except.ok.inj hbody).symm
        subst hb
        have hres : result = [("status", .other), ("message", .string "Invalid refresh token")] :=
          (Except.ok.inj hjson).symm
        subst hres
        simp [List.lookup] at htoken),
   ((get_without_access_token sampleEnv (sampleSys none none false) "/users" "helix" 1 rfl).2
      "app-token" ⟨rfl, _, _, _, rfl, rfl, rfl, rfl⟩).2 rfl⟩

/-- Claim C8. When the resource request of `get` is answered with 401, the
validation of the old token reports it as not valid, the exchange of the
refresh token yields an `AuthEvent` with a non-empty access token, and the
request sent again is answered with a status other than 401 and 429, then
`get` (with at least one nested call allowed) returns what reading the body
of that second answer gives. The trace shows the effects in order: the first
request, its poll event, the validation request, the refresh exchange, the
"refresh" event, one retried request and its poll event, and nothing else;
the retried request is the first one with the `Authorization` header set to
the new token. -/
theorem get_retries_once_after_refresh (env : Env) (s : Sys) (endpoint apiType : String)
    (fuel : Nat) (old rt : String) (resp1 vresp xresp resp3 : Response)
    (vmap : List (String × JsonMember)) (ev : AuthEvent) (first retried : Request)
    (t1 t2 t3 : List Effect)
    (hfirst : first = getRequest s.client (selectBaseURL s.client apiType ++ endpoint) old)
    (hretried : retried
      = getRequest s.client (selectBaseURL s.client apiType ++ endpoint) ev.AccessToken)
    (ht1 : t1 = s.trace ++ [.request first]
      ++ emitEffects s.client "ratelimitpoll" (.rateLimit (extractRateLimit resp1.Header)))
    (ht2 : t2 = t1 ++ [.request (validateRequest old)])
    (ht3 : t3 = t2 ++ [.request (refreshRequest env s.client rt)]
      ++ emitEffects s.client "refresh" (.auth ev))
    (htok : s.client.accessToken = some old)
    (hrt : s.client.refreshToken = some rt)
    (hurl : env.newRequestErr "GET" (selectBaseURL s.client apiType ++ endpoint) = none)
    (h1 : env.roundTrip s.trace first = .ok resp1)
    (h401 : resp1.StatusCode = 401)
    (hvurl : env.newRequestErr "GET" validateURL = none)
    (hv : env.roundTrip t1 (validateRequest old) = .ok vresp)
    (hvdec : vresp.body.bind env.decodeMap = .ok vmap)
    (hvmsg : vmap.lookup "message" ≠ some (.string "missing authorization token"))
    (hvstatus : vresp.StatusCode ≠ 200)
    (hxurl : env.newRequestErr "POST" tokenURL = none)
    (hx : env.roundTrip t2 (refreshRequest env s.client rt) = .ok xresp)
    (hxdec : xresp.body.bind env.decodeAuthEvent = .ok ev)
    (hnew : ev.AccessToken ≠ "")
    (h3 : env.roundTrip t3 retried = .ok resp3)
    (hstatus : resp3.StatusCode ≠ 401 ∧ resp3.StatusCode ≠ 429)
    (hfuel : 1 ≤ fuel) :
    get env fuel s endpoint apiType
      = (readBody resp3,
         { client :=
             { s.client with
               accessToken := some ev.AccessToken
               refreshToken := if ev.RefreshToken ≠ "" then some ev.RefreshToken
                 else s.client.refreshToken }
           trace := t3 ++ [.request retried]
             ++ emitEffects s.client "ratelimitpoll"
                  (.rateLimit (extractRateLimit resp3.Header)) }) ∧
    retried = { first with
      header := Header.Set first.header "Authorization" ("Bearer " ++ ev.AccessToken) } := by
  obtain ⟨k, rfl⟩ : ∃ k, fuel = k + 1 := ⟨fuel - 1, by omega⟩
  subst hfirst hretried ht1 ht2 ht3
  constructor
  · have hrefresh := refresh_exchanges env
      { client := s.client
        trace := s.trace ++ [.request (getRequest s.client
            (selectBaseURL s.client apiType ++ endpoint) old)]
          ++ emitEffects s.client "ratelimitpoll"
            (.rateLimit (extractRateLimit resp1.Header)) }
      old rt vresp xresp vmap ev htok hrt hvurl hv hvdec hvmsg hvstatus hxurl hx hxdec
    simp only [hnew, ne_eq, not_false_eq_true, if_true, if_false] at hrefresh
    unfold get getBody
    rw [ensureAccessToken_some env s (by rw [htok]; rfl)]
    simp only [hurl, htok, doRequest, h1, handleResponse, h401, if_true, handleRateLimit_eq,
      Sys.log]
    rw [hrefresh]
    simp only
    have hfin := get_final env k
      { client :=
          { s.client with
            accessToken := some ev.AccessToken
            refreshToken := if ¬ev.RefreshToken = "" then some ev.RefreshToken
              else s.client.refreshToken }
        trace := s.trace ++ [Effect.request (getRequest s.client
              (selectBaseURL s.client apiType ++ endpoint) old)]
            ++ emitEffects s.client "ratelimitpoll"
              (Payload.rateLimit (extractRateLimit resp1.Header))
            ++ [Effect.request (validateRequest old),
              Effect.request (refreshRequest env s.client rt)]
            ++ emitEffects s.client "refresh" (Payload.auth ev) }
      endpoint apiType ev.AccessToken resp3 rfl hurl
      (by
        have happ : s.trace ++ [Effect.request (getRequest s.client
              (selectBaseURL s.client apiType ++ endpoint) old)]
            ++ emitEffects s.client "ratelimitpoll"
              (Payload.rateLimit (extractRateLimit resp1.Header))
            ++ [Effect.request (validateRequest old),
              Effect.request (refreshRequest env s.client rt)]
            ++ emitEffects s.client "refresh" (Payload.auth ev)
            = s.trace ++ [Effect.request (getRequest s.client
              (selectBaseURL s.client apiType ++ endpoint) old)]
            ++ emitEffects s.client "ratelimitpoll"
              (Payload.rateLimit (extractRateLimit resp1.Header))
            ++ [Effect.request (validateRequest old)]
            ++ [Effect.request (refreshRequest env s.client rt)]
            ++ emitEffects s.client "refresh" (Payload.auth ev) := by
          simp [List.append_assoc]
        show env.roundTrip _ (getRequest s.client
          (selectBaseURL s.client apiType ++ endpoint) ev.AccessToken) = _
        rw [happ]
        exact h3) hstatus.1 hstatus.2
    rw [hfin]
    simp [handleRateLimit_eq, Sys.log, emitEffects, getRequest, selectBaseURL]
  · simp [getRequest, Header.Set]

/-- Witness for C8: the sample client with the token "expired" and the
refresh token "good-refresh" gets 401, refreshes to "fresh-token", retries
once and returns the body "data". -/
theorem get_retries_once_after_refresh_witness :
    (sampleSys (some "expired") (some "good-refresh") false).client.accessToken
      = some "expired" ∧
    (get sampleEnv 1 (sampleSys (some "expired") (some "good-refresh") false)
      "/users" "helix").1 = .ok "data" ∧
    (get sampleEnv 1 (sampleSys (some "expired") (some "good-refresh") false)
      "/users" "helix").2.client.accessToken = some "fresh-token" :=
  have h := (get_retries_once_after_refresh sampleEnv
    (sampleSys (some "expired") (some "good-refresh") false) "/users" "helix" 1
    "expired" "good-refresh"
    (plainResponse 401 "unauthorized") (plainResponse 401 "invalid")
    (plainResponse 200 "fresh") (plainResponse 200 "data")
    [("status", .other), ("message", .string "invalid access token")]
    { AccessToken := "fresh-token", RefreshToken := "next-refresh",
      TokenType := some "bearer", ExpiresIn := 14400, Scope := [] }
    _ _ _ _ _ rfl rfl rfl rfl rfl rfl rfl rfl rfl
    (by decide) rfl rfl rfl (by decide) (by decide) rfl rfl rfl (by decide) rfl
    (by decide) (by decide)).1
  ⟨rfl, congrArg Prod.fst h, congrArg (fun r => r.2.client.accessToken) h⟩

theorem getBody_rejected_refresh_step (self : Sys → Outcome × Sys) (n : Int)
    (t : List Effect) :
    getBody sampleEnv self
      { client := stuckClient n, trace := t } "/users" "helix"
    = self
      { client := stuckClient (n + 1)
        trace := t ++ [.request (getRequest (sampleClient (some "expired")
            (some "bad-refresh") false) "https://api.twitch.tv/helix/users" "expired")]
          ++ [.emitted "ratelimitpoll" (.rateLimit { Limit := 0, Remaining := 0, Reset := 0 })]
          ++ [.request (validateRequest "expired")]
          ++ [.request (refreshRequest sampleEnv (sampleClient (some "expired")
            (some "bad-refresh") false) "bad-refresh")]
          ++ [.emitted "refresh" (.auth zeroAuthEvent)]
          ++ [.handled 1 (.auth zeroAuthEvent)] } := by
  rfl

theorem get_rejected_refresh_unfinished (fuel : Nat) (n : Int) (t : List Effect) :
    (get sampleEnv fuel
      { client := stuckClient n, trace := t } "/users" "helix").1 = .unfinished := by
  induction fuel generalizing n t with
  | zero =>
    unfold get
    rw [getBody_rejected_refresh_step]
  | succ fuel ih =>
    unfold get
    rw [getBody_rejected_refresh_step]
    exact ih _ _

/-- Claim C9 at its failing input. The sample client holds the access token
"expired" and the refresh token "bad-refresh"; the resource service answers
401, the validation reports the token as not valid and the identity service
rejects the refresh grant with status 400 and a body without access token.
`refresh` then returns no error, and `get` sends the resource request again:
with one nested call allowed the trace holds the resource request twice and
two failed refresh attempts are counted, and for no bound on nested calls
does the call return an error, or anything at all. -/
theorem get_reissues_after_rejected_refresh :
    (refresh sampleEnv
      (handleRateLimit
        ((sampleSys (some "expired") (some "bad-refresh") false).log
          (.request (getRequest (sampleClient (some "expired") (some "bad-refresh") false)
            "https://api.twitch.tv/helix/users" "expired")))
        (plainResponse 401 "unauthorized").Header)).1 = none ∧
    (get sampleEnv 1 (sampleSys (some "expired") (some "bad-refresh") false)
      "/users" "helix").1 = .unfinished ∧
    (get sampleEnv 1 (sampleSys (some "expired") (some "bad-refresh") false)
      "/users" "helix").2.trace.count
        (.request (getRequest (sampleClient (some "expired") (some "bad-refresh") false)
          "https://api.twitch.tv/helix/users" "expired")) = 2 ∧
    (get sampleEnv 1 (sampleSys (some "expired") (some "bad-refresh") false)
      "/users" "helix").2.client.refreshAttempts = 2 ∧
    (∀ fuel, (get sampleEnv fuel (sampleSys (some "expired") (some "bad-refresh") false)
      "/users" "helix").1 = .unfinished) := by
  refine ⟨by decide, by decide, by decide, by decide, fun fuel => ?_⟩
  exact get_rejected_refresh_unfinished fuel 0 []

/-- Claim C10. When the response to the resource request of `get` or of
`update` has status 429 and `throwRateLimitErrors` is set, the call ends at
once, for every bound on nested calls: after the request and the
"ratelimitpoll" emission the trace holds exactly one "ratelimit" emission
with the snapshot of that response, with the calls of its handlers, and
nothing else (no sleep, no further request); the result is the
`TwitchApiRateLimitError` with the same snapshot and the client is
unchanged. For `get` the state `s1` is the one after the access token was
ensured. -/
theorem rate_limit_error_is_immediate (env : Env) :
    (∀ (s s1 : Sys) (endpoint apiType accessToken : String) (resp : Response) (fuel : Nat),
      ensureAccessToken env s = (none, s1) →
      s1.client.accessToken = some accessToken →
      env.newRequestErr "GET" (selectBaseURL s1.client apiType ++ endpoint) = none →
      env.roundTrip s1.trace
        (getRequest s1.client (selectBaseURL s1.client apiType ++ endpoint) accessToken)
        = .ok resp →
      resp.StatusCode = 429 →
      s1.client.throwRateLimitErrors = true →
      get env fuel s endpoint apiType
        = (.error (.rateLimit (extractRateLimit resp.Header)),
           { client := s1.client
             trace := s1.trace
               ++ [.request (getRequest s1.client
                    (selectBaseURL s1.client apiType ++ endpoint) accessToken)]
               ++ emitEffects s1.client "ratelimitpoll" (.rateLimit (extractRateLimit resp.Header))
               ++ emitEffects s1.client "ratelimit"
                    (.rateLimit (extractRateLimit resp.Header)) })) ∧
    (∀ (s : Sys) (endpoint method accessToken : String) (body : Option String)
        (resp : Response) (fuel : Nat),
      endpoint.data.head? = some '/' →
      s.client.accessToken = some accessToken →
      env.newRequestErr method.toUpper (s.client.baseURL ++ endpoint) = none →
      env.roundTrip s.trace
        (updateRequest s.client method (s.client.baseURL ++ endpoint) accessToken body)
        = .ok resp →
      resp.StatusCode = 429 →
      s.client.throwRateLimitErrors = true →
      update env fuel s endpoint (body.map Except.ok) method
        = (.error (.rateLimit (extractRateLimit resp.Header)),
           { client := s.client
             trace := s.trace
               ++ [.request (updateRequest s.client method
                    (s.client.baseURL ++ endpoint) accessToken body)]
               ++ emitEffects s.client "ratelimitpoll" (.rateLimit (extractRateLimit resp.Header))
               ++ emitEffects s.client "ratelimit"
                    (.rateLimit (extractRateLimit resp.Header)) })) := by
  constructor
  · intro s s1 endpoint apiType accessToken resp fuel hens htok hreq hresp h429 hthrow
    cases fuel <;>
      simp [get, getBody, handleResponse, hens, htok, hreq, doRequest, hresp, h429, hthrow,
        handleRateLimit_eq, emit_eq, Sys.log]
  · intro s endpoint method accessToken body resp fuel hslash htok hreq hresp h429 hthrow
    cases body <;> cases fuel <;>
      simp [update, updateBody, handleResponse, hslash, htok, hreq, doRequest, hresp, h429,
        hthrow, handleRateLimit_eq, emit_eq, Sys.log]

/-- Witness for C10: the sample services answer the bearer token "throttled"
with 429; with `throwRateLimitErrors` set, `get` and `post` fail with the
snapshot of the response headers after one "ratelimit" emission. -/
theorem rate_limit_error_is_immediate_witness :
    get sampleEnv 5 (sampleSys (some "throttled") none true) "/users" "helix"
      = (.error (.rateLimit { Limit := 800, Remaining := 0, Reset := 1234567890 }),
         { client := sampleClient (some "throttled") none true
           trace := [.request (getRequest (sampleClient (some "throttled") none true)
               "https://api.twitch.tv/helix/users" "throttled"),
             .emitted "ratelimitpoll"
               (.rateLimit { Limit := 800, Remaining := 0, Reset := 1234567890 }),
             .emitted "ratelimit"
               (.rateLimit { Limit := 800, Remaining := 0, Reset := 1234567890 }),
             .handled 2
               (.rateLimit { Limit := 800, Remaining := 0, Reset := 1234567890 })] }) ∧
    (update sampleEnv 5 (sampleSys (some "throttled") none true) "/users" none "post").1
      = .error (.rateLimit { Limit := 800, Remaining := 0, Reset := 1234567890 }) :=
  ⟨(rate_limit_error_is_immediate sampleEnv).1 (sampleSys (some "throttled") none true)
      (sampleSys (some "throttled") none true) "/users" "helix" "throttled"
      (sampleReply (getRequest (sampleClient (some "throttled") none true)
        "https://api.twitch.tv/helix/users" "throttled")) 5 rfl rfl rfl rfl rfl rfl,
   congrArg Prod.fst ((rate_limit_error_is_immediate sampleEnv).2
      (sampleSys (some "throttled") none true) "/users" "post" "throttled" none
      (sampleReply (updateRequest (sampleClient (some "throttled") none true) "post"
        "https://api.twitch.tv/helix/users" "throttled" none)) 5 rfl rfl rfl rfl rfl rfl)⟩

/-! ## Rate-limit pauses, polls and write requests -/

theorem wrapInt64_shift (x k : Int) : wrapInt64 (x + k * 2 ^ 64) = wrapInt64 x := by
  unfold wrapInt64
  have h : x + k * 2 ^ 64 + 2 ^ 63 = x + 2 ^ 63 + k * 2 ^ 64 := by ring
  rw [h, Int.add_mul_emod_self]

theorem wrapInt64_of_range (x : Int) (hlo : -(2 ^ 63 : Int) ≤ x) (hhi : x ≤ 2 ^ 63 - 1) :
    wrapInt64 x = x := by
  unfold wrapInt64
  rw [Int.emod_eq_of_lt (by omega) (by omega)]
  omega

theorem wrapInt64_spec (x : Int) : ∃ k : Int, wrapInt64 x = x + k * 2 ^ 64 := by
  refine ⟨-((x + 2 ^ 63) / 2 ^ 64), ?_⟩
  unfold wrapInt64
  have h := Int.emod_add_ediv (x + 2 ^ 63) (2 ^ 64)
  linarith

theorem sleepTime_congr (reset now : Int) :
    sleepTime reset now = wrapInt64 ((reset - now) * timeSecond) := by
  unfold sleepTime
  obtain ⟨k1, h1⟩ := wrapInt64_spec reset
  obtain ⟨k2, h2⟩ := wrapInt64_spec now
  obtain ⟨k3, h3⟩ := wrapInt64_spec (wrapInt64 reset * timeSecond)
  obtain ⟨k4, h4⟩ := wrapInt64_spec (wrapInt64 now * timeSecond)
  rw [h3, h4, h1, h2]
  have h : (reset + k1 * 2 ^ 64) * timeSecond + k3 * 2 ^ 64
      - ((now + k2 * 2 ^ 64) * timeSecond + k4 * 2 ^ 64)
      = (reset - now) * timeSecond + (k1 * timeSecond + k3 - k2 * timeSecond - k4) * 2 ^ 64 := by
    ring
  rw [h, wrapInt64_shift]

theorem sleepTime_exact (reset now : Int)
    (hlo : -(2 ^ 63 : Int) ≤ (reset - now) * 1000000000)
    (hhi : (reset - now) * 1000000000 ≤ 2 ^ 63 - 1) :
    sleepTime reset now = (reset - now) * timeSecond := by
  rw [sleepTime_congr]
  exact wrapInt64_of_range _ hlo hhi

theorem emitEffects_congr (c1 c2 : Client) (event : String) (data : Payload)
    (h : c1.eventHandlers = c2.eventHandlers) :
    emitEffects c1 event data = emitEffects c2 event data := by
  simp [emitEffects, h]

theorem emitEffects_not_poll (c : Client) (event : String) (data : Payload)
    (hevent : event ≠ "ratelimitpoll") : ∀ e ∈ emitEffects c event data, isPoll e = false := by
  intro e he
  unfold emitEffects at he
  cases hl : c.eventHandlers.lookup event with
  | none =>
    rw [hl] at he
    simp at he
    subst he
    simp [isPoll, hevent]
  | some handlers =>
    rw [hl] at he
    simp only [List.mem_cons, List.mem_map] at he
    rcases he with he | ⟨h, _, he⟩
    · subst he; simp [isPoll, hevent]
    · subst he; rfl

theorem refresh_trace (env : Env) (s : Sys) :
    ∃ v x em : List Effect,
      (refresh env s).2.trace = s.trace ++ v ++ x ++ em ∧
      (v = [] ∨ ∃ accessToken, v = [.request (validateRequest accessToken)]) ∧
      (x = [] ∨ ∃ refreshToken, x = [.request (refreshRequest env s.client refreshToken)]) ∧
      (em = [] ∨ ∃ ev, em = emitEffects s.client "refresh" (.auth ev)) := by
  have hv := validate_state env s
  have hvc := (validate_noExchange env s).2
  unfold refresh
  rcases hval : validate env s with ⟨r, sv⟩
  rw [hval] at hv hvc
  simp only at hv hvc
  have hvtrace : ∃ v : List Effect, sv.trace = s.trace ++ v ∧
      (v = [] ∨ ∃ accessToken, v = [.request (validateRequest accessToken)]) := by
    rcases hv with h | ⟨accessToken, _, h⟩
    · exact ⟨[], by rw [h]; simp, Or.inl rfl⟩
    · exact ⟨[.request (validateRequest accessToken)], by rw [h]; rfl, Or.inr ⟨_, rfl⟩⟩
  obtain ⟨v, hvt, hvform⟩ := hvtrace
  have hstop : ∃ v x em : List Effect, sv.trace = s.trace ++ v ++ x ++ em ∧
      (v = [] ∨ ∃ accessToken, v = [.request (validateRequest accessToken)]) ∧
      (x = [] ∨ ∃ refreshToken, x = [.request (refreshRequest env s.client refreshToken)]) ∧
      (em = [] ∨ ∃ ev, em = emitEffects s.client "refresh" (.auth ev)) :=
    ⟨v, [], [], by rw [hvt]; simp, hvform, Or.inl rfl, Or.inl rfl⟩
  cases r with
  | error e => exact hstop
  | ok valid =>
    cases valid with
    | true => exact hstop
    | false =>
      simp only
      cases hrt : sv.client.refreshToken with
      | none => exact hstop
      | some refreshToken =>
        simp only
        cases env.newRequestErr "POST" tokenURL with
        | some e => exact hstop
        | none =>
          simp only [doRequest]
          have hsent : ∃ v x em : List Effect,
              (sv.log (.request (refreshRequest env sv.client refreshToken))).trace
                = s.trace ++ v ++ x ++ em ∧
              (v = [] ∨ ∃ accessToken, v = [.request (validateRequest accessToken)]) ∧
              (x = [] ∨ ∃ refreshToken,
                x = [.request (refreshRequest env s.client refreshToken)]) ∧
              (em = [] ∨ ∃ ev, em = emitEffects s.client "refresh" (.auth ev)) :=
            ⟨v, [.request (refreshRequest env s.client refreshToken)], [],
              by simp [Sys.log, hvt, hvc], hvform, Or.inr ⟨_, rfl⟩, Or.inl rfl⟩
          cases env.roundTrip sv.trace (refreshRequest env sv.client refreshToken) with
          | error e => exact hsent
          | ok resp =>
            simp only
            cases resp.body.bind env.decodeAuthEvent with
            | error e => exact hsent
            | ok result =>
              simp only
              refine ⟨v, [.request (refreshRequest env s.client refreshToken)],
                emitEffects s.client "refresh" (.auth result), ?_, hvform, Or.inr ⟨_, rfl⟩,
                Or.inr ⟨_, rfl⟩⟩
              by_cases hA : result.AccessToken = "" <;>
                by_cases hR : result.RefreshToken = "" <;>
                simp [hA, hR, emit_eq, Sys.log, Sys.setAccessToken, Sys.setRefreshToken,
                  Sys.countRefreshAttempt, hvt, hvc, emitEffects]

theorem refresh_no_poll (env : Env) (s : Sys) :
    ∃ added, (refresh env s).2.trace = s.trace ++ added ∧ ∀ e ∈ added, isPoll e = false := by
  obtain ⟨v, x, em, htrace, hv, hx, hem⟩ := refresh_trace env s
  refine ⟨v ++ x ++ em, by rw [htrace]; simp, ?_⟩
  intro e he
  simp only [List.mem_append] at he
  rcases he with (he | he) | he
  · rcases hv with h | ⟨_, h⟩
    · rw [h] at he; cases he
    · rw [h] at he
      simp at he
      subst he
      rfl
  · rcases hx with h | ⟨_, h⟩
    · rw [h] at he; cases he
    · rw [h] at he
      simp at he
      subst he
      rfl
  · rcases hem with h | ⟨_, h⟩
    · rw [h] at he; cases he
    · rw [h] at he
      exact emitEffects_not_poll _ _ _ (by decide) e he

theorem handleResponse_429_sleep (env : Env) (self : Sys → Outcome × Sys) (s : Sys)
    (resp : Response) (h429 : resp.StatusCode = 429)
    (hthrow : s.client.throwRateLimitErrors = false) :
    handleResponse env self s resp
      = self
        { client := s.client
          trace := s.trace
            ++ emitEffects s.client "ratelimitpoll" (.rateLimit (extractRateLimit resp.Header))
            ++ emitEffects s.client "ratelimit" (.rateLimit (extractRateLimit resp.Header))
            ++ (if sleepTime (extractRateLimit resp.Header).Reset
                  (env.now (s.trace
                    ++ emitEffects s.client "ratelimitpoll"
                        (.rateLimit (extractRateLimit resp.Header))
                    ++ emitEffects s.client "ratelimit"
                        (.rateLimit (extractRateLimit resp.Header)))) > 0
                then [.slept (sleepTime (extractRateLimit resp.Header).Reset
                  (env.now (s.trace
                    ++ emitEffects s.client "ratelimitpoll"
                        (.rateLimit (extractRateLimit resp.Header))
                    ++ emitEffects s.client "ratelimit"
                        (.rateLimit (extractRateLimit resp.Header)))))]
                else []) } := by
  have h401 : resp.StatusCode ≠ 401 := by rw [h429]; decide
  unfold handleResponse
  simp only [if_neg h401, if_pos h429, handleRateLimit_eq, emit_eq, hthrow, Bool.false_eq_true,
    if_false]
  split <;> simp [Sys.log]

theorem updateRequest_noExchange (c : Client) (method url accessToken : String)
    (body : Option String) :
    isAppTokenExchange (.request (updateRequest c method url accessToken body)) = false := by
  cases body <;> simp [isAppTokenExchange, updateRequest, grantType]

theorem updateBody_noExchange (env : Env) (self : Sys → Outcome × Sys)
    (hself : ∀ s, s.client.accessToken.isSome = true → noExchangeBetween s (self s).2)
    (s : Sys) (endpoint : String) (data : Option (Except String String)) (method : String) :
    noExchangeBetween s (updateBody env self s endpoint data method).2 := by
  have hcore : ∀ body : Option String,
      noExchangeBetween s
        (match env.newRequestErr method.toUpper (s.client.baseURL ++ endpoint) with
          | some e => ((.error (.library e) : Outcome), s)
          | none =>
            match s.client.accessToken with
            | none => (.panic, s)
            | some accessToken =>
              match doRequest env s
                (updateRequest s.client method (s.client.baseURL ++ endpoint) accessToken
                  body) with
              | (.error e, s) => (.error (.library e), s)
              | (.ok resp, s) => handleResponse env self s resp).2 := by
    intro body
    cases env.newRequestErr method.toUpper (s.client.baseURL ++ endpoint) with
    | some e => exact noExchangeBetween_refl s
    | none =>
      simp only
      cases htok : s.client.accessToken with
      | none => exact noExchangeBetween_refl s
      | some accessToken =>
        simp only [doRequest]
        have hlog := noExchangeBetween_log s _
          (updateRequest_noExchange s.client method (s.client.baseURL ++ endpoint) accessToken
            body)
        cases env.roundTrip s.trace
            (updateRequest s.client method (s.client.baseURL ++ endpoint) accessToken body) with
        | error e => exact hlog
        | ok resp =>
          exact noExchangeBetween_trans hlog
            (handleResponse_noExchange env self hself _ resp
              (by simp only [Sys.log]; rw [htok]; rfl))
  unfold updateBody
  by_cases hslash : endpoint.data.head? = some '/'
  · rw [if_neg (by simp [hslash])]
    rcases data with _ | (e | b)
    · exact hcore none
    · exact noExchangeBetween_refl s
    · exact hcore (some b)
  · rw [if_pos (by simp [hslash])]
    exact noExchangeBetween_refl s

theorem update_noExchange (env : Env) (fuel : Nat) (s : Sys) (endpoint : String)
    (data : Option (Except String String)) (method : String) :
    noExchangeBetween s (update env fuel s endpoint data method).2 := by
  induction fuel generalizing s with
  | zero =>
    unfold update
    exact updateBody_noExchange env _ (fun s' _ => noExchangeBetween_refl s') s endpoint data
      method
  | succ fuel ih =>
    unfold update
    exact updateBody_noExchange env _ (fun s' _ => ih s') s endpoint data method

theorem get_sends_request (env : Env) (fuel : Nat) (s : Sys)
    (endpoint apiType accessToken : String)
    (htok : s.client.accessToken = some accessToken)
    (hurl : env.newRequestErr "GET" (selectBaseURL s.client apiType ++ endpoint) = none) :
    ∃ rest, (get env fuel s endpoint apiType).2.trace
      = s.trace ++ [.request (getRequest s.client
          (selectBaseURL s.client apiType ++ endpoint) accessToken)] ++ rest := by
  obtain ⟨self, hself, hget⟩ := get_eq_getBody env fuel s endpoint apiType
  rw [hget]
  unfold getBody
  rw [ensureAccessToken_some env s (by rw [htok]; rfl)]
  simp only [hurl, htok, doRequest]
  cases env.roundTrip s.trace
      (getRequest s.client (selectBaseURL s.client apiType ++ endpoint) accessToken) with
  | error e => exact ⟨[], by simp [Sys.log]⟩
  | ok resp =>
    obtain ⟨added, hadded, _⟩ := handleResponse_noExchange env self hself
      (s.log (.request (getRequest s.client
        (selectBaseURL s.client apiType ++ endpoint) accessToken))) resp
      (by simp only [Sys.log]; rw [htok]; rfl)
    exact ⟨added, by rw [hadded]; simp [Sys.log]⟩

theorem update_sends_request (env : Env) (fuel : Nat) (s : Sys)
    (endpoint method accessToken : String) (body : Option String)
    (hslash : endpoint.data.head? = some '/')
    (htok : s.client.accessToken = some accessToken)
    (hurl : env.newRequestErr method.toUpper (s.client.baseURL ++ endpoint) = none) :
    ∃ rest, (update env fuel s endpoint (body.map Except.ok) method).2.trace
      = s.trace ++ [.request (updateRequest s.client method
          (s.client.baseURL ++ endpoint) accessToken body)] ++ rest := by
  have hbody : ∃ self : Sys → Outcome × Sys,
      (∀ s, s.client.accessToken.isSome = true → noExchangeBetween s (self s).2) ∧
      update env fuel s endpoint (body.map Except.ok) method
        = updateBody env self s endpoint (body.map Except.ok) method := by
    cases fuel with
    | zero => exact ⟨_, fun s' _ => noExchangeBetween_refl s', rfl⟩
    | succ fuel => exact ⟨_, fun s' _ => update_noExchange env fuel s' endpoint _ method, rfl⟩
  obtain ⟨self, hself, hupd⟩ := hbody
  rw [hupd]
  cases body with
  | none =>
    simp only [updateBody, hslash, Option.map, hurl, htok, doRequest, decide_True, Bool.not_true,
      Bool.false_eq_true, if_false]
    cases env.roundTrip s.trace
        (updateRequest s.client method (s.client.baseURL ++ endpoint) accessToken none) with
    | error e => exact ⟨[], by simp [Sys.log]⟩
    | ok resp =>
      obtain ⟨added, hadded, _⟩ := handleResponse_noExchange env self hself
        (s.log (.request (updateRequest s.client method
          (s.client.baseURL ++ endpoint) accessToken none))) resp
        (by simp only [Sys.log]; rw [htok]; rfl)
      exact ⟨added, by rw [hadded]; simp [Sys.log]⟩
  | some b =>
    simp only [updateBody, hslash, Option.map, hurl, htok, doRequest, decide_True, Bool.not_true,
      Bool.false_eq_true, if_false]
    cases env.roundTrip s.trace
        (updateRequest s.client method (s.client.baseURL ++ endpoint) accessToken (some b)) with
    | error e => exact ⟨[], by simp [Sys.log]⟩
    | ok resp =>
      obtain ⟨added, hadded, _⟩ := handleResponse_noExchange env self hself
        (s.log (.request (updateRequest s.client method
          (s.client.baseURL ++ endpoint) accessToken (some b)))) resp
        (by simp only [Sys.log]; rw [htok]; rfl)
      exact ⟨added, by rw [hadded]; simp [Sys.log]⟩

theorem getBody_received (env : Env) (self : Sys → Outcome × Sys) (s s1 : Sys)
    (endpoint apiType accessToken : String) (resp : Response)
    (hens : ensureAccessToken env s = (none, s1))
    (htok : s1.client.accessToken = some accessToken)
    (hurl : env.newRequestErr "GET" (selectBaseURL s1.client apiType ++ endpoint) = none)
    (hresp : env.roundTrip s1.trace
      (getRequest s1.client (selectBaseURL s1.client apiType ++ endpoint) accessToken)
      = .ok resp) :
    getBody env self s endpoint apiType
      = handleResponse env self
          (s1.log (.request (getRequest s1.client
            (selectBaseURL s1.client apiType ++ endpoint) accessToken))) resp := by
  unfold getBody
  rw [hens]
  simp only [hurl, htok, doRequest, hresp]

theorem updateBody_received (env : Env) (self : Sys → Outcome × Sys) (s : Sys)
    (endpoint method accessToken : String) (body : Option String) (resp : Response)
    (hslash : endpoint.data.head? = some '/')
    (htok : s.client.accessToken = some accessToken)
    (hurl : env.newRequestErr method.toUpper (s.client.baseURL ++ endpoint) = none)
    (hresp : env.roundTrip s.trace
      (updateRequest s.client method (s.client.baseURL ++ endpoint) accessToken body)
      = .ok resp) :
    updateBody env self s endpoint (body.map Except.ok) method
      = handleResponse env self
          (s.log (.request (updateRequest s.client method
            (s.client.baseURL ++ endpoint) accessToken body))) resp := by
  cases body <;>
    simp only [updateBody, hslash, Option.map, hurl, htok, doRequest, hresp, decide_True,
      Bool.not_true, Bool.false_eq_true, if_false]

theorem handleResponse_429_pause (env : Env) (self : Sys → Outcome × Sys) (s : Sys)
    (resp : Response) (now : Int) (h429 : resp.StatusCode = 429)
    (hthrow : s.client.throwRateLimitErrors = false)
    (hnow : env.now (s.trace
      ++ emitEffects s.client "ratelimitpoll" (.rateLimit (extractRateLimit resp.Header))
      ++ emitEffects s.client "ratelimit" (.rateLimit (extractRateLimit resp.Header))) = now)
    (hlo : -(2 ^ 63 : Int) ≤ ((extractRateLimit resp.Header).Reset - now) * 1000000000)
    (hhi : ((extractRateLimit resp.Header).Reset - now) * 1000000000 ≤ 2 ^ 63 - 1) :
    handleResponse env self s resp
      = self
        { client := s.client
          trace := s.trace
            ++ emitEffects s.client "ratelimitpoll" (.rateLimit (extractRateLimit resp.Header))
            ++ emitEffects s.client "ratelimit" (.rateLimit (extractRateLimit resp.Header))
            ++ (if now < (extractRateLimit resp.Header).Reset
                then [.slept (((extractRateLimit resp.Header).Reset - now) * 1000000000)]
                else []) } := by
  rw [handleResponse_429_sleep env self s resp h429 hthrow, hnow,
    sleepTime_exact _ _ hlo hhi]
  have hiff : (((extractRateLimit resp.Header).Reset - now) * 1000000000 > 0)
      ↔ now < (extractRateLimit resp.Header).Reset := by
    constructor <;> intro h <;> omega
  simp only [timeSecond, hiff]

/-- Counterexample for C11 as stated: the response carries the reset time
10457939037 and the clock reads 1234567000, so the reset lies 9223372037
seconds in the future; that many nanoseconds do not fit `time.Duration`, the
computed duration is -9223372036709551616 ns, and `get` reaches its
recursive call without sleeping (the trace holds no `slept` effect). -/
theorem get_skips_pause_for_far_reset :
    get farResetEnv 0 (sampleSys (some "token") none false) "/users" "helix"
      = (.unfinished,
         { client := sampleClient (some "token") none false
           trace := [.request (getRequest (sampleClient (some "token") none false)
               "https://api.twitch.tv/helix/users" "token"),
             .emitted "ratelimitpoll"
               (.rateLimit { Limit := 0, Remaining := 0, Reset := 10457939037 }),
             .emitted "ratelimit"
               (.rateLimit { Limit := 0, Remaining := 0, Reset := 10457939037 }),
             .handled 2
               (.rateLimit { Limit := 0, Remaining := 0, Reset := 10457939037 })] }) ∧
    sleepTime 10457939037 1234567000 = -9223372036709551616 ∧
    (10457939037 - 1234567000) * timeSecond = 9223372037000000000 := by
  refine ⟨?_, by decide, by decide⟩
  rfl

theorem handleResponse_429_wrapped (env : Env) (self : Sys → Outcome × Sys) (s : Sys)
    (resp : Response) (now : Int) (h429 : resp.StatusCode = 429)
    (hthrow : s.client.throwRateLimitErrors = false)
    (hnow : env.now (s.trace
      ++ emitEffects s.client "ratelimitpoll" (.rateLimit (extractRateLimit resp.Header))
      ++ emitEffects s.client "ratelimit" (.rateLimit (extractRateLimit resp.Header))) = now) :
    handleResponse env self s resp
      = self
        { client := s.client
          trace := s.trace
            ++ emitEffects s.client "ratelimitpoll" (.rateLimit (extractRateLimit resp.Header))
            ++ emitEffects s.client "ratelimit" (.rateLimit (extractRateLimit resp.Header))
            ++ (if 0 < (((extractRateLimit resp.Header).Reset - now) * 1000000000 + 2 ^ 63)
                    % 2 ^ 64 - 2 ^ 63
                then [.slept ((((extractRateLimit resp.Header).Reset - now) * 1000000000
                    + 2 ^ 63) % 2 ^ 64 - 2 ^ 63)]
                else []) } := by
  rw [handleResponse_429_sleep env self s resp h429 hthrow, hnow, sleepTime_congr]
  simp only [wrapInt64, timeSecond, gt_iff_lt]

/-- Claim C11, amended: when `get` or `update` receives a 429 response
while `throwRateLimitErrors` is off, the computed duration `pause` is, for
every reset time and clock value, the difference (reset - now) in
nanoseconds wrapped around into the signed 64-bit range; whenever that
difference fits the range, `pause` is exactly (reset - now) seconds and is
positive exactly when the reset lies in the future. The run logs a sleep of
`pause` if it is positive and no sleep otherwise, and then continues as the
same call on the unchanged client, whose next effect is the same request
again. For `get` the state `s1` is the one after the access token was
ensured. -/
theorem rate_limit_pause_then_retry (env : Env) :
    (∀ (s s1 : Sys) (endpoint apiType accessToken : String) (resp : Response) (fuel : Nat)
        (now : Int),
      ensureAccessToken env s = (none, s1) →
      s1.client.accessToken = some accessToken →
      env.newRequestErr "GET" (selectBaseURL s1.client apiType ++ endpoint) = none →
      env.roundTrip s1.trace
        (getRequest s1.client (selectBaseURL s1.client apiType ++ endpoint) accessToken)
        = .ok resp →
      resp.StatusCode = 429 →
      s1.client.throwRateLimitErrors = false →
      env.now (s1.trace
        ++ [.request (getRequest s1.client
              (selectBaseURL s1.client apiType ++ endpoint) accessToken)]
        ++ emitEffects s1.client "ratelimitpoll" (.rateLimit (extractRateLimit resp.Header))
        ++ emitEffects s1.client "ratelimit" (.rateLimit (extractRateLimit resp.Header)))
        = now →
      ∃ (pause : Int) (paused : Sys),
        pause = (((extractRateLimit resp.Header).Reset - now) * 1000000000 + 2 ^ 63)
          % 2 ^ 64 - 2 ^ 63 ∧
        (-(2 ^ 63 : Int) ≤ ((extractRateLimit resp.Header).Reset - now) * 1000000000 →
          ((extractRateLimit resp.Header).Reset - now) * 1000000000 ≤ 2 ^ 63 - 1 →
          pause = ((extractRateLimit resp.Header).Reset - now) * 1000000000 ∧
          (0 < pause ↔ now < (extractRateLimit resp.Header).Reset)) ∧
        paused =
          { client := s1.client
            trace := s1.trace
              ++ [.request (getRequest s1.client
                    (selectBaseURL s1.client apiType ++ endpoint) accessToken)]
              ++ emitEffects s1.client "ratelimitpoll"
                    (.rateLimit (extractRateLimit resp.Header))
              ++ emitEffects s1.client "ratelimit"
                    (.rateLimit (extractRateLimit resp.Header))
              ++ (if 0 < pause then [.slept pause] else []) } ∧
        get env (fuel + 1) s endpoint apiType = get env fuel paused endpoint apiType ∧
        ∃ rest, (get env fuel paused endpoint apiType).2.trace
          = paused.trace
            ++ [.request (getRequest s1.client
                  (selectBaseURL s1.client apiType ++ endpoint) accessToken)]
            ++ rest) ∧
    (∀ (s : Sys) (endpoint method accessToken : String) (body : Option String)
        (resp : Response) (fuel : Nat) (now : Int),
      endpoint.data.head? = some '/' →
      s.client.accessToken = some accessToken →
      env.newRequestErr method.toUpper (s.client.baseURL ++ endpoint) = none →
      env.roundTrip s.trace
        (updateRequest s.client method (s.client.baseURL ++ endpoint) accessToken body)
        = .ok resp →
      resp.StatusCode = 429 →
      s.client.throwRateLimitErrors = false →
      env.now (s.trace
        ++ [.request (updateRequest s.client method
              (s.client.baseURL ++ endpoint) accessToken body)]
        ++ emitEffects s.client "ratelimitpoll" (.rateLimit (extractRateLimit resp.Header))
        ++ emitEffects s.client "ratelimit" (.rateLimit (extractRateLimit resp.Header)))
        = now →
      ∃ (pause : Int) (paused : Sys),
        pause = (((extractRateLimit resp.Header).Reset - now) * 1000000000 + 2 ^ 63)
          % 2 ^ 64 - 2 ^ 63 ∧
        (-(2 ^ 63 : Int) ≤ ((extractRateLimit resp.Header).Reset - now) * 1000000000 →
          ((extractRateLimit resp.Header).Reset - now) * 1000000000 ≤ 2 ^ 63 - 1 →
          pause = ((extractRateLimit resp.Header).Reset - now) * 1000000000 ∧
          (0 < pause ↔ now < (extractRateLimit resp.Header).Reset)) ∧
        paused =
          { client := s.client
            trace := s.trace
              ++ [.request (updateRequest s.client method
                    (s.client.baseURL ++ endpoint) accessToken body)]
              ++ emitEffects s.client "ratelimitpoll"
                    (.rateLimit (extractRateLimit resp.Header))
              ++ emitEffects s.client "ratelimit"
                    (.rateLimit (extractRateLimit resp.Header))
              ++ (if 0 < pause then [.slept pause] else []) } ∧
        update env (fuel + 1) s endpoint (body.map Except.ok) method
          = update env fuel paused endpoint (body.map Except.ok) method ∧
        ∃ rest, (update env fuel paused endpoint (body.map Except.ok) method).2.trace
          = paused.trace
            ++ [.request (updateRequest s.client method
                  (s.client.baseURL ++ endpoint) accessToken body)]
            ++ rest) := by
  have hexact : ∀ d : Int, -(2 ^ 63 : Int) ≤ d * 1000000000 → d * 1000000000 ≤ 2 ^ 63 - 1 →
      (d * 1000000000 + 2 ^ 63) % 2 ^ 64 - 2 ^ 63 = d * 1000000000 := by
    intro d hlo hhi
    rw [Int.emod_eq_of_lt (by omega) (by omega)]
    omega
  constructor
  · intro s s1 endpoint apiType accessToken resp fuel now hens htok hurl hresp h429 hthrow hnow
    refine ⟨_, _, rfl, ?_, rfl, ?_, ?_⟩
    · intro hlo hhi
      rw [hexact _ hlo hhi]
      exact ⟨rfl, by constructor <;> intro h <;> omega⟩
    · have hstep : get env (fuel + 1) s endpoint apiType
          = getBody env (fun s => get env fuel s endpoint apiType) s endpoint apiType := rfl
      rw [hstep, getBody_received env _ s s1 endpoint apiType accessToken resp hens htok hurl
        hresp]
      exact handleResponse_429_wrapped env _ _ resp now h429 hthrow hnow
    · exact get_sends_request env fuel _ endpoint apiType accessToken htok hurl
  · intro s endpoint method accessToken body resp fuel now hslash htok hurl hresp h429 hthrow
      hnow
    refine ⟨_, _, rfl, ?_, rfl, ?_, ?_⟩
    · intro hlo hhi
      rw [hexact _ hlo hhi]
      exact ⟨rfl, by constructor <;> intro h <;> omega⟩
    · have hstep : update env (fuel + 1) s endpoint (body.map Except.ok) method
          = updateBody env (fun s => update env fuel s endpoint (body.map Except.ok) method) s
              endpoint (body.map Except.ok) method := rfl
      rw [hstep, updateBody_received env _ s endpoint method accessToken body resp hslash htok
        hurl hresp]
      exact handleResponse_429_wrapped env _ _ resp now h429 hthrow hnow
    · exact update_sends_request env fuel _ endpoint method accessToken body hslash htok hurl

/-- Witness for C11: the sample services answer the bearer token "throttled"
with 429 and the reset time 1234567890 while the clock reads 1234567000; with
`throwRateLimitErrors` off, `get` and `post` log a sleep of 890 seconds and
continue as the same call, which sends the same request again. -/
theorem rate_limit_pause_then_retry_witness :
    (∃ paused : Sys,
      paused =
        { client := sampleClient (some "throttled") none false
          trace := [.request (getRequest (sampleClient (some "throttled") none false)
              "https://api.twitch.tv/helix/users" "throttled"),
            .emitted "ratelimitpoll"
              (.rateLimit { Limit := 800, Remaining := 0, Reset := 1234567890 }),
            .emitted "ratelimit"
              (.rateLimit { Limit := 800, Remaining := 0, Reset := 1234567890 }),
            .handled 2
              (.rateLimit { Limit := 800, Remaining := 0, Reset := 1234567890 }),
            .slept 890000000000] } ∧
      get sampleEnv 3 (sampleSys (some "throttled") none false) "/users" "helix"
        = get sampleEnv 2 paused "/users" "helix" ∧
      ∃ rest, (get sampleEnv 2 paused "/users" "helix").2.trace
        = paused.trace
          ++ [.request (getRequest (sampleClient (some "throttled") none false)
                "https://api.twitch.tv/helix/users" "throttled")]
          ++ rest) ∧
    (∃ paused : Sys,
      paused =
        { client := sampleClient (some "throttled") none false
          trace := [.request (updateRequest (sampleClient (some "throttled") none false)
              "post" "https://api.twitch.tv/helix/users" "throttled" none),
            .emitted "ratelimitpoll"
              (.rateLimit { Limit := 800, Remaining := 0, Reset := 1234567890 }),
            .emitted "ratelimit"
              (.rateLimit { Limit := 800, Remaining := 0, Reset := 1234567890 }),
            .handled 2
              (.rateLimit { Limit := 800, Remaining := 0, Reset := 1234567890 }),
            .slept 890000000000] } ∧
      update sampleEnv 3 (sampleSys (some "throttled") none false) "/users" none "post"
        = update sampleEnv 2 paused "/users" none "post" ∧
      ∃ rest, (update sampleEnv 2 paused "/users" none "post").2.trace
        = paused.trace
          ++ [.request (updateRequest (sampleClient (some "throttled") none false)
                "post" "https://api.twitch.tv/helix/users" "throttled" none)]
          ++ rest) := by
  constructor
  · obtain ⟨pause, paused, hpause, _, hpaused, hget, hrest⟩ :=
      (rate_limit_pause_then_retry sampleEnv).1 (sampleSys (some "throttled") none false)
        (sampleSys (some "throttled") none false) "/users" "helix" "throttled"
        (sampleReply (getRequest (sampleClient (some "throttled") none false)
          "https://api.twitch.tv/helix/users" "throttled"))
        2 1234567000 rfl rfl rfl rfl rfl rfl rfl
    have hp : pause = 890000000000 := by rw [hpause]; decide
    rw [hp] at hpaused
    exact ⟨paused, hpaused, hget, hrest⟩
  · obtain ⟨pause, paused, hpause, _, hpaused, hupd, hrest⟩ :=
      (rate_limit_pause_then_retry sampleEnv).2 (sampleSys (some "throttled") none false)
        "/users" "post" "throttled" none
        (sampleReply (updateRequest (sampleClient (some "throttled") none false)
          "post" "https://api.twitch.tv/helix/users" "throttled" none))
        2 1234567000 rfl rfl rfl rfl rfl rfl rfl
    have hp : pause = 890000000000 := by rw [hpause]; decide
    rw [hp] at hpaused
    exact ⟨paused, hpaused, hupd, hrest⟩

theorem emitEffects_poll_filter (c : Client) (data : Payload) (mid : List Effect)
    (hmid : ∀ e ∈ mid, isPoll e = false) :
    (emitEffects c "ratelimitpoll" data ++ mid).filter isPoll
      = [.emitted "ratelimitpoll" data] := by
  have hmidnil : mid.filter isPoll = [] := by
    rw [List.filter_eq_nil_iff]
    intro e he
    simp [hmid e he]
  rw [List.filter_append, hmidnil, List.append_nil]
  unfold emitEffects
  have hhead : isPoll (.emitted "ratelimitpoll" data) = true := by simp [isPoll]
  rw [List.filter_cons_of_pos hhead]
  congr 1
  rw [List.filter_eq_nil_iff]
  intro e he
  cases hl : c.eventHandlers.lookup "ratelimitpoll" with
  | none => rw [hl] at he; cases he
  | some handlers =>
    rw [hl] at he
    simp only [List.mem_map] at he
    obtain ⟨h, _, he⟩ := he
    subst he
    simp [isPoll]

theorem handleResponse_poll (env : Env) (self : Sys → Outcome × Sys) (s : Sys)
    (resp : Response) :
    ∃ (mid : List Effect) (s2 : Sys),
      s2.trace = s.trace
        ++ emitEffects s.client "ratelimitpoll" (.rateLimit (extractRateLimit resp.Header))
        ++ mid ∧
      (∀ e ∈ mid, isPoll e = false) ∧
      (handleResponse env self s resp = self s2 ∨ (handleResponse env self s resp).2 = s2) := by
  unfold handleResponse
  simp only [handleRateLimit_eq]
  by_cases h401 : resp.StatusCode = 401
  · rw [if_pos h401]
    obtain ⟨added, hadded, hnopoll⟩ := refresh_no_poll env
      { client := s.client
        trace := s.trace ++ emitEffects s.client "ratelimitpoll"
          (.rateLimit (extractRateLimit resp.Header)) }
    rcases hr : refresh env
      { client := s.client
        trace := s.trace ++ emitEffects s.client "ratelimitpoll"
          (.rateLimit (extractRateLimit resp.Header)) } with ⟨r, s2⟩
    rw [hr] at hadded
    cases r with
    | some e => exact ⟨added, s2, hadded, hnopoll, Or.inr rfl⟩
    | none => exact ⟨added, s2, hadded, hnopoll, Or.inl rfl⟩
  · rw [if_neg h401]
    by_cases h429 : resp.StatusCode = 429
    · rw [if_pos h429]
      simp only [emit_eq]
      have hevent := emitEffects_not_poll s.client "ratelimit"
        (.rateLimit (extractRateLimit resp.Header)) (by decide)
      cases hthrow : s.client.throwRateLimitErrors with
      | true =>
        exact ⟨emitEffects s.client "ratelimit" (.rateLimit (extractRateLimit resp.Header)),
          { client := s.client
            trace := s.trace
              ++ emitEffects s.client "ratelimitpoll"
                  (.rateLimit (extractRateLimit resp.Header))
              ++ emitEffects s.client "ratelimit"
                  (.rateLimit (extractRateLimit resp.Header)) },
          rfl, hevent, Or.inr (by simp)⟩
      | false =>
        simp only [Bool.false_eq_true, if_false]
        generalize sleepTime (extractRateLimit resp.Header).Reset
          (env.now (s.trace
            ++ emitEffects s.client "ratelimitpoll" (.rateLimit (extractRateLimit resp.Header))
            ++ emitEffects s.client "ratelimit" (.rateLimit (extractRateLimit resp.Header))))
          = pause
        by_cases hp : pause > 0
        · rw [if_pos hp]
          refine ⟨emitEffects s.client "ratelimit" (.rateLimit (extractRateLimit resp.Header))
            ++ [.slept pause],
            { client := s.client
              trace := s.trace
                ++ emitEffects s.client "ratelimitpoll"
                    (.rateLimit (extractRateLimit resp.Header))
                ++ emitEffects s.client "ratelimit"
                    (.rateLimit (extractRateLimit resp.Header)) ++ [.slept pause] },
            ?_, ?_, Or.inl rfl⟩
          · simp
          · intro e he
            simp only [List.mem_append, List.mem_singleton] at he
            rcases he with he | he
            · exact hevent e he
            · subst he; rfl
        · rw [if_neg hp]
          exact ⟨emitEffects s.client "ratelimit" (.rateLimit (extractRateLimit resp.Header)),
            { client := s.client
              trace := s.trace
                ++ emitEffects s.client "ratelimitpoll"
                    (.rateLimit (extractRateLimit resp.Header))
                ++ emitEffects s.client "ratelimit"
                    (.rateLimit (extractRateLimit resp.Header)) },
            rfl, hevent, Or.inl rfl⟩
    · rw [if_neg h429]
      exact ⟨[], _, by simp, by simp, Or.inr rfl⟩

/-- Claim C12: when `get` or `update` receives a response, whatever its
status code, the effects that follow the request in the trace begin with the
emission of "ratelimitpoll" carrying the snapshot parsed from the headers of
that response (and the calls of its handlers), before the effects of the
status-code branches (refresh requests, "refresh" and "ratelimit" emissions,
sleep); up to the state `s2` in which the call returns or calls itself again
this is the only "ratelimitpoll" emission. For `get` the state `s1` is the
one after the access token was ensured. -/
theorem poll_emitted_once_per_response (env : Env) :
    (∀ (s s1 : Sys) (endpoint apiType accessToken : String) (resp : Response) (fuel : Nat),
      ensureAccessToken env s = (none, s1) →
      s1.client.accessToken = some accessToken →
      env.newRequestErr "GET" (selectBaseURL s1.client apiType ++ endpoint) = none →
      env.roundTrip s1.trace
        (getRequest s1.client (selectBaseURL s1.client apiType ++ endpoint) accessToken)
        = .ok resp →
      ∃ (mid : List Effect) (s2 : Sys),
        s2.trace = s1.trace
          ++ [.request (getRequest s1.client
                (selectBaseURL s1.client apiType ++ endpoint) accessToken)]
          ++ emitEffects s1.client "ratelimitpoll" (.rateLimit (extractRateLimit resp.Header))
          ++ mid ∧
        (emitEffects s1.client "ratelimitpoll" (.rateLimit (extractRateLimit resp.Header))
            ++ mid).filter isPoll
          = [.emitted "ratelimitpoll" (.rateLimit (extractRateLimit resp.Header))] ∧
        ((get env fuel s endpoint apiType).2 = s2 ∨
          ∃ k, fuel = k + 1 ∧
            get env fuel s endpoint apiType = get env k s2 endpoint apiType)) ∧
    (∀ (s : Sys) (endpoint method accessToken : String) (body : Option String)
        (resp : Response) (fuel : Nat),
      endpoint.data.head? = some '/' →
      s.client.accessToken = some accessToken →
      env.newRequestErr method.toUpper (s.client.baseURL ++ endpoint) = none →
      env.roundTrip s.trace
        (updateRequest s.client method (s.client.baseURL ++ endpoint) accessToken body)
        = .ok resp →
      ∃ (mid : List Effect) (s2 : Sys),
        s2.trace = s.trace
          ++ [.request (updateRequest s.client method
                (s.client.baseURL ++ endpoint) accessToken body)]
          ++ emitEffects s.client "ratelimitpoll" (.rateLimit (extractRateLimit resp.Header))
          ++ mid ∧
        (emitEffects s.client "ratelimitpoll" (.rateLimit (extractRateLimit resp.Header))
            ++ mid).filter isPoll
          = [.emitted "ratelimitpoll" (.rateLimit (extractRateLimit resp.Header))] ∧
        ((update env fuel s endpoint (body.map Except.ok) method).2 = s2 ∨
          ∃ k, fuel = k + 1 ∧
            update env fuel s endpoint (body.map Except.ok) method
              = update env k s2 endpoint (body.map Except.ok) method)) := by
  constructor
  · intro s s1 endpoint apiType accessToken resp fuel hens htok hurl hresp
    cases fuel with
    | zero =>
      obtain ⟨mid, s2, htrace, hmid, hres⟩ := handleResponse_poll env
        (fun s => (.unfinished, s))
        (s1.log (.request (getRequest s1.client
          (selectBaseURL s1.client apiType ++ endpoint) accessToken))) resp
      have hstep : get env 0 s endpoint apiType
          = getBody env (fun s => (.unfinished, s)) s endpoint apiType := rfl
      rw [hstep, getBody_received env _ s s1 endpoint apiType accessToken resp hens htok hurl
        hresp]
      refine ⟨mid, s2, htrace, emitEffects_poll_filter _ _ mid hmid, Or.inl ?_⟩
      rcases hres with h | h
      · rw [h]
      · exact h
    | succ k =>
      obtain ⟨mid, s2, htrace, hmid, hres⟩ := handleResponse_poll env
        (fun s => get env k s endpoint apiType)
        (s1.log (.request (getRequest s1.client
          (selectBaseURL s1.client apiType ++ endpoint) accessToken))) resp
      have hstep : get env (k + 1) s endpoint apiType
          = getBody env (fun s => get env k s endpoint apiType) s endpoint apiType := rfl
      rw [hstep, getBody_received env _ s s1 endpoint apiType accessToken resp hens htok hurl
        hresp]
      refine ⟨mid, s2, htrace, emitEffects_poll_filter _ _ mid hmid, ?_⟩
      rcases hres with h | h
      · exact Or.inr ⟨k, rfl, h⟩
      · exact Or.inl h
  · intro s endpoint method accessToken body resp fuel hslash htok hurl hresp
    cases fuel with
    | zero =>
      obtain ⟨mid, s2, htrace, hmid, hres⟩ := handleResponse_poll env
        (fun s => (.unfinished, s))
        (s.log (.request (updateRequest s.client method
          (s.client.baseURL ++ endpoint) accessToken body))) resp
      have hstep : update env 0 s endpoint (body.map Except.ok) method
          = updateBody env (fun s => (.unfinished, s)) s endpoint (body.map Except.ok)
              method := rfl
      rw [hstep, updateBody_received env _ s endpoint method accessToken body resp hslash htok
        hurl hresp]
      refine ⟨mid, s2, htrace, emitEffects_poll_filter _ _ mid hmid, Or.inl ?_⟩
      rcases hres with h | h
      · rw [h]
      · exact h
    | succ k =>
      obtain ⟨mid, s2, htrace, hmid, hres⟩ := handleResponse_poll env
        (fun s => update env k s endpoint (body.map Except.ok) method)
        (s.log (.request (updateRequest s.client method
          (s.client.baseURL ++ endpoint) accessToken body))) resp
      have hstep : update env (k + 1) s endpoint (body.map Except.ok) method
          = updateBody env (fun s => update env k s endpoint (body.map Except.ok) method) s
              endpoint (body.map Except.ok) method := rfl
      rw [hstep, updateBody_received env _ s endpoint method accessToken body resp hslash htok
        hurl hresp]
      refine ⟨mid, s2, htrace, emitEffects_poll_filter _ _ mid hmid, ?_⟩
      rcases hres with h | h
      · exact Or.inr ⟨k, rfl, h⟩
      · exact Or.inl h

/-- Witness for C12: the sample services answer the bearer token "throttled"
with 429 and rate-limit headers; the trace of `get` and of `post` continues
after the request with the one "ratelimitpoll" emission carrying the
snapshot of those headers. -/
theorem poll_emitted_once_per_response_witness :
    (∃ (mid : List Effect) (s2 : Sys),
      s2.trace = [.request (getRequest (sampleClient (some "throttled") none true)
            "https://api.twitch.tv/helix/users" "throttled"),
          .emitted "ratelimitpoll"
            (.rateLimit { Limit := 800, Remaining := 0, Reset := 1234567890 })]
        ++ mid ∧
      (Effect.emitted "ratelimitpoll"
          (.rateLimit { Limit := 800, Remaining := 0, Reset := 1234567890 })
        :: mid).filter isPoll
        = [.emitted "ratelimitpoll"
            (.rateLimit { Limit := 800, Remaining := 0, Reset := 1234567890 })] ∧
      ((get sampleEnv 5 (sampleSys (some "throttled") none true) "/users" "helix").2 = s2 ∨
        ∃ k, 5 = k + 1 ∧
          get sampleEnv 5 (sampleSys (some "throttled") none true) "/users" "helix"
            = get sampleEnv k s2 "/users" "helix")) ∧
    (∃ (mid : List Effect) (s2 : Sys),
      s2.trace = [.request (updateRequest (sampleClient (some "throttled") none true) "post"
            "https://api.twitch.tv/helix/users" "throttled" none),
          .emitted "ratelimitpoll"
            (.rateLimit { Limit := 800, Remaining := 0, Reset := 1234567890 })]
        ++ mid ∧
      (Effect.emitted "ratelimitpoll"
          (.rateLimit { Limit := 800, Remaining := 0, Reset := 1234567890 })
        :: mid).filter isPoll
        = [.emitted "ratelimitpoll"
            (.rateLimit { Limit := 800, Remaining := 0, Reset := 1234567890 })] ∧
      ((update sampleEnv 5 (sampleSys (some "throttled") none true) "/users" none "post").2
          = s2 ∨
        ∃ k, 5 = k + 1 ∧
          update sampleEnv 5 (sampleSys (some "throttled") none true) "/users" none "post"
            = update sampleEnv k s2 "/users" none "post")) :=
  ⟨(poll_emitted_once_per_response sampleEnv).1 (sampleSys (some "throttled") none true)
      (sampleSys (some "throttled") none true) "/users" "helix" "throttled"
      (sampleReply (getRequest (sampleClient (some "throttled") none true)
        "https://api.twitch.tv/helix/users" "throttled")) 5 rfl rfl rfl rfl,
   (poll_emitted_once_per_response sampleEnv).2
      (sampleSys (some "throttled") none true) "/users" "post" "throttled" none
      (sampleReply (updateRequest (sampleClient (some "throttled") none true) "post"
        "https://api.twitch.tv/helix/users" "throttled" none)) 5 rfl rfl rfl rfl⟩

/-- Claim C13: for an endpoint that does not begin with '/', `update` with
any method and body, and so `post`, `put`, `patch` and `delete`, return the
error "endpoint must start with a '/' (forward slash)" in the state they
were called in: the trace gains no request or other effect and the client is
unchanged. -/
theorem update_rejects_endpoint_without_slash (env : Env) (fuel : Nat) (s : Sys)
    (endpoint : String) (data : Option (Except String String))
    (hslash : ¬ endpoint.data.head? = some '/') :
    (∀ method, update env fuel s endpoint data method
      = (.error (.message "endpoint must start with a '/' (forward slash)"), s)) ∧
    post env fuel s endpoint data
      = (.error (.message "endpoint must start with a '/' (forward slash)"), s) ∧
    put env fuel s endpoint data
      = (.error (.message "endpoint must start with a '/' (forward slash)"), s) ∧
    patch env fuel s endpoint data
      = (.error (.message "endpoint must start with a '/' (forward slash)"), s) ∧
    delete env fuel s endpoint data
      = (.error (.message "endpoint must start with a '/' (forward slash)"), s) := by
  have hupdate : ∀ method, update env fuel s endpoint data method
      = (.error (.message "endpoint must start with a '/' (forward slash)"), s) := by
    intro method
    cases fuel <;> simp [update, updateBody, hslash]
  exact ⟨hupdate, hupdate "post", hupdate "put", hupdate "patch", hupdate "delete"⟩

/-- Witness for C13: posting to "users" with a body, on a client without
access token, fails with the endpoint error and leaves the state as it
was. -/
theorem update_rejects_endpoint_without_slash_witness :
    post sampleEnv 5 (sampleSys none none false) "users" (some (.ok "body"))
      = (.error (.message "endpoint must start with a '/' (forward slash)"),
         sampleSys none none false) :=
  (update_rejects_endpoint_without_slash sampleEnv 5 (sampleSys none none false) "users"
    (some (.ok "body")) (by decide)).2.1

/-! ## Validation and refresh: claims C14 to C16 -/

theorem validate_ok_state (env : Env) (s sv : Sys) (valid : Bool)
    (hval : validate env s = (.ok valid, sv)) :
    (s.client.accessToken = none ∧ valid = false ∧ sv = s) ∨
      ∃ accessToken, s.client.accessToken = some accessToken ∧
        sv = s.log (.request (validateRequest accessToken)) := by
  unfold validate at hval
  cases htok : s.client.accessToken with
  | none =>
    rw [htok] at hval
    simp only [Prod.mk.injEq, Except.ok.injEq] at hval
    exact Or.inl ⟨rfl, by simpa using hval.1.symm, hval.2.symm⟩
  | some accessToken =>
    rw [htok] at hval
    refine Or.inr ⟨accessToken, rfl, ?_⟩
    simp only at hval
    cases hurl : env.newRequestErr "GET" validateURL with
    | some e => rw [hurl] at hval; simp at hval
    | none =>
      rw [hurl] at hval
      simp only [doRequest] at hval
      cases hrt : env.roundTrip s.trace (validateRequest accessToken) with
      | error e => rw [hrt] at hval; simp at hval
      | ok resp =>
        rw [hrt] at hval
        simp only at hval
        cases hdec : resp.body.bind env.decodeMap with
        | error e => rw [hdec] at hval; simp at hval
        | ok result =>
          rw [hdec] at hval
          simp only at hval
          split at hval
          · split at hval
            · simp at hval
            · exact (congrArg Prod.snd hval).symm
          · exact (congrArg Prod.snd hval).symm

theorem validate_missing_authorization (env : Env) (s : Sys) (accessToken : String)
    (vresp : Response) (vmap : List (String × JsonMember))
    (htok : s.client.accessToken = some accessToken)
    (hvurl : env.newRequestErr "GET" validateURL = none)
    (hv : env.roundTrip s.trace (validateRequest accessToken) = .ok vresp)
    (hvdec : vresp.body.bind env.decodeMap = .ok vmap)
    (hvmsg : vmap.lookup "message" = some (.string "missing authorization token")) :
    validate env s
      = (.error (.message "missing authorization token"),
         s.log (.request (validateRequest accessToken))) := by
  unfold validate
  simp only [htok, hvurl, doRequest, hv, hvdec, hvmsg, if_true]

/-- Claim C14: when `validate` reports the access token as valid, `refresh`
returns nil; the client (access token, refresh token, refresh-attempt
counter and all else) is unchanged, and the trace gains the validation
request only: no request to the token endpoint and no "refresh" emission. -/
theorem refresh_skips_exchange_when_valid (env : Env) (s sv : Sys)
    (hvalid : validate env s = (.ok true, sv)) :
    ∃ accessToken, s.client.accessToken = some accessToken ∧
      refresh env s
        = (none,
           { client := s.client
             trace := s.trace ++ [.request (validateRequest accessToken)] }) := by
  rcases validate_ok_state env s sv true hvalid with ⟨_, h, _⟩ | ⟨accessToken, htok, hsv⟩
  · cases h
  · refine ⟨accessToken, htok, ?_⟩
    unfold refresh
    rw [hvalid, hsv]
    rfl

/-- Witness for C14: the sample identity service accepts "app-token"; the
refresh of a client holding it and the refresh token "good-refresh" sends
the validation request and nothing else. -/
theorem refresh_skips_exchange_when_valid_witness :
    ∃ accessToken,
      (sampleSys (some "app-token") (some "good-refresh") false).client.accessToken
        = some accessToken ∧
      refresh sampleEnv (sampleSys (some "app-token") (some "good-refresh") false)
        = (none,
           { client := sampleClient (some "app-token") (some "good-refresh") false
             trace := [] ++ [.request (validateRequest accessToken)] }) :=
  refresh_skips_exchange_when_valid sampleEnv
    (sampleSys (some "app-token") (some "good-refresh") false)
    ((sampleSys (some "app-token") (some "good-refresh") false).log
      (.request (validateRequest "app-token"))) rfl

/-- Claim C15: (1) when `validate` reports the access token as not valid,
which includes the client without access token, and the client has no
refresh token, `refresh` returns the error "refresh token is not set"; the
client is unchanged and the trace gains at most the validation request, so no
request goes to the token endpoint. (2) When the body of the validation
response decodes to an object whose "message" is the string "missing
authorization token", `validate` and `refresh` return an error with that
message, whatever the status code. -/
theorem refresh_without_refresh_token (env : Env) :
    (∀ (s sv : Sys),
      validate env s = (.ok false, sv) →
      s.client.refreshToken = none →
      refresh env s = (some (.message "refresh token is not set"), sv) ∧
      sv.client = s.client ∧
      (sv.trace = s.trace ∨
        ∃ accessToken, s.client.accessToken = some accessToken ∧
          sv.trace = s.trace ++ [.request (validateRequest accessToken)])) ∧
    (∀ (s : Sys) (accessToken : String) (vresp : Response)
        (vmap : List (String × JsonMember)),
      s.client.accessToken = some accessToken →
      env.newRequestErr "GET" validateURL = none →
      env.roundTrip s.trace (validateRequest accessToken) = .ok vresp →
      vresp.body.bind env.decodeMap = .ok vmap →
      vmap.lookup "message" = some (.string "missing authorization token") →
      validate env s
        = (.error (.message "missing authorization token"),
           s.log (.request (validateRequest accessToken))) ∧
      refresh env s
        = (some (.message "missing authorization token"),
           s.log (.request (validateRequest accessToken)))) := by
  constructor
  · intro s sv hval hrt
    have hstate := validate_ok_state env s sv false hval
    have hclient : sv.client = s.client := by
      rcases hstate with ⟨_, _, h⟩ | ⟨_, _, h⟩
      · rw [h]
      · rw [h]; rfl
    refine ⟨?_, hclient, ?_⟩
    · unfold refresh
      rw [hval]
      simp only [hclient, hrt]
    · rcases hstate with ⟨_, _, h⟩ | ⟨accessToken, htok, h⟩
      · exact Or.inl (by rw [h])
      · exact Or.inr ⟨accessToken, htok, by rw [h]; rfl⟩
  · intro s accessToken vresp vmap htok hvurl hv hvdec hvmsg
    have hval := validate_missing_authorization env s accessToken vresp vmap htok hvurl hv
      hvdec hvmsg
    refine ⟨hval, ?_⟩
    unfold refresh
    rw [hval]

/-- Witness for C15: the sample identity service rejects "expired", and the
refresh of a client holding it without refresh token fails with "refresh
token is not set" after the validation request; a service answering "missing
authorization token" makes `validate` and `refresh` fail with that
message. -/
theorem refresh_without_refresh_token_witness :
    (refresh sampleEnv (sampleSys (some "expired") none false)
        = (some (.message "refresh token is not set"),
           (sampleSys (some "expired") none false).log
             (.request (validateRequest "expired"))) ∧
      ((sampleSys (some "expired") none false).log
          (.request (validateRequest "expired"))).client
        = (sampleSys (some "expired") none false).client ∧
      (((sampleSys (some "expired") none false).log
            (.request (validateRequest "expired"))).trace
          = (sampleSys (some "expired") none false).trace ∨
        ∃ accessToken,
          (sampleSys (some "expired") none false).client.accessToken = some accessToken ∧
          ((sampleSys (some "expired") none false).log
              (.request (validateRequest "expired"))).trace
            = (sampleSys (some "expired") none false).trace
              ++ [.request (validateRequest accessToken)])) ∧
    (validate missingAuthEnv (sampleSys (some "") none false)
        = (.error (.message "missing authorization token"),
           (sampleSys (some "") none false).log (.request (validateRequest ""))) ∧
      refresh missingAuthEnv (sampleSys (some "") none false)
        = (some (.message "missing authorization token"),
           (sampleSys (some "") none false).log (.request (validateRequest "")))) :=
  ⟨(refresh_without_refresh_token sampleEnv).1 (sampleSys (some "expired") none false)
      ((sampleSys (some "expired") none false).log (.request (validateRequest "expired")))
      rfl rfl,
   (refresh_without_refresh_token missingAuthEnv).2 (sampleSys (some "") none false) ""
      (plainResponse 401 "missing")
      [("status", .other), ("message", .string "missing authorization token")]
      rfl rfl rfl rfl rfl⟩

/-- Claim C16 at its failing input. The sample identity service rejects the
refresh token "bad-refresh" with status 400 and a body without tokens, which
decodes to the zero `AuthEvent`. The exchange has failed: the counter goes
from 0 to 1 and both tokens stay as they were. `refresh` nevertheless emits
"refresh" with that empty payload and calls the registered handler, and it
returns nil, where the claim has no "refresh" event after a failed
exchange. -/
theorem refresh_emits_event_after_rejected_exchange :
    refresh sampleEnv (sampleSys (some "expired") (some "bad-refresh") false)
      = (none,
         { client := stuckClient 1
           trace := [.request (validateRequest "expired"),
             .request (refreshRequest sampleEnv
               (sampleClient (some "expired") (some "bad-refresh") false) "bad-refresh"),
             .emitted "refresh" (.auth zeroAuthEvent),
             .handled 1 (.auth zeroAuthEvent)] }) ∧
    (stuckClient 1).accessToken = some "expired" ∧
    (stuckClient 1).refreshToken = some "bad-refresh" ∧
    (sampleSys (some "expired") (some "bad-refresh") false).client.refreshAttempts = 0 ∧
    (stuckClient 1).refreshAttempts = 1 := by
  refine ⟨by decide, rfl, rfl, rfl, rfl⟩

/-- The run of `refresh` once `validate` has reported the access token as
not valid and the client holds a refresh token, so that the exchange request
is sent, by the three ways the exchange can end (transport error, body that
does not decode, decoded payload). -/
theorem refresh_exchange_outcome (env : Env) (s sv : Sys) (refreshToken : String)
    (hval : validate env s = (.ok false, sv))
    (hrt : s.client.refreshToken = some refreshToken)
    (hxurl : env.newRequestErr "POST" tokenURL = none) :
    sv.client = s.client ∧
    refresh env s
      = match env.roundTrip sv.trace (refreshRequest env s.client refreshToken) with
        | .error e =>
          (some (.library e),
           { client := s.client
             trace := sv.trace ++ [.request (refreshRequest env s.client refreshToken)] })
        | .ok xresp =>
          match xresp.body.bind env.decodeAuthEvent with
          | .error e =>
            (some (.library e),
             { client := s.client
               trace := sv.trace ++ [.request (refreshRequest env s.client refreshToken)] })
          | .ok ev =>
            (none,
             { client :=
                 { s.client with
                   accessToken := if ev.AccessToken ≠ "" then some ev.AccessToken
                     else s.client.accessToken
                   refreshToken := if ev.RefreshToken ≠ "" then some ev.RefreshToken
                     else s.client.refreshToken
                   refreshAttempts := if ev.AccessToken = "" then s.client.refreshAttempts + 1
                     else s.client.refreshAttempts }
               trace := sv.trace ++ [.request (refreshRequest env s.client refreshToken)]
                 ++ emitEffects s.client "refresh" (.auth ev) }) := by
  have hclient : sv.client = s.client := by
    rcases validate_ok_state env s sv false hval with ⟨_, _, h⟩ | ⟨_, _, h⟩
    · rw [h]
    · rw [h]; rfl
  refine ⟨hclient, ?_⟩
  unfold refresh
  rw [hval]
  simp only [hclient, hrt, hxurl, doRequest]
  cases env.roundTrip sv.trace (refreshRequest env s.client refreshToken) with
  | error e => simp [Sys.log, hclient]
  | ok xresp =>
    simp only
    cases xresp.body.bind env.decodeAuthEvent with
    | error e => simp [Sys.log, hclient]
    | ok ev =>
      by_cases hA : ev.AccessToken = "" <;> by_cases hR : ev.RefreshToken = "" <;>
        simp [hA, hR, emit_eq, Sys.log, Sys.setAccessToken, Sys.setRefreshToken,
          Sys.countRefreshAttempt, emitEffects, hclient, hrt]

/-- The sample identity service rejects "expired" and grants "fresh-token"
with the refresh token "next-refresh" to "good-refresh"; both tokens are
replaced, the counter stays at 0 and "refresh" is emitted once with the
payload. -/
theorem refresh_replaces_tokens_on_grant :
    refresh sampleEnv (sampleSys (some "expired") (some "good-refresh") false)
      = (none,
         { client := sampleClient (some "fresh-token") (some "next-refresh") false
           trace := [.request (validateRequest "expired"),
             .request (refreshRequest sampleEnv
               (sampleClient (some "expired") (some "good-refresh") false) "good-refresh"),
             .emitted "refresh"
               (.auth { AccessToken := "fresh-token", RefreshToken := "next-refresh",
                        TokenType := some "bearer", ExpiresIn := 14400, Scope := [] }),
             .handled 1
               (.auth { AccessToken := "fresh-token", RefreshToken := "next-refresh",
                        TokenType := some "bearer", ExpiresIn := 14400, Scope := [] })] }) :=
  (refresh_exchange_outcome sampleEnv (sampleSys (some "expired") (some "good-refresh") false)
    ((sampleSys (some "expired") (some "good-refresh") false).log
      (.request (validateRequest "expired")))
    "good-refresh" rfl rfl rfl).2

/-! ## Scope-gated endpoint methods: claim C17 -/

/-- Claim C17: each of the thirteen endpoint methods that test a scope
returns its "missing scope: ..." error when the client's scope list lacks
the scope (for `GetUserActiveExtensions`: lacks both scopes it accepts), in
the state it was called in: the trace gains no request or other effect and
the client is unchanged, whatever the options, the recursion budget and the
environment. -/
theorem endpoint_rejects_missing_scope {α : Type} (env : Env)
    (decode : String → Except String α) (decodeKeys : String → Except String (List String))
    (marshal : GoValue → Except String String) (fuel : Nat) (s : Sys) :
    (hasScope s.client ScopeBitsRead = false →
      ∀ options, GetBitsLeaderboard env decode fuel s options
        = (.error (.message "missing scope: bits:read"), s)) ∧
    (hasScope s.client ScopeChannelReadSubscriptions = false →
      ∀ options, GetSubs env decode fuel s options
        = (.error (.message "missing scope: channel:read:subscriptions"), s)) ∧
    (hasScope s.client ScopeModerationRead = false →
      ∀ options, GetBannedUsers env decode fuel s options
        = (.error (.message "missing scope: moderation:read"), s)) ∧
    (hasScope s.client ScopeUserReadBroadcast = false →
      ∀ options, GetStreamMarkers env decode fuel s options
        = (.error (.message "missing scope: user:read:broadcast"), s)) ∧
    (hasScope s.client ScopeUserReadBroadcast = false →
      GetUserExtensions env decode fuel s
        = (.error (.message "missing scope: user:read:broadcast"), s)) ∧
    (hasScope s.client ScopeUserReadBroadcast = false →
      hasScope s.client ScopeUserEditBroadcast = false →
      ∀ options, GetUserActiveExtensions env decode fuel s options
        = (.error (.message "missing scope: user:read:broadcast or user:edit:broadcast"),
           s)) ∧
    (hasScope s.client ScopeUserEditBroadcast = false →
      ∀ options, ModifyChannelInformation env fuel s options
        = (.error (.message "missing scope: user:edit:broadcast"), s)) ∧
    (hasScope s.client ScopeUserEdit = false →
      ∀ options, UpdateUser env decode fuel s options
        = (.error (.message "missing scope: user:edit"), s)) ∧
    (hasScope s.client ScopeClipsEdit = false →
      ∀ options, CreateClip env decode fuel s options
        = (.error (.message "missing scope: clips:edit"), s)) ∧
    (hasScope s.client ScopeModerationRead = false →
      ∀ options, GetModerators env decode fuel s options
        = (.error (.message "missing scope: moderation:read"), s)) ∧
    (hasScope s.client ScopeChannelEditCommercial = false →
      ∀ options, StartCommercial env decode fuel s options
        = (.error (.message "missing scope: channel:edit:commercial"), s)) ∧
    (hasScope s.client ScopeChannelReadStreamKey = false →
      ∀ options, GetStreamKey env decodeKeys fuel s options
        = (.error (.message "missing scope: channel:read:stream_key"), s)) ∧
    (hasScope s.client ScopeUserBot = false →
      ∀ options, SendChatMessage env decode marshal fuel s options
        = (.error (.message "missing scope: user:bot"), s)) := by
  refine ⟨?_, ?_, ?_, ?_, ?_, ?_, ?_, ?_, ?_, ?_, ?_, ?_, ?_⟩
  · intro h options; simp [GetBitsLeaderboard, h]
  · intro h options; simp [GetSubs, h]
  · intro h options; simp [GetBannedUsers, h]
  · intro h options; simp [GetStreamMarkers, h]
  · intro h; simp [GetUserExtensions, h]
  · intro h h2 options; simp [GetUserActiveExtensions, h, h2]
  · intro h options; simp [ModifyChannelInformation, h]
  · intro h options; simp [UpdateUser, h]
  · intro h options; simp [CreateClip, h]
  · intro h options; simp [GetModerators, h]
  · intro h options; simp [StartCommercial, h]
  · intro h options; simp [GetStreamKey, h]
  · intro h options; simp [SendChatMessage, h]

/-- Witness for C17: a client holding the scope "user:read:chat" only has
neither "bits:read" nor "clips:edit"; `GetBitsLeaderboard` without options
and `CreateClip` fail with the scope error and leave the state as it was. -/
theorem endpoint_rejects_missing_scope_witness :
    GetBitsLeaderboard sampleEnv (fun body => Except.ok body) 5
        { client := { sampleClient (some "token") none false with
                      scopes := [ScopeUserReadChat] }
          trace := [] } none
      = (.error (.message "missing scope: bits:read"),
         { client := { sampleClient (some "token") none false with
                       scopes := [ScopeUserReadChat] }
           trace := [] }) ∧
    CreateClip sampleEnv (fun body => Except.ok body) 5
        { client := { sampleClient (some "token") none false with
                      scopes := [ScopeUserReadChat] }
          trace := [] }
        (.struct [(exportedField "BroadcasterID" "broadcaster_id", .str "123"),
                  (exportedField "HasDelay" "has_delay,omitempty", .nilPtr)])
      = (.error (.message "missing scope: clips:edit"),
         { client := { sampleClient (some "token") none false with
                       scopes := [ScopeUserReadChat] }
           trace := [] }) :=
  ⟨(endpoint_rejects_missing_scope sampleEnv (fun body => Except.ok body)
      (fun body => Except.ok [body]) (fun _ => Except.ok "")
      5 { client := { sampleClient (some "token") none false with
                      scopes := [ScopeUserReadChat] }
          trace := [] }).1 (by decide) none,
   (endpoint_rejects_missing_scope sampleEnv (fun body => Except.ok body)
      (fun body => Except.ok [body]) (fun _ => Except.ok "")
      5 { client := { sampleClient (some "token") none false with
                      scopes := [ScopeUserReadChat] }
          trace := [] }).2.2.2.2.2.2.2.2.1 (by decide) _⟩

/-! ## Rate-limit headers: claims C18 and C19 -/

theorem ParseInt_value (cs : List Char) (h : (ParseInt cs).2 = none) :
    (ParseInt cs).1 = signedValue ⟨cs⟩ := by
  by_cases hcs : cs = []
  · subst hcs
    simp [ParseInt] at h
  · unfold ParseInt at h ⊢
    simp only [hcs, if_false] at h ⊢
    rw [show (if cs.head? = some '+' ∨ cs.head? = some '-' then cs.tail else cs)
      = unsignedPart ⟨cs⟩ from rfl] at h ⊢
    by_cases hU : (ParseUint (unsignedPart ⟨cs⟩)).2 = none
    · have hval := (ParseUint_ok _).2 hU
      simp only [hU, ne_eq, not_true_eq_false, false_and, if_false, hval] at h ⊢
      split at h
      · cases h
      · split at h
        · cases h
        · rename_i h1 h2
          simp only [h1, h2, if_false, signedValue]
          by_cases hneg : cs.head? = some '-' <;> simp [hneg]
    · rcases ParseUint_error _ hU with hsyn | ⟨hrng, hmax⟩
      · simp [hsyn] at h
      · simp only [hrng, hmax, intSize] at h
        by_cases hneg : cs.head? = some '-' <;> simp [hneg] at h

theorem ParseInt_syntax_zero (cs : List Char) (h : (ParseInt cs).2 = some .errSyntax) :
    (ParseInt cs).1 = 0 := by
  by_cases hcs : cs = []
  · subst hcs
    simp [ParseInt]
  · unfold ParseInt at h ⊢
    simp only [hcs, if_false] at h ⊢
    rw [show (if cs.head? = some '+' ∨ cs.head? = some '-' then cs.tail else cs)
      = unsignedPart ⟨cs⟩ from rfl] at h ⊢
    by_cases hE : (ParseUint (unsignedPart ⟨cs⟩)).2 ≠ none
        ∧ (ParseUint (unsignedPart ⟨cs⟩)).2 ≠ some .errRange
    · rw [if_pos hE]
    · rw [if_neg hE] at h
      exfalso
      by_cases h3 : (!decide (cs.head? = some '-')
          && decide ((ParseUint (unsignedPart ⟨cs⟩)).1 ≥ 2 ^ (intSize - 1))) = true
      · rw [if_pos h3] at h
        cases h
      · rw [if_neg h3] at h
        by_cases h4 : (decide (cs.head? = some '-')
            && decide ((ParseUint (unsignedPart ⟨cs⟩)).1 > 2 ^ (intSize - 1))) = true
        · rw [if_pos h4] at h
          cases h
        · rw [if_neg h4] at h
          cases h

theorem atoiFastLoop_error (cs : List Char) (n : Int) (h : (atoiFastLoop cs n).2 ≠ none) :
    atoiFastLoop cs n = (0, some .errSyntax) := by
  induction cs generalizing n with
  | nil => simp [atoiFastLoop] at h
  | cons c cs ih =>
    simp only [atoiFastLoop] at h ⊢
    split
    · rfl
    · rename_i hc
      simp only [hc, if_false] at h
      exact ih _ h

theorem Atoi_fast (s : String) (hfast : 0 < s.utf8ByteSize ∧ s.utf8ByteSize < 19) :
    Atoi s = if isSignedDecimal s = true then (signedValue s, none)
      else (0, some .errSyntax) := by
  obtain ⟨cs⟩ := s
  have hcs : cs ≠ [] := by
    intro h
    subst h
    simp [String.utf8ByteSize, String.utf8ByteSize.go] at hfast
  unfold Atoi
  simp only [intSize, hfast, and_self, if_true, true_and]
  rw [show (if cs.head? = some '-' ∨ cs.head? = some '+' then cs.tail else cs)
    = unsignedPart ⟨cs⟩ from by
      unfold unsignedPart
      by_cases h1 : cs.head? = some '-' <;> by_cases h2 : cs.head? = some '+' <;>
        simp [h1, h2]]
  by_cases hbad : (cs.head? = some '-' ∨ cs.head? = some '+') ∧
      (unsignedPart ⟨cs⟩).length < 1
  · rw [if_pos hbad]
    have hempty : unsignedPart ⟨cs⟩ = [] := List.length_eq_zero.mp (by omega)
    simp [isSignedDecimal, hempty]
  · rw [if_neg hbad]
    have hne : unsignedPart ⟨cs⟩ ≠ [] := by
      intro hempty
      by_cases hs : cs.head? = some '-' ∨ cs.head? = some '+'
      · exact hbad ⟨hs, by simp [hempty]⟩
      · have : unsignedPart ⟨cs⟩ = cs := by
          unfold unsignedPart
          have hs2 : ¬ (cs.head? = some '+' ∨ cs.head? = some '-') := by tauto
          simp [hs2]
        exact hcs (this ▸ hempty)
    have hloop := atoiFastLoop_ok (unsignedPart ⟨cs⟩) 0
    simp only [Nat.cast_zero] at hloop
    by_cases hall : (unsignedPart ⟨cs⟩).all isDecimalDigit = true
    · have hok := hloop.mpr hall
      have hvalue := atoiFastLoop_value (unsignedPart ⟨cs⟩) 0 hall
      simp only [Nat.cast_zero] at hvalue
      have hsd : isSignedDecimal ⟨cs⟩ = true := by
        simp only [isSignedDecimal, Bool.and_eq_true, Bool.not_eq_true',
          List.isEmpty_eq_false]
        exact ⟨hne, hall⟩
      simp only [hok, ne_eq, not_true_eq_false, if_false, hsd, if_true, hvalue, signedValue]
    · have hnot : (atoiFastLoop (unsignedPart ⟨cs⟩) 0).2 ≠ none := fun h => hall (hloop.mp h)
      have hsd : ¬ isSignedDecimal ⟨cs⟩ = true := by
        simp only [isSignedDecimal, Bool.and_eq_true, Bool.not_eq_true',
          List.isEmpty_eq_false]
        exact fun h => hall h.2
      rw [if_pos hnot, if_neg hsd, atoiFastLoop_error _ _ hnot]

theorem Atoi_value (s : String) (h : (Atoi s).2 = none) : (Atoi s).1 = signedValue s := by
  by_cases hfast : 0 < s.utf8ByteSize ∧ s.utf8ByteSize < 19
  · have hsd := ((Atoi_isOk s).mp h).1
    rw [Atoi_fast s hfast, if_pos hsd]
  · unfold Atoi at h ⊢
    simp only [intSize, hfast, and_false, if_false, true_and] at h ⊢
    exact ParseInt_value s.data h

theorem Atoi_syntax_zero (s : String) (h : (Atoi s).2 = some .errSyntax) :
    (Atoi s).1 = 0 := by
  by_cases hfast : 0 < s.utf8ByteSize ∧ s.utf8ByteSize < 19
  · rw [Atoi_fast s hfast] at h ⊢
    by_cases hsd : isSignedDecimal s = true
    · rw [if_pos hsd] at h
      cases h
    · rw [if_neg hsd]
  · unfold Atoi at h ⊢
    simp only [intSize, hfast, and_false, if_false, true_and] at h ⊢
    exact ParseInt_syntax_zero s.data h

theorem Atoi_short_invalid (s : String) (hshort : s.utf8ByteSize < 19)
    (hsd : isSignedDecimal s = false) : Atoi s = (0, some .errSyntax) := by
  by_cases hpos : 0 < s.utf8ByteSize
  · rw [Atoi_fast s ⟨hpos, hshort⟩, if_neg (by rw [hsd]; decide)]
  · have hlen := utf8ByteSize_ge s
    have hdata : s.data = [] := List.length_eq_zero.mp (by omega)
    unfold Atoi
    have hno : ¬ (0 < s.utf8ByteSize ∧ s.utf8ByteSize < 19) := fun h => hpos h.1
    simp only [intSize, hno, and_false, if_false, hdata]
    rfl

theorem Atoi_range_value (s : String) (h : (Atoi s).2 = some .errRange) :
    (Atoi s).1 = 2 ^ 63 - 1 ∨ (Atoi s).1 = -(2 ^ 63) := by
  by_cases hfast : 0 < s.utf8ByteSize ∧ s.utf8ByteSize < 19
  · rw [Atoi_fast s hfast] at h
    by_cases hsd : isSignedDecimal s = true
    · rw [if_pos hsd] at h
      cases h
    · rw [if_neg hsd] at h
      cases h
  · unfold Atoi at h ⊢
    simp only [intSize, hfast, and_false, if_false, true_and] at h ⊢
    by_cases hcs : s.data = []
    · rw [hcs] at h
      simp [ParseInt] at h
    · unfold ParseInt at h ⊢
      simp only [hcs, if_false] at h ⊢
      rw [show (if s.data.head? = some '+' ∨ s.data.head? = some '-' then s.data.tail
        else s.data) = unsignedPart s from rfl] at h ⊢
      by_cases hE : (ParseUint (unsignedPart s)).2 ≠ none
          ∧ (ParseUint (unsignedPart s)).2 ≠ some .errRange
      · rw [if_pos hE] at h
        exact absurd h hE.2
      · rw [if_neg hE] at h ⊢
        by_cases h3 : (!decide (s.data.head? = some '-')
            && decide ((ParseUint (unsignedPart s)).1 ≥ 2 ^ (intSize - 1))) = true
        · rw [if_pos h3]
          left
          simp only [intSize]
          norm_num
        · rw [if_neg h3] at h ⊢
          by_cases h4 : (decide (s.data.head? = some '-')
              && decide ((ParseUint (unsignedPart s)).1 > 2 ^ (intSize - 1))) = true
          · rw [if_pos h4]
            right
            simp only [intSize]
            norm_num
          · rw [if_neg h4] at h
            cases h

/-- Counterexample for C18 as stated: "9223372036854775808" is a decimal
integer, and the field read from it is 9223372036854775807, the largest
`int`, which `strconv.Atoi` returns together with its range error. -/
theorem extractRateLimit_saturates_large_header :
    isSignedDecimal "9223372036854775808" = true ∧
    signedValue "9223372036854775808" = 9223372036854775808 ∧
    extractRateLimit [("Ratelimit-Limit", "9223372036854775808"),
        ("Ratelimit-Remaining", "799"), ("Ratelimit-Reset", "1234567890")]
      = { Limit := 9223372036854775807, Remaining := 799, Reset := 1234567890 } := by
  decide

/-- Claim C18, amended: a field of the snapshot whose header value is an
optional sign followed by decimal digits, with a value in the range of `int`
(from -2^63 to 2^63 - 1), is exactly that value; this holds for each of the
three fields on its own. -/
theorem extractRateLimit_decimal_headers (headers : Header) :
    ∀ p ∈ [(TwitchApiRateLimit.Limit, "Ratelimit-Limit"),
        (TwitchApiRateLimit.Remaining, "Ratelimit-Remaining"),
        (TwitchApiRateLimit.Reset, "Ratelimit-Reset")],
      isSignedDecimal (headers.Get p.2) = true →
      -(2 ^ 63 : Int) ≤ signedValue (headers.Get p.2) →
      signedValue (headers.Get p.2) ≤ 2 ^ 63 - 1 →
      p.1 (extractRateLimit headers) = signedValue (headers.Get p.2) := by
  intro p hp hsd hlo hhi
  have hvalue := Atoi_value (headers.Get p.2) ((Atoi_isOk _).mpr ⟨hsd, hlo, hhi⟩)
  simp only [List.mem_cons, List.mem_singleton, List.not_mem_nil, or_false] at hp
  rcases hp with rfl | rfl | rfl <;> exact hvalue

/-- Witness for C18: the headers "800", "799" and "1234567890" of the test
give the snapshot with the fields 800, 799 and 1234567890. -/
theorem extractRateLimit_decimal_headers_witness :
    (extractRateLimit [("Ratelimit-Limit", "800"), ("Ratelimit-Remaining", "799"),
        ("Ratelimit-Reset", "1234567890")]).Limit = 800 ∧
    (extractRateLimit [("Ratelimit-Limit", "800"), ("Ratelimit-Remaining", "799"),
        ("Ratelimit-Reset", "1234567890")]).Remaining = 799 ∧
    (extractRateLimit [("Ratelimit-Limit", "800"), ("Ratelimit-Remaining", "799"),
        ("Ratelimit-Reset", "1234567890")]).Reset = 1234567890 :=
  ⟨extractRateLimit_decimal_headers
      [("Ratelimit-Limit", "800"), ("Ratelimit-Remaining", "799"),
        ("Ratelimit-Reset", "1234567890")]
      (TwitchApiRateLimit.Limit, "Ratelimit-Limit") (by simp)
      (by decide) (by decide) (by decide),
   extractRateLimit_decimal_headers
      [("Ratelimit-Limit", "800"), ("Ratelimit-Remaining", "799"),
        ("Ratelimit-Reset", "1234567890")]
      (TwitchApiRateLimit.Remaining, "Ratelimit-Remaining") (by simp)
      (by decide) (by decide) (by decide),
   extractRateLimit_decimal_headers
      [("Ratelimit-Limit", "800"), ("Ratelimit-Remaining", "799"),
        ("Ratelimit-Reset", "1234567890")]
      (TwitchApiRateLimit.Reset, "Ratelimit-Reset") (by simp)
      (by decide) (by decide) (by decide)⟩

/-- Claim C19 at its failing input. The header value "99999999999999999999x"
is not an integer, and the field read from it is 9223372036854775807 where
the claim has 0: `strconv.Atoi` meets the overflow at the twentieth digit,
before the letter, and returns the largest `int` with a range error, which
`extractRateLimit` drops. The two fields without a header are 0. -/
theorem extractRateLimit_nonzero_for_invalid_header :
    isSignedDecimal "99999999999999999999x" = false ∧
    Atoi "99999999999999999999x" = (9223372036854775807, some .errRange) ∧
    extractRateLimit [("Ratelimit-Limit", "99999999999999999999x")]
      = { Limit := 9223372036854775807, Remaining := 0, Reset := 0 } := by
  decide

/-- Each of the three fields is the value `strconv.Atoi` returns for its own
header, whatever the error: 0 when the header is absent, when `strconv.Atoi`
reports a syntax error, and in particular when the value is shorter than 19
bytes and is not an optional sign followed by decimal digits; the largest or
the smallest `int` when `strconv.Atoi` reports a range error. -/
theorem extractRateLimit_field_eq_Atoi (headers : Header) :
    ∀ p ∈ [(TwitchApiRateLimit.Limit, "Ratelimit-Limit"),
        (TwitchApiRateLimit.Remaining, "Ratelimit-Remaining"),
        (TwitchApiRateLimit.Reset, "Ratelimit-Reset")],
      p.1 (extractRateLimit headers) = (Atoi (headers.Get p.2)).1 ∧
      (headers.lookup p.2 = none → p.1 (extractRateLimit headers) = 0) ∧
      ((Atoi (headers.Get p.2)).2 = some .errSyntax → p.1 (extractRateLimit headers) = 0) ∧
      ((headers.Get p.2).utf8ByteSize < 19 → isSignedDecimal (headers.Get p.2) = false →
        p.1 (extractRateLimit headers) = 0) ∧
      ((Atoi (headers.Get p.2)).2 = some .errRange →
        p.1 (extractRateLimit headers) = 2 ^ 63 - 1 ∨
          p.1 (extractRateLimit headers) = -(2 ^ 63)) := by
  intro p hp
  have hfield : p.1 (extractRateLimit headers) = (Atoi (headers.Get p.2)).1 := by
    simp only [List.mem_cons, List.mem_singleton, List.not_mem_nil, or_false] at hp
    rcases hp with rfl | rfl | rfl <;> rfl
  rw [hfield]
  refine ⟨rfl, ?_, Atoi_syntax_zero _, ?_, Atoi_range_value _⟩
  · intro habsent
    have hget : headers.Get p.2 = "" := by
      unfold Header.Get
      rw [habsent]
    rw [hget]
    rfl
  · intro hshort hsd
    rw [Atoi_short_invalid _ hshort hsd]

/-- With the limit "invalid", no header for the remaining requests and the
reset "1234567890", the first two fields are 0. -/
theorem extractRateLimit_zero_for_invalid_and_absent :
    (extractRateLimit [("Ratelimit-Limit", "invalid"),
        ("Ratelimit-Reset", "1234567890")]).Limit = 0 ∧
    (extractRateLimit [("Ratelimit-Limit", "invalid"),
        ("Ratelimit-Reset", "1234567890")]).Remaining = 0 :=
  ⟨(extractRateLimit_field_eq_Atoi
      [("Ratelimit-Limit", "invalid"), ("Ratelimit-Reset", "1234567890")]
      (TwitchApiRateLimit.Limit, "Ratelimit-Limit") (by simp)).2.2.2.1
      (by decide) (by decide),
   (extractRateLimit_field_eq_Atoi
      [("Ratelimit-Limit", "invalid"), ("Ratelimit-Reset", "1234567890")]
      (TwitchApiRateLimit.Remaining, "Ratelimit-Remaining") (by simp)).2.1 (by decide)⟩

/-! ## Event handlers: claim C20 -/

theorem lookup_replaced {β : Type} (l : List (String × β)) (key : String) (value : β) :
    (l.filter (fun entry => entry.1 != key) ++ [(key, value)]).lookup key = some value := by
  induction l with
  | nil => simp [List.lookup]
  | cons entry rest ih =>
    by_cases h : entry.1 = key
    · simp only [List.filter_cons, h, bne_self_eq_false, Bool.false_eq_true, if_false]
      exact ih
    · have hne : (entry.1 != key) = true := by simp [h]
      have hkey : (key == entry.1) = false := by
        simp only [beq_eq_false_iff_ne, ne_eq]
        exact fun h2 => h h2.symm
      simp only [List.filter_cons, hne, if_true, List.cons_append]
      obtain ⟨k, v⟩ := entry
      simp only [List.lookup, hkey]
      exact ih

theorem lookup_other {β : Type} (l : List (String × β)) (key other : String) (value : β)
    (hne : other ≠ key) :
    (l.filter (fun entry => entry.1 != key) ++ [(key, value)]).lookup other
      = l.lookup other := by
  have hother : (other == key) = false := by simp [hne]
  induction l with
  | nil => simp [List.lookup, hother]
  | cons entry rest ih =>
    obtain ⟨k, v⟩ := entry
    by_cases h : k = key
    · subst h
      simp only [List.filter_cons, bne_self_eq_false, Bool.false_eq_true, if_false, List.lookup,
        hother]
      exact ih
    · have hk : (k != key) = true := by simp [h]
      simp only [List.filter_cons, hk, if_true, List.cons_append, List.lookup]
      cases other == k
      · exact ih
      · rfl

theorem handlersOf_AddEventHandler (c : Client) (event : String) (handler : Nat)
    (other : String) :
    handlersOf (AddEventHandler c event handler) other
      = if event = other then handlersOf c other ++ [handler] else handlersOf c other := by
  unfold handlersOf AddEventHandler
  by_cases h : event = other
  · subst h
    simp only [if_true, lookup_replaced]
    rfl
  · rw [if_neg h]
    simp only
    rw [lookup_other _ _ _ _ (fun h2 => h h2.symm)]

theorem handlersOf_addEventHandlers (c : Client) (calls : List (String × Nat))
    (event : String) :
    handlersOf (addEventHandlers c calls) event
      = handlersOf c event
        ++ (calls.filter (fun call => decide (call.1 = event))).map (fun call => call.2) := by
  induction calls generalizing c with
  | nil => simp [addEventHandlers]
  | cons call rest ih =>
    have hstep : addEventHandlers c (call :: rest)
        = addEventHandlers (AddEventHandler c call.1 call.2) rest := rfl
    rw [hstep, ih, handlersOf_AddEventHandler]
    by_cases h : call.1 = event
    · simp [List.filter_cons, h]
    · simp [List.filter_cons, h]

theorem emitEffects_handlersOf (c : Client) (event : String) (data : Payload) :
    emitEffects c event data
      = .emitted event data :: (handlersOf c event).map (fun handler => .handled handler data) := by
  unfold emitEffects handlersOf
  cases c.eventHandlers.lookup event <;> rfl

/-- Claim C20: after any sequence of `AddEventHandler` calls on a client,
`emit` of an event with a payload leaves the client as it is and calls, with
that payload, the handlers the client held for the event before, and then
one handler for each call in the sequence that names the event, in the order
of the calls, a handler registered twice being called twice; calls that name
another event add nothing. On a client made by `CreateTwitchApi`, whose map
is empty before the calls, these are the registered handlers only, and for
an event without registration the trace gains the mark of the `emit` call and
no handler call. -/
theorem emit_runs_registered_handlers (c : Client) (calls : List (String × Nat))
    (trace : List Effect) (event : String) (data : Payload) :
    emit { client := addEventHandlers c calls, trace := trace } event data
      = { client := addEventHandlers c calls
          trace := trace ++ [.emitted event data]
            ++ (handlersOf c event).map (fun handler => .handled handler data)
            ++ (calls.filter (fun call => decide (call.1 = event))).map
                (fun call => .handled call.2 data) } ∧
    (c.eventHandlers = [] → handlersOf c event = []) ∧
    (c.eventHandlers = [] → (calls.filter (fun call => decide (call.1 = event))) = [] →
      emit { client := addEventHandlers c calls, trace := trace } event data
        = { client := addEventHandlers c calls, trace := trace ++ [.emitted event data] }) := by
  have hmain : emit { client := addEventHandlers c calls, trace := trace } event data
      = { client := addEventHandlers c calls
          trace := trace ++ [.emitted event data]
            ++ (handlersOf c event).map (fun handler => .handled handler data)
            ++ (calls.filter (fun call => decide (call.1 = event))).map
                (fun call => .handled call.2 data) } := by
    rw [emit_eq, emitEffects_handlersOf, handlersOf_addEventHandlers]
    simp
  have hfresh : c.eventHandlers = [] → handlersOf c event = [] := by
    intro h
    simp [handlersOf, h]
  refine ⟨hmain, hfresh, ?_⟩
  intro h hnone
  rw [hmain, hfresh h, hnone]
  simp

/-- Witness for C20: on a client with an empty map, handler 7 is registered
for "test_event", handler 8 for "other_event" and handler 7 again for
"test_event"; emitting "test_event" calls handler 7 twice and handler 8 not at
all, and emitting "non_existent_event" calls no handler. -/
theorem emit_runs_registered_handlers_witness :
    (emit { client := addEventHandlers
              { sampleClient none none false with eventHandlers := [] }
              [("test_event", 7), ("other_event", 8), ("test_event", 7)]
            trace := [] } "test_event" (.other "test_data")).trace
      = [.emitted "test_event" (.other "test_data"), .handled 7 (.other "test_data"),
         .handled 7 (.other "test_data")] ∧
    emit { client := addEventHandlers
              { sampleClient none none false with eventHandlers := [] }
              [("test_event", 7), ("other_event", 8), ("test_event", 7)]
           trace := [] } "non_existent_event" (.other "should not panic")
      = { client := addEventHandlers
              { sampleClient none none false with eventHandlers := [] }
              [("test_event", 7), ("other_event", 8), ("test_event", 7)]
          trace := [] ++ [.emitted "non_existent_event" (.other "should not panic")] } :=
  ⟨congrArg Sys.trace (emit_runs_registered_handlers
      { sampleClient none none false with eventHandlers := [] }
      [("test_event", 7), ("other_event", 8), ("test_event", 7)] [] "test_event"
      (.other "test_data")).1,
   (emit_runs_registered_handlers
      { sampleClient none none false with eventHandlers := [] }
      [("test_event", 7), ("other_event", 8), ("test_event", 7)] []
      "non_existent_event" (.other "should not panic")).2.2 rfl rfl⟩

/-! ## Event removal and scopes: claims C21 to C23 -/

theorem lookup_removed {β : Type} (l : List (String × β)) (key : String) :
    (l.filter (fun entry => entry.1 != key)).lookup key = none := by
  induction l with
  | nil => rfl
  | cons entry rest ih =>
    obtain ⟨k, v⟩ := entry
    by_cases h : k = key
    · subst h
      simp only [List.filter_cons, bne_self_eq_false, Bool.false_eq_true, if_false]
      exact ih
    · have hk : (k != key) = true := by simp [h]
      have hkey : (key == k) = false := by
        simp only [beq_eq_false_iff_ne, ne_eq]
        exact fun h2 => h h2.symm
      simp only [List.filter_cons, hk, if_true, List.lookup, hkey]
      exact ih

theorem lookup_kept {β : Type} (l : List (String × β)) (key other : String)
    (hne : other ≠ key) :
    (l.filter (fun entry => entry.1 != key)).lookup other = l.lookup other := by
  have hother : (other == key) = false := by simp [hne]
  induction l with
  | nil => rfl
  | cons entry rest ih =>
    obtain ⟨k, v⟩ := entry
    by_cases h : k = key
    · subst h
      simp only [List.filter_cons, bne_self_eq_false, Bool.false_eq_true, if_false, List.lookup,
        hother]
      exact ih
    · have hk : (k != key) = true := by simp [h]
      simp only [List.filter_cons, hk, if_true, List.lookup]
      cases other == k
      · exact ih
      · rfl

/-- Claim C21: after `RemoveEventHandler` for an event the map has no entry
for it, so `emit` of that event calls no handler: the trace gains the mark
of the `emit` call only. For every other event name the handler list is the
one the client held before, and `emit` of it has the same effects as before.
All other fields of the client are unchanged. -/
theorem RemoveEventHandler_removes_only_that_event (c : Client) (event : String) :
    (RemoveEventHandler c event).eventHandlers.lookup event = none ∧
    handlersOf (RemoveEventHandler c event) event = [] ∧
    (∀ trace data,
      emit { client := RemoveEventHandler c event, trace := trace } event data
        = { client := RemoveEventHandler c event, trace := trace ++ [.emitted event data] }) ∧
    (∀ other, other ≠ event →
      (RemoveEventHandler c event).eventHandlers.lookup other = c.eventHandlers.lookup other ∧
      handlersOf (RemoveEventHandler c event) other = handlersOf c other ∧
      ∀ data, emitEffects (RemoveEventHandler c event) other data
        = emitEffects c other data) ∧
    RemoveEventHandler c event
      = { c with eventHandlers := (RemoveEventHandler c event).eventHandlers } := by
  have hgone : (RemoveEventHandler c event).eventHandlers.lookup event = none :=
    lookup_removed c.eventHandlers event
  have hkept : ∀ other, other ≠ event →
      (RemoveEventHandler c event).eventHandlers.lookup other
        = c.eventHandlers.lookup other :=
    fun other hne => lookup_kept c.eventHandlers event other hne
  refine ⟨hgone, by simp [handlersOf, hgone], ?_, ?_, rfl⟩
  · intro trace data
    rw [emit_eq]
    simp [emitEffects, hgone]
  · intro other hne
    refine ⟨hkept other hne, by simp [handlersOf, hkept other hne], ?_⟩
    intro data
    simp only [emitEffects, hkept other hne]

/-- Witness for C21: handler 7 is registered for "test_event" and handler 8
for "other_event"; after removing "test_event" its emission calls no handler
and that of "other_event" still calls handler 8. -/
theorem RemoveEventHandler_removes_only_that_event_witness :
    emit { client := RemoveEventHandler
             (addEventHandlers { sampleClient none none false with eventHandlers := [] }
               [("test_event", 7), ("other_event", 8)]) "test_event"
           trace := [] } "test_event" (.other "data")
      = { client := RemoveEventHandler
            (addEventHandlers { sampleClient none none false with eventHandlers := [] }
              [("test_event", 7), ("other_event", 8)]) "test_event"
          trace := [] ++ [.emitted "test_event" (.other "data")] } ∧
    emitEffects (RemoveEventHandler
        (addEventHandlers { sampleClient none none false with eventHandlers := [] }
          [("test_event", 7), ("other_event", 8)]) "test_event")
        "other_event" (.other "data")
      = [.emitted "other_event" (.other "data"), .handled 8 (.other "data")] :=
  ⟨(RemoveEventHandler_removes_only_that_event
      (addEventHandlers { sampleClient none none false with eventHandlers := [] }
        [("test_event", 7), ("other_event", 8)]) "test_event").2.2.1 [] (.other "data"),
   ((RemoveEventHandler_removes_only_that_event
      (addEventHandlers { sampleClient none none false with eventHandlers := [] }
        [("test_event", 7), ("other_event", 8)]) "test_event").2.2.2.1
      "other_event" (by decide)).2.2 (.other "data")⟩

theorem filterLoop_eq {α : Type} (p : α → Bool) (xs acc : List α) :
    xs.foldl (fun result x => if p x then result ++ [x] else result) acc
      = acc ++ xs.filter p := by
  induction xs generalizing acc with
  | nil => simp
  | cons x rest ih =>
    simp only [List.foldl_cons, List.filter_cons]
    rw [ih]
    by_cases hx : p x = true
    · simp [hx]
    · simp [hx]

/-- Claim C22: `Scope.IsValid` holds exactly for the members of `AllScopes`;
`AllScopes` is the list of the eighteen scope strings in the order of their
declaration, which are pairwise distinct; "", "random" and "invalid:scope"
are not valid. -/
theorem IsValid_iff_mem_AllScopes :
    (∀ s, Scope.IsValid s = true ↔ s ∈ AllScopes) ∧
    AllScopes.length = 18 ∧
    AllScopes.Nodup ∧
    AllScopes
      = ["analytics:read:extensions", "analytics:read:games", "bits:read",
         "channel:edit:commercial", "channel:read:hype_train", "channel:read:subscriptions",
         "channel:read:stream_key", "channel:bot", "clips:edit", "user:edit",
         "user:edit:broadcast", "user:edit:follows", "user:read:broadcast", "user:read:email",
         "user:read:chat", "user:write:chat", "user:bot", "moderation:read"] ∧
    Scope.IsValid "" = false ∧ Scope.IsValid "random" = false ∧
    Scope.IsValid "invalid:scope" = false := by
  refine ⟨?_, rfl, by decide, rfl, by decide, by decide, by decide⟩
  intro s
  simp only [Scope.IsValid, AllScopes, Bool.or_eq_true, decide_eq_true_eq, List.mem_cons,
    List.mem_singleton, List.not_mem_nil, or_false, or_assoc]

/-- Claim C23: for every list of scopes `FilterValidScopes` returns the
elements that satisfy `Scope.IsValid` and `FilterInvalidScopes` those that do
not, each as `List.filter` does: in the original order, an element that
occurs several times being kept as often. The two results together are a
rearrangement of the input, no element is in both, and their lengths add up
to the length of the input. -/
theorem filter_scopes_partition (scopes : List String) :
    FilterValidScopes scopes = scopes.filter Scope.IsValid ∧
    FilterInvalidScopes scopes = scopes.filter (fun scope => !Scope.IsValid scope) ∧
    (FilterValidScopes scopes ++ FilterInvalidScopes scopes).Perm scopes ∧
    (∀ scope,
      ¬ (scope ∈ FilterValidScopes scopes ∧ scope ∈ FilterInvalidScopes scopes)) ∧
    (FilterValidScopes scopes).length + (FilterInvalidScopes scopes).length
      = scopes.length := by
  have hvalid : FilterValidScopes scopes = scopes.filter Scope.IsValid := by
    unfold FilterValidScopes
    rw [filterLoop_eq Scope.IsValid scopes []]
    rfl
  have hinvalid : FilterInvalidScopes scopes
      = scopes.filter (fun scope => !Scope.IsValid scope) := by
    unfold FilterInvalidScopes
    rw [filterLoop_eq (fun scope => !Scope.IsValid scope) scopes []]
    rfl
  have hperm : (scopes.filter Scope.IsValid
      ++ scopes.filter (fun scope => !Scope.IsValid scope)).Perm scopes :=
    List.filter_append_perm Scope.IsValid scopes
  refine ⟨hvalid, hinvalid, ?_, ?_, ?_⟩
  · rw [hvalid, hinvalid]
    exact hperm
  · intro scope h
    rw [hvalid, hinvalid] at h
    simp only [List.mem_filter, Bool.not_eq_true'] at h
    rw [h.1.2] at h
    exact absurd h.2.2 (by decide)
  · rw [hvalid, hinvalid, ← List.length_append]
    exact hperm.length_eq

/-! ## Commercial lengths: claim C24 -/

theorem CommercialLength.IsValid_iff (cl : Int) :
    CommercialLength.IsValid cl = true
      ↔ cl = 30 ∨ cl = 60 ∨ cl = 90 ∨ cl = 120 ∨ cl = 150 ∨ cl = 180 := by
  simp only [CommercialLength.IsValid, Bool.or_eq_true, decide_eq_true_eq, or_assoc]

/-- Claim C24: for every integer `cl`, `Validate` returns a valid length;
when `cl` is at most 180 the result is at least `cl` and no valid length that
is at least `cl` is smaller; when `cl` exceeds 180 the result is 180; and a
valid length is returned unchanged. -/
theorem Validate_rounds_up_to_valid (cl : Int) :
    CommercialLength.IsValid (CommercialLength.Validate cl) = true ∧
    (cl ≤ 180 → cl ≤ CommercialLength.Validate cl ∧
      ∀ allowed, CommercialLength.IsValid allowed = true → cl ≤ allowed →
        CommercialLength.Validate cl ≤ allowed) ∧
    (180 < cl → CommercialLength.Validate cl = 180) ∧
    (CommercialLength.IsValid cl = true → CommercialLength.Validate cl = cl) := by
  refine ⟨?_, ?_, ?_, ?_⟩
  · rw [CommercialLength.IsValid_iff]
    unfold CommercialLength.Validate
    split_ifs <;> simp
  · intro hle
    constructor
    · unfold CommercialLength.Validate
      split_ifs <;> omega
    · intro allowed hallowed hge
      rw [CommercialLength.IsValid_iff] at hallowed
      unfold CommercialLength.Validate
      split_ifs <;> omega
  · intro hgt
    unfold CommercialLength.Validate
    split_ifs <;> omega
  · intro hvalid
    rw [CommercialLength.IsValid_iff] at hvalid
    unfold CommercialLength.Validate
    split_ifs <;> omega

/-- Witness for C24: 45 is rounded up to 60, the smallest valid length that
is at least 45; 200 gives 180; 90 is valid and stays 90; -5 gives 30. -/
theorem Validate_rounds_up_to_valid_witness :
    (45 ≤ CommercialLength.Validate 45 ∧
      ∀ allowed, CommercialLength.IsValid allowed = true → 45 ≤ allowed →
        CommercialLength.Validate 45 ≤ allowed) ∧
    CommercialLength.Validate 45 = 60 ∧
    CommercialLength.Validate 200 = 180 ∧
    CommercialLength.Validate 90 = 90 ∧
    CommercialLength.Validate (-5) = 30 :=
  ⟨(Validate_rounds_up_to_valid 45).2.1 (by decide), by decide,
   (Validate_rounds_up_to_valid 200).2.2.1 (by decide),
   (Validate_rounds_up_to_valid 90).2.2.2 (by decide), by decide⟩

/-! ## The option encoder: claims C27 and C30 -/

theorem fieldParts_of_untagged (fl : ROFlag) (fieldType : StructField) (v : GoValue)
    (htag : fieldType.jsonTag = "") : fieldParts fl fieldType v = [] := by
  have hkey : getJSONFieldName fieldType = "" := by simp [getJSONFieldName, htag]
  unfold fieldParts appendField
  cases (if v.kind = .pointer then v.Elem else some v) with
  | none => rfl
  | some x =>
    by_cases hz : isZeroValue x = true
    · simp [hz]
    · simp [hz, hkey]

theorem fieldParts_of_pointer_to_zero (fl : ROFlag) (fieldType : StructField) (addr : Nat)
    (z : GoValue) (hz : isZeroValue z = true) :
    fieldParts fl fieldType (.ptr addr z) = [] := by
  simp [fieldParts, appendField, GoValue.kind, GoValue.Elem, hz]

/-- Claim C27: the fields of a struct embedded directly in the option record
are encoded like fields of the record, at the place of the embedding; a
field of that embedded struct which carries no json tag, as a struct embedded
in it does in every record of `options.go`, contributes nothing whatever its
value, so the fields of the inner struct are not encoded: the output is the
one on the record without the inner struct. -/
theorem parseOptions_flattens_one_level (pre post : List (StructField × GoValue))
    (name : String) (exported : Bool) (tag : String)
    (epre epost : List (StructField × GoValue)) (inner : StructField) (nested : GoValue)
    (htag : inner.jsonTag = "") :
    entryParts ({ name := name, exported := exported, jsonTag := tag, anonymous := true },
        .struct (epre ++ (inner, nested) :: epost))
      = embeddedParts (ROFlag.none.field
          { name := name, exported := exported, jsonTag := tag, anonymous := true }) epre
        ++ embeddedParts (ROFlag.none.field
          { name := name, exported := exported, jsonTag := tag, anonymous := true }) epost ∧
    parseOptions (some (.struct (pre ++
        ({ name := name, exported := exported, jsonTag := tag, anonymous := true },
          .struct (epre ++ (inner, nested) :: epost)) :: post)))
      = parseOptions (some (.struct (pre ++
        ({ name := name, exported := exported, jsonTag := tag, anonymous := true },
          .struct (epre ++ epost)) :: post))) := by
  have hentry : ∀ fl : ROFlag, embeddedParts fl (epre ++ (inner, nested) :: epost)
      = embeddedParts fl epre ++ embeddedParts fl epost := by
    intro fl
    rw [embeddedParts_append]
    simp only [embeddedParts]
    rw [fieldParts_of_untagged _ inner nested htag]
    simp
  refine ⟨?_, ?_⟩
  · rw [entryParts_embedded, hentry]
  · rw [parseOptions_struct, parseOptions_struct, recordParts_append, recordParts_append]
    simp only [recordParts, entryParts_embedded, hentry, embeddedParts_append]

/-- Witness for C27: in `ClipsBroadcasterIdOptions` the field `EndedAt` of
the embedded `BaseClipsOptions` is encoded, and `First` = 5 and `After` =
"abc" of the `BaseOptions` embedded in `BaseClipsOptions` are not: the output
is the one on the record whose `BaseClipsOptions` has no `BaseOptions`. -/
theorem parseOptions_flattens_one_level_witness :
    parseOptions (some (mkClipsBroadcasterIdOptions
        (mkBaseClipsOptions (mkBaseOptions (.ptr 1 (.int 5)) (.ptr 2 (.str "abc")) .nilPtr)
          (.ptr 3 (.str "2024-01-01")) .nilPtr)
        (.str "123")))
      = parseOptions (some (.struct ([] ++
        ({ name := "BaseClipsOptions", exported := true, jsonTag := "", anonymous := true },
          .struct ([] ++
            [(exportedField "EndedAt" "ended_at,omitempty", .ptr 3 (.str "2024-01-01")),
             (exportedField "StartedAt" "started_at,omitempty", .nilPtr)])) ::
        [(exportedField "BroadcasterID" "broadcaster_id", .str "123")]))) ∧
    parseOptions (some (mkClipsBroadcasterIdOptions
        (mkBaseClipsOptions (mkBaseOptions (.ptr 1 (.int 5)) (.ptr 2 (.str "abc")) .nilPtr)
          (.ptr 3 (.str "2024-01-01")) .nilPtr)
        (.str "123")))
      = some "ended_at=2024-01-01&broadcaster_id=123" :=
  ⟨(parseOptions_flattens_one_level [] [(exportedField "BroadcasterID" "broadcaster_id",
        .str "123")] "BaseClipsOptions" true "" []
      [(exportedField "EndedAt" "ended_at,omitempty", .ptr 3 (.str "2024-01-01")),
       (exportedField "StartedAt" "started_at,omitempty", .nilPtr)]
      (mkBaseOptions (.ptr 1 (.int 5)) (.ptr 2 (.str "abc")) .nilPtr).1
      (mkBaseOptions (.ptr 1 (.int 5)) (.ptr 2 (.str "abc")) .nilPtr).2 rfl).2,
   by decide⟩

/-- Claim C30: a pointer field whose pointee is a zero value (false, 0, "",
and every other value `isZeroValue` accepts) contributes no part, like a nil
pointer: on every record, with the field at the top level or in a directly
embedded struct, the output with the field pointing to such a value is the
output with the field nil. -/
theorem parseOptions_pointer_to_zero_like_nil (fieldType : StructField) (addr : Nat)
    (z : GoValue) (hz : isZeroValue z = true) (pre post : List (StructField × GoValue)) :
    (∀ fl parts, appendField fl parts fieldType (.ptr addr z) = parts) ∧
    parseOptions (some (.struct (pre ++ (fieldType, .ptr addr z) :: post)))
      = parseOptions (some (.struct (pre ++ (fieldType, .nilPtr) :: post))) ∧
    (∀ name exported tag epre epost,
      parseOptions (some (.struct (pre ++
          ({ name := name, exported := exported, jsonTag := tag, anonymous := true },
            .struct (epre ++ (fieldType, .ptr addr z) :: epost)) :: post)))
        = parseOptions (some (.struct (pre ++
          ({ name := name, exported := exported, jsonTag := tag, anonymous := true },
            .struct (epre ++ (fieldType, .nilPtr) :: epost)) :: post)))) := by
  have hnil : ∀ fl : ROFlag, fieldParts fl fieldType .nilPtr = [] := fun fl => rfl
  have hzero := fun fl : ROFlag => fieldParts_of_pointer_to_zero fl fieldType addr z hz
  refine ⟨?_, ?_, ?_⟩
  · intro fl parts
    rw [appendField_eq, hzero]
    simp
  · rw [parseOptions_struct, parseOptions_struct, recordParts_append, recordParts_append]
    simp [recordParts, entryParts, GoValue.kind, hnil, hzero]
  · intro name exported tag epre epost
    rw [parseOptions_struct, parseOptions_struct, recordParts_append, recordParts_append]
    simp only [recordParts, entryParts_embedded, embeddedParts_append, embeddedParts, hnil,
      hzero]

/-- Witness for C30: `SearchChannelsOptions` with `LiveOnly` pointing to
false and `First` pointing to 0 encodes like the record with both nil, to
"query=abc": neither "live_only=false" nor "first=0" is sent. -/
theorem parseOptions_pointer_to_zero_like_nil_witness :
    parseOptions (some (.struct
        ([mkSearchOptions (.str "abc") (.ptr 1 (.int 0)) .nilPtr] ++
          (exportedField "LiveOnly" "live_only,omitempty", .ptr 2 (.bool false)) :: [])))
      = parseOptions (some (.struct
        ([mkSearchOptions (.str "abc") (.ptr 1 (.int 0)) .nilPtr] ++
          (exportedField "LiveOnly" "live_only,omitempty", .nilPtr) :: []))) ∧
    parseOptions (some (mkSearchChannelsOptions
        (mkSearchOptions (.str "abc") (.ptr 1 (.int 0)) .nilPtr) (.ptr 2 (.bool false))))
      = some "query=abc" :=
  ⟨(parseOptions_pointer_to_zero_like_nil (exportedField "LiveOnly" "live_only,omitempty") 2
      (.bool false) rfl [mkSearchOptions (.str "abc") (.ptr 1 (.int 0)) .nilPtr] []).2.1,
   by decide⟩

/-! ## Faults: claims C28 and C29 -/

theorem update_without_access_token (env : Env) (fuel : Nat) (s : Sys)
    (endpoint method : String) (body : Option String)
    (hslash : endpoint.data.head? = some '/')
    (hnone : s.client.accessToken = none)
    (hurl : env.newRequestErr method.toUpper (s.client.baseURL ++ endpoint) = none) :
    update env fuel s endpoint (body.map Except.ok) method = (.panic, s) := by
  cases fuel <;> cases body <;>
    simp [update, updateBody, hslash, hnone, hurl]

/-- Claim C28 at its failing input. A client made without access token and
with the scope "clips:edit" calls `CreateClip`: the scope test passes, `post`
reaches `update`, the request is built, and `"Bearer " + *c.accessToken`
dereferences the nil pointer, so the call faults before any request is sent.
The same holds for `post`, `put`, `patch` and `delete` on "/users" with every
bound on nested calls, while `get` on the same client first fetches an app
access token and returns the body. -/
theorem update_faults_without_access_token :
    CreateClip sampleEnv (fun body => Except.ok body) 5
        { client := { sampleClient none none false with scopes := [ScopeClipsEdit] }
          trace := [] }
        (.struct [(exportedField "BroadcasterID" "broadcaster_id", .str "123"),
                  (exportedField "HasDelay" "has_delay,omitempty", .nilPtr)])
      = (.panic,
         { client := { sampleClient none none false with scopes := [ScopeClipsEdit] }
           trace := [] }) ∧
    (∀ fuel,
      post sampleEnv fuel (sampleSys none none false) "/users" none
        = (.panic, sampleSys none none false) ∧
      put sampleEnv fuel (sampleSys none none false) "/users" none
        = (.panic, sampleSys none none false) ∧
      patch sampleEnv fuel (sampleSys none none false) "/users" none
        = (.panic, sampleSys none none false) ∧
      delete sampleEnv fuel (sampleSys none none false) "/users" none
        = (.panic, sampleSys none none false)) ∧
    (get sampleEnv 5 (sampleSys none none false) "/users" "helix").1 = .ok "data" := by
  refine ⟨rfl, fun fuel => ⟨?_, ?_, ?_, ?_⟩, by decide⟩
  · exact update_without_access_token sampleEnv fuel (sampleSys none none false) "/users"
      "post" none rfl rfl (by decide)
  · exact update_without_access_token sampleEnv fuel (sampleSys none none false) "/users"
      "put" none rfl rfl (by decide)
  · exact update_without_access_token sampleEnv fuel (sampleSys none none false) "/users"
      "patch" none rfl rfl (by decide)
  · exact update_without_access_token sampleEnv fuel (sampleSys none none false) "/users"
      "delete" none rfl rfl (by decide)

theorem parseOptions_of_interface (options : GoValue) (hkind : options.kind = .interface) :
    parseOptions (some options) = none := by
  cases options <;> simp [GoValue.kind] at hkind <;> rfl

theorem GetClips_panics {α : Type} (env : Env) (decode : String → Except String α)
    (fuel : Nat) (s : Sys) (options : Option GoValue) :
    GetClips env decode fuel s options = (.panic, s) := by
  cases options <;> rfl

/-- Claim C29 at its failing input. `GetClips` is called with a
`ClipsBroadcasterIdOptions` value; `&options` points to a variable of type
`any`, so `reflect.ValueOf(options).Elem()` has the kind `Interface` and
`v.NumField()` faults: `parseOptions` returns nothing, and `GetClips` faults
for every argument, without sending a request, as `GetStreamMarkers` does
once its scope test has passed. The same record passed by pointer to its own
type is encoded. -/
theorem parseOptions_faults_on_interface_pointer :
    parseOptions (some (.iface (mkClipsBroadcasterIdOptions
        (mkBaseClipsOptions (mkBaseOptions .nilPtr .nilPtr .nilPtr) .nilPtr .nilPtr)
        (.str "123")))) = none ∧
    parseOptions (some (mkClipsBroadcasterIdOptions
        (mkBaseClipsOptions (mkBaseOptions .nilPtr .nilPtr .nilPtr) .nilPtr .nilPtr)
        (.str "123"))) = some "broadcaster_id=123" ∧
    GetClips sampleEnv (fun body => Except.ok body) 5 (sampleSys (some "token") none false)
        (some (mkClipsBroadcasterIdOptions
          (mkBaseClipsOptions (mkBaseOptions .nilPtr .nilPtr .nilPtr) .nilPtr .nilPtr)
          (.str "123")))
      = (.panic, sampleSys (some "token") none false) ∧
    (∀ options fuel,
      GetClips sampleEnv (fun body => Except.ok body) fuel
          (sampleSys (some "token") none false) options
        = (.panic, sampleSys (some "token") none false)) ∧
    (∀ options fuel,
      GetStreamMarkers sampleEnv (fun body => Except.ok body) fuel
          { client := { sampleClient (some "token") none false with
                        scopes := [ScopeUserReadBroadcast] }
            trace := [] } options
        = (.panic,
           { client := { sampleClient (some "token") none false with
                         scopes := [ScopeUserReadBroadcast] }
             trace := [] })) := by
  refine ⟨rfl, by decide, rfl, fun options fuel => GetClips_panics _ _ _ _ _, ?_⟩
  intro options fuel
  cases options <;> rfl

/-! ## The exported `ParseOptions`: claim C25 -/

/-- Claim C25 at its failing input, the record of `TestParseOptionsNilFields`
with the nil pointer `Name` and the nil slice `Items`: the nil pointer is
skipped, and the nil slice fails the test `field.Kind() == reflect.Slice &&
!field.IsNil()`, so the other branch sets the key `Items` to the `%v` text
"[]" of the slice and the output is "Items=%5B%5D". A slice that is empty
and not nil gives no key, and so does a record with the nil pointer only. -/
theorem ParseOptions_keeps_nil_slice :
    ParseOptions (.struct [(exportedField "Name" "name", .nilPtr),
        (exportedField "Items" "items", .nilSlice)]) = "Items=%5B%5D" ∧
    ParseOptions (.struct [(exportedField "Name" "name", .nilPtr),
        (exportedField "Items" "items", .slice [])]) = "" ∧
    ParseOptions (.struct [(exportedField "Name" "name", .nilPtr)]) = "" ∧
    ParseOptions (.struct [(exportedField "Name" "name", .nilPtr),
        (exportedField "Items" "items", .slice [.str "a", .str "b c"])])
      = "Items=a&Items=b+c" := by
  decide

/-! ## Stream thumbnails: claim C26 -/

theorem replaceLoop_skip (old new : List Char) (xs rest : List Char) :
    replaceLoop old new xs.length (xs ++ rest) = replaceLoop old new 0 rest := by
  induction xs with
  | nil => rfl
  | cons x xs ih =>
    simp only [List.length_cons, List.cons_append, replaceLoop]
    exact ih

theorem replaceLoop_match (c : Char) (q new rest : List Char) :
    replaceLoop (c :: q) new 0 ((c :: q) ++ rest) = new ++ replaceLoop (c :: q) new 0 rest := by
  have hpre : (c :: q).isPrefixOf (c :: (q ++ rest)) = true := by
    rw [List.isPrefixOf_iff_prefix]
    exact ⟨rest, rfl⟩
  have hunfold : replaceLoop (c :: q) new 0 (c :: (q ++ rest))
      = if (c :: q).isPrefixOf (c :: (q ++ rest)) then
          new ++ replaceLoop (c :: q) new ((c :: q).length - 1) (q ++ rest)
        else c :: replaceLoop (c :: q) new 0 (q ++ rest) := rfl
  rw [List.cons_append, hunfold, hpre, if_pos rfl]
  have hlen : (c :: q).length - 1 = q.length := by simp
  rw [hlen, replaceLoop_skip]

theorem replaceLoop_step (old new : List Char) (c : Char) (cs : List Char)
    (h : ¬ old <+: c :: cs) :
    replaceLoop old new 0 (c :: cs) = c :: replaceLoop old new 0 cs := by
  have hpre : old.isPrefixOf (c :: cs) = false := by
    rw [Bool.eq_false_iff]
    intro hp
    exact h (List.isPrefixOf_iff_prefix.mp hp)
  have hunfold : replaceLoop old new 0 (c :: cs)
      = if old.isPrefixOf (c :: cs) then new ++ replaceLoop old new (old.length - 1) cs
        else c :: replaceLoop old new 0 cs := rfl
  rw [hunfold, hpre]
  rfl

theorem replaceLoop_run (b : Char) (q new : List Char) (run rest : List Char)
    (hrun : ∀ c ∈ run, c ≠ b) :
    replaceLoop (b :: q) new 0 (run ++ rest) = run ++ replaceLoop (b :: q) new 0 rest := by
  induction run with
  | nil => rfl
  | cons c run ih =>
    have hc : c ≠ b := hrun c (List.mem_cons_self _ _)
    have hno : ¬ (b :: q) <+: c :: (run ++ rest) := by
      intro hp
      rw [List.cons_prefix_cons] at hp
      exact hc hp.1.symm
    rw [List.cons_append, replaceLoop_step _ _ _ _ hno,
      ih (fun x hx => hrun x (List.mem_cons_of_mem _ hx))]
    rfl

theorem prefix_of_append_guard (q xs rest : List Char) (h : q <+: xs ++ rest)
    (hrest : rest = [] ∨ ∃ c tail, rest = c :: tail ∧ c ∉ q) : q <+: xs := by
  induction xs generalizing q with
  | nil =>
    rcases hrest with hnil | ⟨c, tail, hcons, hc⟩
    · rw [hnil] at h
      exact h
    · rw [hcons, List.nil_append, List.prefix_cons_iff] at h
      rcases h with hq | ⟨t, hq, _⟩
      · rw [hq]
      · rw [hq] at hc
        exact absurd (List.mem_cons_self _ _) hc
  | cons x xs ih =>
    rw [List.cons_append, List.prefix_cons_iff] at h
    rcases h with hq | ⟨t, hq, ht⟩
    · rw [hq]
      exact List.nil_prefix
    · rw [hq, List.cons_prefix_cons]
      refine ⟨rfl, ih t ht ?_⟩
      rcases hrest with hnil | ⟨c, tail, hcons, hc⟩
      · exact Or.inl hnil
      · refine Or.inr ⟨c, tail, hcons, ?_⟩
        intro hmem
        exact hc (by rw [hq]; exact List.mem_cons_of_mem _ hmem)

theorem replaceLoop_text (b : Char) (q new : List Char) (text rest : List Char)
    (hfree : ¬ (b :: q) <:+: text)
    (hrest : rest = [] ∨ ∃ c tail, rest = c :: tail ∧ c ∉ q) :
    replaceLoop (b :: q) new 0 (text ++ rest) = text ++ replaceLoop (b :: q) new 0 rest := by
  induction text with
  | nil => rfl
  | cons c text ih =>
    have hno : ¬ (b :: q) <+: c :: (text ++ rest) := by
      intro hp
      rw [List.cons_prefix_cons] at hp
      have hq := prefix_of_append_guard q text rest hp.2 hrest
      apply hfree
      rw [List.infix_cons_iff]
      left
      rw [List.cons_prefix_cons]
      exact ⟨hp.1, hq⟩
    have htail : ¬ (b :: q) <:+: text := by
      intro hin
      apply hfree
      rw [List.infix_cons_iff]
      exact Or.inr hin
    rw [List.cons_append, replaceLoop_step _ _ _ _ hno, ih htail]
    rfl

theorem replaceLoop_fillTemplate (b : Char) (q new : List Char)
    (f g : Placeholder → List Char)
    (hseg : ∀ p, (f p = b :: q ∧ g p = new) ∨
      (g p = f p ∧ ∀ rest, replaceLoop (b :: q) new 0 (f p ++ rest)
        = f p ++ replaceLoop (b :: q) new 0 rest))
    (hhead : ∀ p, ∃ c tail, f p = c :: tail ∧ c ∉ q)
    (first : List Char) (rest : List (Placeholder × List Char))
    (hfirst : ¬ (b :: q) <:+: first)
    (hrest : ∀ piece ∈ rest, ¬ (b :: q) <:+: piece.2) :
    replaceLoop (b :: q) new 0 (fillTemplate f first rest) = fillTemplate g first rest := by
  induction rest generalizing first with
  | nil =>
    have h := replaceLoop_text b q new first [] hfirst (Or.inl rfl)
    simp only [List.append_nil] at h
    rw [fillTemplate, fillTemplate, h]
    simp [replaceLoop]
  | cons piece rest ih =>
    obtain ⟨p, text⟩ := piece
    obtain ⟨c, tail, hc, hcq⟩ := hhead p
    have htext : ¬ (b :: q) <:+: text := hrest (p, text) (List.mem_cons_self _ _)
    have hih := ih text htext (fun piece hmem => hrest piece (List.mem_cons_of_mem _ hmem))
    have hguard : f p ++ fillTemplate f text rest = []
        ∨ ∃ c tail, f p ++ fillTemplate f text rest = c :: tail ∧ c ∉ q :=
      Or.inr ⟨c, tail ++ fillTemplate f text rest, by rw [hc]; rfl, hcq⟩
    rw [fillTemplate, fillTemplate, replaceLoop_text b q new first _ hfirst hguard]
    rcases hseg p with ⟨hf, hg⟩ | ⟨hg, hcopy⟩
    · rw [hf, hg]
      have hmatch := replaceLoop_match b q new (fillTemplate f text rest)
      rw [hmatch, hih]
    · rw [hg, hcopy, hih]

theorem fillTemplate_append (f : Placeholder → List Char) (a first : List Char)
    (rest : List (Placeholder × List Char)) :
    fillTemplate f (a ++ first) rest = a ++ fillTemplate f first rest := by
  cases rest with
  | nil => rfl
  | cons piece rest =>
    obtain ⟨p, text⟩ := piece
    simp [fillTemplate]

theorem placeholderFree_nil : placeholderFree [] := by
  constructor <;>
  · intro h
    have hnil := List.eq_nil_of_infix_nil h
    cases hnil

theorem placeholderFree_of_suffix (a b : List Char) (h : placeholderFree (a ++ b)) :
    placeholderFree b :=
  ⟨fun hin => h.1 (List.IsInfix.trans hin (List.suffix_append a b).isInfix),
   fun hin => h.2 (List.IsInfix.trans hin (List.suffix_append a b).isInfix)⟩

theorem exists_cut (cs : List Char) :
    ∃ first rest, cutAtPlaceholders first rest
      ∧ cs = fillTemplate Placeholder.text first rest := by
  induction cs with
  | nil => exact ⟨[], [], ⟨placeholderFree_nil, fun _ h => by cases h⟩, rfl⟩
  | cons c cs ih =>
    obtain ⟨first, rest, ⟨hfirst, hrest⟩, hcs⟩ := ih
    have hcons : c :: cs = fillTemplate Placeholder.text (c :: first) rest := by
      rw [hcs]
      exact (fillTemplate_append Placeholder.text [c] first rest).symm
    by_cases hfree : placeholderFree (c :: first)
    · exact ⟨c :: first, rest, ⟨hfree, hrest⟩, hcons⟩
    · have hstart : ∃ p : Placeholder, p.text <+: c :: first := by
        by_cases hW : Placeholder.text .width <:+: c :: first
        · rw [List.infix_cons_iff] at hW
          rcases hW with hW | hW
          · exact ⟨.width, hW⟩
          · exact absurd hW hfirst.1
        · by_cases hH : Placeholder.text .height <:+: c :: first
          · rw [List.infix_cons_iff] at hH
            rcases hH with hH | hH
            · exact ⟨.height, hH⟩
            · exact absurd hH hfirst.2
          · exact absurd ⟨hW, hH⟩ hfree
      obtain ⟨p, tail, htail⟩ := hstart
      have hne : p.text ≠ [] := by cases p <;> decide
      have hsuffix : tail <:+ first := by
        cases hp : p.text with
        | nil => exact absurd hp hne
        | cons x xs =>
          rw [hp, List.cons_append] at htail
          injection htail with _ hxs
          exact ⟨xs, hxs⟩
      have htailfree : placeholderFree tail := by
        obtain ⟨pre, hpre⟩ := hsuffix
        rw [← hpre] at hfirst
        exact placeholderFree_of_suffix pre tail hfirst
      refine ⟨[], (p, tail) :: rest, ⟨placeholderFree_nil, ?_⟩, ?_⟩
      · intro piece hmem
        rcases List.mem_cons.mp hmem with h | h
        · rw [h]
          exact htailfree
        · exact hrest piece h
      · rw [hcons, ← htail, fillTemplate_append]
        rfl

theorem digitChar_isDecimalDigit (n : Nat) (h : n < 10) :
    isDecimalDigit (Nat.digitChar n) = true := by
  have hall : ∀ k, k < 10 → isDecimalDigit (Nat.digitChar k) = true := by decide
  exact hall n h

theorem toDigitsCore_digits (fuel n : Nat) (ds : List Char)
    (hds : ∀ c ∈ ds, isDecimalDigit c = true) :
    ∀ c ∈ Nat.toDigitsCore 10 fuel n ds, isDecimalDigit c = true := by
  induction fuel generalizing n ds with
  | zero => exact hds
  | succ fuel ih =>
    have hcons : ∀ c ∈ Nat.digitChar (n % 10) :: ds, isDecimalDigit c = true := by
      intro c hc
      rcases List.mem_cons.mp hc with h | h
      · rw [h]
        exact digitChar_isDecimalDigit _ (Nat.mod_lt _ (by decide))
      · exact hds c h
    simp only [Nat.toDigitsCore]
    split
    · exact hcons
    · exact ih _ _ hcons

theorem toDigitsCore_ne_nil (fuel n : Nat) (ds : List Char) (hds : ds ≠ []) :
    Nat.toDigitsCore 10 fuel n ds ≠ [] := by
  induction fuel generalizing n ds with
  | zero => exact hds
  | succ fuel ih =>
    simp only [Nat.toDigitsCore]
    split
    · exact List.cons_ne_nil _ _
    · exact ih _ _ (List.cons_ne_nil _ _)

theorem Itoa_digits (i : Int) (hpos : 0 < i) :
    (Itoa i).data ≠ [] ∧ ∀ c ∈ (Itoa i).data, isDecimalDigit c = true := by
  obtain ⟨n, rfl⟩ := Int.eq_ofNat_of_zero_le (Int.le_of_lt hpos)
  have hdata : (Itoa (n : Int)).data = Nat.toDigitsCore 10 (n + 1) n [] := rfl
  rw [hdata]
  constructor
  · simp only [Nat.toDigitsCore]
    split
    · exact List.cons_ne_nil _ _
    · exact toDigitsCore_ne_nil _ _ _ (List.cons_ne_nil _ _)
  · exact toDigitsCore_digits _ _ _ (fun c hc => by cases hc)

theorem digit_not_in_placeholder (c : Char) (hc : isDecimalDigit c = true) :
    c ≠ '\x7b' ∧ c ∉ "height\x7d".data := by
  simp only [isDecimalDigit, Bool.and_eq_true, decide_eq_true_eq] at hc
  refine ⟨?_, ?_⟩
  · intro h
    rw [h] at hc
    exact absurd hc.2 (by decide)
  · intro hmem
    simp only [List.mem_cons, List.mem_singleton, List.not_mem_nil, or_false] at hmem
    rcases hmem with h | h | h | h | h | h | h <;>
      (rw [h] at hc; exact absurd hc.2 (by decide))

theorem fill_two_passes (w h first : List Char) (rest : List (Placeholder × List Char))
    (hw : w ≠ []) (hwd : ∀ c ∈ w, isDecimalDigit c = true)
    (hcut : cutAtPlaceholders first rest) :
    replaceLoop "\x7bheight\x7d".data h 0
        (replaceLoop "\x7bwidth\x7d".data w 0 (fillTemplate Placeholder.text first rest))
      = fillTemplate (fun p => match p with | .width => w | .height => h) first rest := by
  have hpass1 : replaceLoop "\x7bwidth\x7d".data w 0 (fillTemplate Placeholder.text first rest)
      = fillTemplate (fun p => match p with
          | .width => w
          | .height => "\x7bheight\x7d".data) first rest := by
    refine replaceLoop_fillTemplate '\x7b' "width\x7d".data w Placeholder.text _ ?_ ?_ first
      rest hcut.1.1 (fun piece hmem => (hcut.2 piece hmem).1)
    · intro p
      cases p with
      | width => exact Or.inl ⟨rfl, rfl⟩
      | height =>
        refine Or.inr ⟨rfl, fun tail => ?_⟩
        have hno : ¬ ('\x7b' :: "width\x7d".data) <+: '\x7b' :: ("height\x7d".data ++ tail) := by
          intro hp
          rw [List.cons_prefix_cons] at hp
          have h2 := hp.2
          have hdata : "width\x7d".data ++ [] = 'w' :: "idth\x7d".data := rfl
          have hdata2 : "height\x7d".data ++ tail = 'h' :: ("eight\x7d".data ++ tail) := rfl
          rw [← List.append_nil "width\x7d".data, hdata, hdata2, List.cons_prefix_cons] at h2
          exact absurd h2.1 (by decide)
        have hstep := replaceLoop_step ('\x7b' :: "width\x7d".data) w '\x7b'
          ("height\x7d".data ++ tail) hno
        have hrun := replaceLoop_run '\x7b' "width\x7d".data w "height\x7d".data tail
          (by decide)
        show replaceLoop ('\x7b' :: "width\x7d".data) w 0
            ('\x7b' :: ("height\x7d".data ++ tail))
          = '\x7b' :: ("height\x7d".data
              ++ replaceLoop ('\x7b' :: "width\x7d".data) w 0 tail)
        rw [hstep, hrun]
    · intro p
      cases p with
      | width => exact ⟨'\x7b', "width\x7d".data, rfl, by decide⟩
      | height => exact ⟨'\x7b', "height\x7d".data, rfl, by decide⟩
  rw [hpass1]
  refine replaceLoop_fillTemplate '\x7b' "height\x7d".data h _ _ ?_ ?_ first
    rest hcut.1.2 (fun piece hmem => (hcut.2 piece hmem).2)
  · intro p
    cases p with
    | width =>
      exact Or.inr ⟨rfl, fun tail => replaceLoop_run '\x7b' "height\x7d".data h w tail
        (fun c hc => (digit_not_in_placeholder c (hwd c hc)).1)⟩
    | height => exact Or.inl ⟨rfl, rfl⟩
  · intro p
    cases p with
    | width =>
      cases hwl : w with
      | nil => exact absurd hwl hw
      | cons c tail =>
        refine ⟨c, tail, rfl, ?_⟩
        exact (digit_not_in_placeholder c (hwd c (by rw [hwl]; exact List.mem_cons_self _ _))).2
    | height => exact ⟨'\x7b', "height\x7d".data, rfl, by decide⟩

theorem infix_split (pat a b : List Char) (c : Char) (hc : c ∉ pat)
    (h : pat <:+: a ++ c :: b) : pat <:+: a ∨ pat <:+: b := by
  induction a with
  | nil =>
    rw [List.nil_append, List.infix_cons_iff] at h
    rcases h with h | h
    · rw [List.prefix_cons_iff] at h
      rcases h with h | ⟨t, h, _⟩
      · rw [h]
        exact Or.inl (List.nil_infix)
      · rw [h] at hc
        exact absurd (List.mem_cons_self _ _) hc
    · exact Or.inr h
  | cons x a ih =>
    rw [List.cons_append, List.infix_cons_iff] at h
    rcases h with h | h
    · have hpre : pat <+: x :: a := by
        have h2 : pat <+: (x :: a) ++ c :: b := h
        exact prefix_of_append_guard pat (x :: a) (c :: b) h2 (Or.inr ⟨c, b, rfl, hc⟩)
      exact Or.inl hpre.isInfix
    · rcases ih h with h2 | h2
      · exact Or.inl (List.infix_cons_iff.mpr (Or.inr h2))
      · exact Or.inr h2

theorem infix_after_run (pat run rest : List Char) (hne : pat ≠ [])
    (hrun : ∀ c ∈ run, c ∉ pat) (h : pat <:+: run ++ rest) : pat <:+: rest := by
  induction run with
  | nil => exact h
  | cons c run ih =>
    have h2 : pat <:+: [] ++ c :: (run ++ rest) := h
    rcases infix_split pat [] (run ++ rest) c (hrun c (List.mem_cons_self _ _)) h2 with h3 | h3
    · exact absurd (List.eq_nil_of_infix_nil h3) hne
    · exact ih (fun x hx => hrun x (List.mem_cons_of_mem _ hx)) h3

theorem fillTemplate_free (g : Placeholder → List Char) (pat : List Char) (hne : pat ≠ [])
    (hg : ∀ p, g p ≠ [] ∧ ∀ c ∈ g p, c ∉ pat)
    (first : List Char) (rest : List (Placeholder × List Char))
    (hfirst : ¬ pat <:+: first) (hrest : ∀ piece ∈ rest, ¬ pat <:+: piece.2) :
    ¬ pat <:+: fillTemplate g first rest := by
  induction rest generalizing first with
  | nil => exact hfirst
  | cons piece rest ih =>
    obtain ⟨p, text⟩ := piece
    intro h
    rw [fillTemplate] at h
    cases hgp : g p with
    | nil => exact absurd hgp (hg p).1
    | cons c run =>
      have hmem : ∀ x ∈ c :: run, x ∉ pat := by
        rw [← hgp]
        exact (hg p).2
      rw [hgp, List.cons_append] at h
      rcases infix_split pat first _ c (hmem c (List.mem_cons_self _ _)) h with h2 | h2
      · exact hfirst h2
      · have h3 := infix_after_run pat run _ hne
          (fun x hx => hmem x (List.mem_cons_of_mem _ hx)) h2
        exact ih text (hrest (p, text) (List.mem_cons_self _ _))
          (fun piece hp => hrest piece (List.mem_cons_of_mem _ hp)) h3

theorem digit_not_in_text (p : Placeholder) (c : Char) (hc : isDecimalDigit c = true) :
    c ∉ p.text := by
  simp only [isDecimalDigit, Bool.and_eq_true, decide_eq_true_eq] at hc
  intro hmem
  cases p with
  | width =>
    have hmem2 : c ∈ ['\x7b', 'w', 'i', 'd', 't', 'h', '\x7d'] := hmem
    simp only [List.mem_cons, List.mem_singleton, List.not_mem_nil, or_false] at hmem2
    rcases hmem2 with h | h | h | h | h | h | h <;>
      (rw [h] at hc; exact absurd hc.2 (by decide))
  | height =>
    have hmem2 : c ∈ ['\x7b', 'h', 'e', 'i', 'g', 'h', 't', '\x7d'] := hmem
    simp only [List.mem_cons, List.mem_singleton, List.not_mem_nil, or_false] at hmem2
    rcases hmem2 with h | h | h | h | h | h | h | h <;>
      (rw [h] at hc; exact absurd hc.2 (by decide))

theorem filled_placeholderFree (width height : Int) (hw : 0 < width) (hh : 0 < height)
    (first : List Char) (rest : List (Placeholder × List Char))
    (hcut : cutAtPlaceholders first rest) :
    placeholderFree (fillTemplate (fun p => match p with
      | .width => (Itoa width).data
      | .height => (Itoa height).data) first rest) := by
  have hg : ∀ q : Placeholder, ∀ p : Placeholder,
      (match p with
        | .width => (Itoa width).data
        | .height => (Itoa height).data) ≠ [] ∧
      ∀ c ∈ (match p with
        | .width => (Itoa width).data
        | .height => (Itoa height).data), c ∉ q.text := by
    intro q p
    cases p with
    | width =>
      exact ⟨(Itoa_digits width hw).1,
        fun c hc => digit_not_in_text q c ((Itoa_digits width hw).2 c hc)⟩
    | height =>
      exact ⟨(Itoa_digits height hh).1,
        fun c hc => digit_not_in_text q c ((Itoa_digits height hh).2 c hc)⟩
  exact ⟨fillTemplate_free _ _ (by decide) (hg .width) first rest hcut.1.1
      (fun piece hmem => (hcut.2 piece hmem).1),
    fillTemplate_free _ _ (by decide) (hg .height) first rest hcut.1.2
      (fun piece hmem => (hcut.2 piece hmem).2)⟩

theorem GetThumbnailUrl_data (s : Stream) (width height : Int) :
    (ReplaceAll (ReplaceAll s.ThumbnailURL "\x7bwidth\x7d" (Itoa width)) "\x7bheight\x7d"
        (Itoa height)).data
      = replaceLoop "\x7bheight\x7d".data (Itoa height).data 0
          (replaceLoop "\x7bwidth\x7d".data (Itoa width).data 0 s.ThumbnailURL.data) := by
  have hW : ("\x7bwidth\x7d" : String) ≠ "" := by decide
  have hH : ("\x7bheight\x7d" : String) ≠ "" := by decide
  simp only [ReplaceAll, if_neg hW, if_neg hH]

/-- Claim C26: every thumbnail template can be cut at its placeholders into
texts that hold no placeholder; and for every such cut, `GetThumbnailUrl`
returns the texts of the template with each "\x7bwidth\x7d" between them
replaced by the decimal width and each "\x7bheight\x7d" by the decimal height,
and no placeholder is left in the result. With nil options the width and the
height are 1920 and 1080, and with options each dimension is the one given
when that is positive and the default otherwise. -/
theorem GetThumbnailUrl_fills_placeholders (s : Stream) :
    (∃ first rest, cutAtPlaceholders first rest
      ∧ s.ThumbnailURL.data = fillTemplate Placeholder.text first rest) ∧
    (∀ first rest, cutAtPlaceholders first rest →
      s.ThumbnailURL.data = fillTemplate Placeholder.text first rest →
      (s.GetThumbnailUrl none).data
        = fillTemplate (fun p => match p with
            | .width => "1920".data
            | .height => "1080".data) first rest ∧
      (∀ o : ThumbnailUrlOptions,
        (s.GetThumbnailUrl (some o)).data
          = fillTemplate (fun p => match p with
              | .width => (Itoa (if o.Width > 0 then o.Width else 1920)).data
              | .height => (Itoa (if o.Height > 0 then o.Height else 1080)).data)
            first rest) ∧
      ∀ options, placeholderFree (s.GetThumbnailUrl options).data) := by
  refine ⟨exists_cut s.ThumbnailURL.data, ?_⟩
  intro first rest hcut htemplate
  have hfill : ∀ width height : Int, 0 < width →
      (ReplaceAll (ReplaceAll s.ThumbnailURL "\x7bwidth\x7d" (Itoa width)) "\x7bheight\x7d"
          (Itoa height)).data
        = fillTemplate (fun p => match p with
            | .width => (Itoa width).data
            | .height => (Itoa height).data) first rest := by
    intro width height hpos
    rw [GetThumbnailUrl_data, htemplate]
    exact fill_two_passes _ _ first rest (Itoa_digits width hpos).1 (Itoa_digits width hpos).2
      hcut
  have hwidth : ∀ o : ThumbnailUrlOptions,
      (0 : Int) < (if o.Width > 0 then o.Width else 1920) := by
    intro o
    split
    · assumption
    · decide
  have hheight : ∀ o : ThumbnailUrlOptions,
      (0 : Int) < (if o.Height > 0 then o.Height else 1080) := by
    intro o
    split
    · assumption
    · decide
  have hnone := hfill 1920 1080 (by decide)
  have hsome := fun o : ThumbnailUrlOptions => hfill _ (if o.Height > 0 then o.Height else 1080)
    (hwidth o)
  refine ⟨hnone, hsome, ?_⟩
  intro options
  cases options with
  | none =>
    have h : (s.GetThumbnailUrl none).data = _ := hnone
    rw [h]
    exact filled_placeholderFree 1920 1080 (by decide) (by decide) first rest hcut
  | some o =>
    have h : (s.GetThumbnailUrl (some o)).data = _ := hsome o
    rw [h]
    exact filled_placeholderFree _ _ (hwidth o) (hheight o) first rest hcut

/-- Witness for C26: the template of the test is cut at its two
placeholders; with nil options the result is the template with "1920" and
"1080" in their places, and with the width 1280 only (height 0) it holds
"1280" and the default "1080". -/
theorem GetThumbnailUrl_fills_placeholders_witness :
    (sampleStream.GetThumbnailUrl none).data
      = "https://static-cdn.jtvnw.net/previews-ttv/live_user_test-1920x1080.jpg".data ∧
    (sampleStream.GetThumbnailUrl (some { Width := 1280, Height := 0 })).data
      = "https://static-cdn.jtvnw.net/previews-ttv/live_user_test-1280x1080.jpg".data :=
  ⟨((GetThumbnailUrl_fills_placeholders sampleStream).2
      "https://static-cdn.jtvnw.net/previews-ttv/live_user_test-".data
      [(.width, "x".data), (.height, ".jpg".data)]
      ⟨by decide, by decide⟩ rfl).1,
   ((GetThumbnailUrl_fills_placeholders sampleStream).2
      "https://static-cdn.jtvnw.net/previews-ttv/live_user_test-".data
      [(.width, "x".data), (.height, ".jpg".data)]
      ⟨by decide, by decide⟩ rfl).2.1 { Width := 1280, Height := 0 }⟩

end Ktntwitchgo
